import Mathlib

/-! # ansicon: the ANSI escape sequence console driver (`ANSI.c`)

A shallow embedding of the escape-sequence interpreter (`ParseAndPrintString`,
`InterpretEscSeq`, the print buffer, `OriginalAttr`) and of the import-table
hook engine (`HookAPIOneMod`), followed by theorems about them.

Conventions of the embedding.

* The globals of `ANSI.c` are the fields of the structure `ANSI`; every C
  function that reads or writes them is a function `ANSI → ... → ANSI`.
* `int` values are `Int`, wrapped to 32 bits by `toInt32` where the C arithmetic
  can leave the range; `SHORT` stores go through `toSHORT`, `DWORD` stores
  through `toDWORD`.  `WORD`, `TCHAR` and code addresses are natural numbers.
* C arrays are functions from the index to the stored value; the bounds of an
  array are not part of its model.
* The console is outside the program.  Its calls are recorded, in order and
  with their arguments, in `ANSI.trace`; the part of the console the program
  reads back (`GetConsoleScreenBufferInfo`) is `ANSI.con`.
-/

namespace Ansicon

/-! ## Machine integers -/

/-- Two's-complement wrap of an integer to the range of a 32-bit `int`. -/
def toInt32 (x : Int) : Int := (x + 2147483648) % 4294967296 - 2147483648

/-- Two's-complement wrap of an integer to the range of a 16-bit `SHORT`. -/
def toSHORT (x : Int) : Int := (x + 32768) % 65536 - 32768

/-- Conversion of an `int` to the unsigned 32-bit `DWORD`. -/
def toDWORD (x : Int) : Nat := (x % 4294967296).toNat

/-- Store into a C array: `a[i] = v`. -/
def store {α : Type} (a : Nat → α) (i : Nat) (v : α) : Nat → α :=
  fun j => if j = i then v else a j

/-! ## The console, as the program sees it -/

structure COORD where
  X : Int
  Y : Int
deriving DecidableEq, Repr

structure SMALL_RECT where
  Left : Int
  Top : Int
  Right : Int
  Bottom : Int
deriving DecidableEq, Repr

structure CONSOLE_SCREEN_BUFFER_INFO where
  dwSize : COORD
  dwCursorPosition : COORD
  wAttributes : Nat
  srWindow : SMALL_RECT
deriving DecidableEq, Repr

/-- One call of the console API made by the driver, with its arguments. -/
inductive ConOp where
  | WriteConsole (text : List Nat)
  | SetConsoleTextAttribute (attr : Nat)
  | SetConsoleCursorPosition (pos : COORD)
  | FillConsoleOutputCharacter (ch : Nat) (len : Nat) (pos : COORD)
  | FillConsoleOutputAttribute (attr : Nat) (len : Nat) (pos : COORD)
  | ScrollConsoleScreenBuffer (rect : SMALL_RECT) (dest : COORD) (ch : Nat) (attr : Nat)
deriving DecidableEq, Repr

/-- How `WriteConsole` changes what `GetConsoleScreenBufferInfo` reports (the
cursor advances, the window may scroll).  This is behaviour of the console
host, not of `ANSI.c`, so the embedding takes it as a parameter. -/
abbrev WriteEffect := CONSOLE_SCREEN_BUFFER_INFO → List Nat → CONSOLE_SCREEN_BUFFER_INFO

/-! ## Constants -/

def ESC : Nat := 27
def MAX_ARG : Nat := 16
def BUFFER_SIZE : Nat := 256

def FOREGROUND_BLUE : Nat := 1
def FOREGROUND_GREEN : Nat := 2
def FOREGROUND_RED : Nat := 4
def FOREGROUND_INTENSITY : Nat := 8
def BACKGROUND_BLUE : Nat := 16
def BACKGROUND_GREEN : Nat := 32
def BACKGROUND_RED : Nat := 64
def BACKGROUND_INTENSITY : Nat := 128

def FOREGROUND_BLACK : Nat := 0
def FOREGROUND_WHITE : Nat := FOREGROUND_RED ||| FOREGROUND_GREEN ||| FOREGROUND_BLUE
def BACKGROUND_BLACK : Nat := 0
def BACKGROUND_WHITE : Nat := BACKGROUND_RED ||| BACKGROUND_GREEN ||| BACKGROUND_BLUE

/-- The table `foregroundcolor[8]`; an index outside the table reads 0. -/
def foregroundcolor (i : Nat) : Nat :=
  [ FOREGROUND_BLACK,
    FOREGROUND_RED,
    FOREGROUND_GREEN,
    FOREGROUND_RED ||| FOREGROUND_GREEN,
    FOREGROUND_BLUE,
    FOREGROUND_BLUE ||| FOREGROUND_RED,
    FOREGROUND_BLUE ||| FOREGROUND_GREEN,
    FOREGROUND_WHITE ].getD i 0

/-- The table `backgroundcolor[8]`; an index outside the table reads 0. -/
def backgroundcolor (i : Nat) : Nat :=
  [ BACKGROUND_BLACK,
    BACKGROUND_RED,
    BACKGROUND_GREEN,
    BACKGROUND_RED ||| BACKGROUND_GREEN,
    BACKGROUND_BLUE,
    BACKGROUND_BLUE ||| BACKGROUND_RED,
    BACKGROUND_BLUE ||| BACKGROUND_GREEN,
    BACKGROUND_WHITE ].getD i 0

/-- The table `attr2ansi[8]` of `OriginalAttr`. -/
def attr2ansi (i : Nat) : Nat := [0, 4, 2, 6, 1, 5, 3, 7].getD i 0

/-- The macro `isdigit(c)`: `'0' <= c && c <= '9'`. -/
def isdigit (c : Nat) : Bool := decide (48 ≤ c) && decide (c ≤ 57)

/-! ## The global variables of `ANSI.c` -/

structure ANSI where
  /-- handle to CONOUT$ (`HANDLE hConOut`) -/
  hConOut : Nat
  /-- automata state (`int state`) -/
  state : Int
  /-- escape sequence suffix (`TCHAR suffix`) -/
  suffix : Nat
  /-- escape sequence args count (`int es_argc`) -/
  es_argc : Nat
  /-- escape sequence args (`int es_argv[MAX_ARG]`) -/
  es_argv : Nat → Int
  /-- original attributes (`WORD org_fg, org_bg, org_bold, org_ul`) -/
  org_fg : Nat
  org_bg : Nat
  org_bold : Nat
  org_ul : Nat
  /-- screen attributes (`WORD foreground`, ..., `WORD concealed`) -/
  foreground : Nat
  background : Nat
  bold : Nat
  underline : Nat
  rvideo : Nat
  concealed : Nat
  /-- saved cursor position (`COORD SavePos`) -/
  SavePos : COORD
  /-- number of code units in the print buffer (`int nCharInBuffer`) -/
  nCharInBuffer : Nat
  /-- print buffer (`TCHAR ChBuffer[BUFFER_SIZE]`) -/
  ChBuffer : Nat → Nat
  /-- what `GetConsoleScreenBufferInfo` reports at this moment -/
  con : CONSOLE_SCREEN_BUFFER_INFO
  /-- the console calls made so far, oldest first -/
  trace : List ConOp

/-! ## Console calls -/

/-- The call `WriteConsole( hConOut, text, len, ... )`. -/
def WriteConsole (wc : WriteEffect) (s : ANSI) (text : List Nat) : ANSI :=
  { s with con := wc s.con text, trace := s.trace ++ [ConOp.WriteConsole text] }

/-- The call `SetConsoleTextAttribute( hConOut, attribut )`: the console's
current attribute becomes `attribut`. -/
def SetConsoleTextAttribute (s : ANSI) (attribut : Nat) : ANSI :=
  { s with con := { s.con with wAttributes := attribut },
           trace := s.trace ++ [ConOp.SetConsoleTextAttribute attribut] }

/-- The call `SetConsoleCursorPosition( hConOut, Pos )`: the console moves the
cursor to `Pos` when `Pos` lies inside the screen buffer and rejects the call
(cursor unchanged) otherwise. -/
def SetConsoleCursorPosition (s : ANSI) (Pos : COORD) : ANSI :=
  { s with con :=
             if 0 ≤ Pos.X ∧ Pos.X < s.con.dwSize.X ∧ 0 ≤ Pos.Y ∧ Pos.Y < s.con.dwSize.Y
             then { s.con with dwCursorPosition := Pos } else s.con,
           trace := s.trace ++ [ConOp.SetConsoleCursorPosition Pos] }

/-- The pair of calls `FillConsoleOutputCharacter( hConOut, ' ', len, Pos, ..)`
and `FillConsoleOutputAttribute( hConOut, attr, len, Pos, .. )`.  They change
cell contents only, which `GetConsoleScreenBufferInfo` does not report. -/
def FillConsoleOutput (s : ANSI) (attr : Nat) (len : Nat) (Pos : COORD) : ANSI :=
  { s with trace := s.trace ++ [ConOp.FillConsoleOutputCharacter 32 len Pos,
                                ConOp.FillConsoleOutputAttribute attr len Pos] }

/-- The call `ScrollConsoleScreenBuffer( hConOut, &Rect, NULL, Pos, &CharInfo )`
with `CharInfo = { ' ', attr }`.  It moves cell contents only. -/
def ScrollConsoleScreenBuffer (s : ANSI) (Rect : SMALL_RECT) (Pos : COORD) (attr : Nat) :
    ANSI :=
  { s with trace := s.trace ++ [ConOp.ScrollConsoleScreenBuffer Rect Pos 32 attr] }

/-! ## Print buffer functions -/

/-- Function `FlushBuffer()`: writes the buffer to the console and empties it. -/
def FlushBuffer (wc : WriteEffect) (s : ANSI) : ANSI :=
  if s.nCharInBuffer ≤ 0 then s
  else
    { WriteConsole wc s ((List.range s.nCharInBuffer).map s.ChBuffer) with nCharInBuffer := 0 }

/-- Function `PushBuffer( c )`: adds a character in the buffer and flushes the buffer if
it is full. -/
def PushBuffer (wc : WriteEffect) (s : ANSI) (c : Nat) : ANSI :=
  let s1 := { s with ChBuffer := store s.ChBuffer s.nCharInBuffer c,
                     nCharInBuffer := s.nCharInBuffer + 1 }
  if s1.nCharInBuffer ≥ BUFFER_SIZE then FlushBuffer wc s1 else s1

/-! ## Print functions: `InterpretEscSeq` -/

/-- The statement `if (es_argc == 0) es_argv[es_argc++] = d;`. -/
def defaultArg (s : ANSI) (d : Int) : ANSI :=
  if s.es_argc = 0 then
    { s with es_argv := store s.es_argv s.es_argc d, es_argc := s.es_argc + 1 }
  else s

/-- The statement `switch (es_argv[i])` in the loop of case `m`, for the
argument value `v = es_argv[i]`. -/
def SGRSwitch (s : ANSI) (v : Int) : ANSI :=
  if v = 0 then
    { s with foreground := s.org_fg,
             background := s.org_bg,
             bold := if s.es_argc = 1 then s.org_bold else 0,
             underline := if s.es_argc = 1 then s.org_ul else 0,
             rvideo := 0,
             concealed := 0 }
  else if v = 1 then { s with bold := FOREGROUND_INTENSITY }
  else if v = 5 ∨ v = 4 then { s with underline := BACKGROUND_INTENSITY }
  else if v = 7 then { s with rvideo := 1 }
  else if v = 8 then { s with concealed := 1 }
  else if v = 21 then { s with bold := 0 }
  else if v = 25 ∨ v = 24 then { s with underline := 0 }
  else if v = 27 then { s with rvideo := 0 }
  else if v = 28 then { s with concealed := 0 }
  else s

/-- Body of the loop `for (i = 0; i < es_argc; i++)` of case `m`, for the
argument value `v = es_argv[i]`: the `switch` and the two range tests. -/
def SGRArg (s : ANSI) (v : Int) : ANSI :=
  let s1 : ANSI := SGRSwitch s v
  let s2 : ANSI :=
    if 30 ≤ v ∧ v ≤ 37 then { s1 with foreground := (v - 30).toNat } else s1
  if 40 ≤ v ∧ v ≤ 47 then { s2 with background := (v - 40).toNat } else s2

/-- The attribute word `attribut` that case `m` computes from the attribute
globals once all arguments have been processed. -/
def attribut (s : ANSI) : Nat :=
  if s.concealed ≠ 0 then
    if s.rvideo ≠ 0 then
      let a := foregroundcolor s.foreground ||| backgroundcolor s.foreground
      if s.bold ≠ 0 then a ||| (FOREGROUND_INTENSITY ||| BACKGROUND_INTENSITY) else a
    else
      let a := foregroundcolor s.background ||| backgroundcolor s.background
      if s.underline ≠ 0 then a ||| (FOREGROUND_INTENSITY ||| BACKGROUND_INTENSITY) else a
  else if s.rvideo ≠ 0 then
    let a := foregroundcolor s.background ||| backgroundcolor s.foreground
    let a1 := if s.bold ≠ 0 then a ||| BACKGROUND_INTENSITY else a
    if s.underline ≠ 0 then a1 ||| FOREGROUND_INTENSITY else a1
  else
    foregroundcolor s.foreground ||| backgroundcolor s.background ||| s.bold ||| s.underline

/-- Case `m` of `InterpretEscSeq`. -/
def InterpretSGR (s : ANSI) : ANSI :=
  let s0 := defaultArg s 0
  let s1 := (List.range s0.es_argc).foldl (fun st i => SGRArg st (st.es_argv i)) s0
  SetConsoleTextAttribute s1 (attribut s1)

/-- Function `InterpretEscSeq()`: interprets the last escape sequence scanned by
`ParseAndPrintString`, given by `es_argc`, `es_argv[]` and `suffix`.  `Info` is
the result of the initial `GetConsoleScreenBufferInfo( hConOut, &Info )`. -/
def InterpretEscSeq (s : ANSI) : ANSI :=
  let Info := s.con
  if s.suffix = 109 then -- 'm'
    InterpretSGR s
  else if s.suffix = 74 then -- 'J'
    let s := defaultArg s 0
    if s.es_argc ≠ 1 then s
    else if s.es_argv 0 = 0 then
      let len := toDWORD ((Info.dwSize.Y - Info.dwCursorPosition.Y - 1) * Info.dwSize.X
                          + Info.dwSize.X - Info.dwCursorPosition.X - 1)
      FillConsoleOutput s Info.wAttributes len Info.dwCursorPosition
    else if s.es_argv 0 = 1 then
      let Pos : COORD := { X := 0, Y := 0 }
      let len := toDWORD (Info.dwCursorPosition.Y * Info.dwSize.X
                          + Info.dwCursorPosition.X + 1)
      FillConsoleOutput s Info.wAttributes len Pos
    else if s.es_argv 0 = 2 then
      let Pos : COORD := { X := 0, Y := 0 }
      let len := toDWORD (Info.dwSize.X * Info.dwSize.Y)
      SetConsoleCursorPosition (FillConsoleOutput s Info.wAttributes len Pos) Pos
    else s
  else if s.suffix = 75 then -- 'K'
    let s := defaultArg s 0
    if s.es_argc ≠ 1 then s
    else if s.es_argv 0 = 0 then
      let len := toDWORD (Info.srWindow.Right - Info.dwCursorPosition.X + 1)
      FillConsoleOutput s Info.wAttributes len Info.dwCursorPosition
    else if s.es_argv 0 = 1 then
      let Pos : COORD := { X := 0, Y := Info.dwCursorPosition.Y }
      FillConsoleOutput s Info.wAttributes (toDWORD (Info.dwCursorPosition.X + 1)) Pos
    else if s.es_argv 0 = 2 then
      let Pos : COORD := { X := 0, Y := Info.dwCursorPosition.Y }
      FillConsoleOutput s Info.wAttributes (toDWORD Info.dwSize.X) Pos
    else s
  else if s.suffix = 76 then -- 'L'
    let s := defaultArg s 1
    if s.es_argc ≠ 1 then s
    else
      let Rect : SMALL_RECT :=
        { Left := 0, Top := Info.dwCursorPosition.Y,
          Right := toSHORT (Info.dwSize.X - 1), Bottom := toSHORT (Info.dwSize.Y - 1) }
      let Pos : COORD :=
        { X := 0, Y := toSHORT (toInt32 (Info.dwCursorPosition.Y + s.es_argv 0)) }
      ScrollConsoleScreenBuffer s Rect Pos Info.wAttributes
  else if s.suffix = 77 then -- 'M'
    let s := defaultArg s 1
    if s.es_argc ≠ 1 then s
    else
      let s : ANSI :=
        if s.es_argv 0 > Info.dwSize.Y - Info.dwCursorPosition.Y then
          { s with es_argv := store s.es_argv 0 (Info.dwSize.Y - Info.dwCursorPosition.Y) }
        else s
      let Rect : SMALL_RECT :=
        { Left := 0, Top := toSHORT (toInt32 (Info.dwCursorPosition.Y + s.es_argv 0)),
          Right := toSHORT (Info.dwSize.X - 1), Bottom := toSHORT (Info.dwSize.Y - 1) }
      let Pos : COORD := { X := 0, Y := Info.dwCursorPosition.Y }
      ScrollConsoleScreenBuffer s Rect Pos Info.wAttributes
  else if s.suffix = 80 then -- 'P'
    let s := defaultArg s 1
    if s.es_argc ≠ 1 then s
    else
      let s : ANSI :=
        if toInt32 (Info.dwCursorPosition.X + s.es_argv 0) > Info.dwSize.X - 1 then
          { s with es_argv := store s.es_argv 0 (Info.dwSize.X - Info.dwCursorPosition.X) }
        else s
      let Rect : SMALL_RECT :=
        { Left := toSHORT (toInt32 (Info.dwCursorPosition.X + s.es_argv 0)),
          Top := Info.dwCursorPosition.Y,
          Right := toSHORT (Info.dwSize.X - 1), Bottom := Info.dwCursorPosition.Y }
      ScrollConsoleScreenBuffer s Rect Info.dwCursorPosition Info.wAttributes
  else if s.suffix = 64 then -- '@'
    let s := defaultArg s 1
    if s.es_argc ≠ 1 then s
    else
      let s : ANSI :=
        if toInt32 (Info.dwCursorPosition.X + s.es_argv 0) > Info.dwSize.X - 1 then
          { s with es_argv := store s.es_argv 0 (Info.dwSize.X - Info.dwCursorPosition.X) }
        else s
      let Rect : SMALL_RECT :=
        { Left := Info.dwCursorPosition.X, Top := Info.dwCursorPosition.Y,
          Right := toSHORT (toInt32 (Info.dwSize.X - 1 - s.es_argv 0)),
          Bottom := Info.dwCursorPosition.Y }
      let Pos : COORD :=
        { X := toSHORT (toInt32 (Info.dwCursorPosition.X + s.es_argv 0)),
          Y := Info.dwCursorPosition.Y }
      ScrollConsoleScreenBuffer s Rect Pos Info.wAttributes
  else if s.suffix = 65 then -- 'A'
    let s := defaultArg s 1
    if s.es_argc ≠ 1 then s
    else
      let Y := toSHORT (toInt32 (Info.dwCursorPosition.Y - s.es_argv 0))
      let Y := if Y < 0 then 0 else Y
      SetConsoleCursorPosition s { X := Info.dwCursorPosition.X, Y := Y }
  else if s.suffix = 66 then -- 'B'
    let s := defaultArg s 1
    if s.es_argc ≠ 1 then s
    else
      let Y := toSHORT (toInt32 (Info.dwCursorPosition.Y + s.es_argv 0))
      let Y := if Y ≥ Info.dwSize.Y then toSHORT (Info.dwSize.Y - 1) else Y
      SetConsoleCursorPosition s { X := Info.dwCursorPosition.X, Y := Y }
  else if s.suffix = 67 then -- 'C'
    let s := defaultArg s 1
    if s.es_argc ≠ 1 then s
    else
      let X := toSHORT (toInt32 (Info.dwCursorPosition.X + s.es_argv 0))
      let X := if X ≥ Info.dwSize.X then toSHORT (Info.dwSize.X - 1) else X
      SetConsoleCursorPosition s { X := X, Y := Info.dwCursorPosition.Y }
  else if s.suffix = 68 then -- 'D'
    let s := defaultArg s 1
    if s.es_argc ≠ 1 then s
    else
      let X := toSHORT (toInt32 (Info.dwCursorPosition.X - s.es_argv 0))
      let X := if X < 0 then 0 else X
      SetConsoleCursorPosition s { X := X, Y := Info.dwCursorPosition.Y }
  else if s.suffix = 69 then -- 'E'
    let s := defaultArg s 1
    if s.es_argc ≠ 1 then s
    else
      let Y := toSHORT (toInt32 (Info.dwCursorPosition.Y + s.es_argv 0))
      let Y := if Y ≥ Info.dwSize.Y then toSHORT (Info.dwSize.Y - 1) else Y
      SetConsoleCursorPosition s { X := 0, Y := Y }
  else if s.suffix = 70 then -- 'F'
    let s := defaultArg s 1
    if s.es_argc ≠ 1 then s
    else
      let Y := toSHORT (toInt32 (Info.dwCursorPosition.Y - s.es_argv 0))
      let Y := if Y < 0 then 0 else Y
      SetConsoleCursorPosition s { X := 0, Y := Y }
  else if s.suffix = 71 then -- 'G'
    let s := defaultArg s 1
    if s.es_argc ≠ 1 then s
    else
      let X := toSHORT (toInt32 (s.es_argv 0 - 1))
      let X := if X ≥ Info.dwSize.X then toSHORT (Info.dwSize.X - 1) else X
      let X := if X < 0 then 0 else X
      SetConsoleCursorPosition s { X := X, Y := Info.dwCursorPosition.Y }
  else if s.suffix = 102 ∨ s.suffix = 72 then -- 'f', 'H'
    let s := defaultArg s 1
    let s : ANSI :=
      if s.es_argc = 1 then
        { s with es_argv := store s.es_argv s.es_argc 1, es_argc := s.es_argc + 1 }
      else s
    if s.es_argc > 2 then s
    else
      let X := toSHORT (toInt32 (s.es_argv 1 - 1))
      let X := if X < 0 then 0 else X
      let X := if X ≥ Info.dwSize.X then toSHORT (Info.dwSize.X - 1) else X
      let Y := toSHORT (toInt32 (s.es_argv 0 - 1))
      let Y := if Y < 0 then 0 else Y
      let Y := if Y ≥ Info.dwSize.Y then toSHORT (Info.dwSize.Y - 1) else Y
      SetConsoleCursorPosition s { X := X, Y := Y }
  else if s.suffix = 115 then -- 's'
    if s.es_argc ≠ 0 then s
    else { s with SavePos := Info.dwCursorPosition }
  else if s.suffix = 117 then -- 'u'
    if s.es_argc ≠ 0 then s
    else SetConsoleCursorPosition s s.SavePos
  else s

/-! ## Print functions: `ParseAndPrintString` -/

/-- One iteration of the `for` loop of `ParseAndPrintString`, on the code
unit `c = *s`. -/
def ParseChar (wc : WriteEffect) (s : ANSI) (c : Nat) : ANSI :=
  if s.state = 1 then
    if c = ESC then { s with state := 2 }
    else PushBuffer wc s c
  else if s.state = 2 then
    if c = ESC then s
    else if c = 91 then -- '['
      { FlushBuffer wc s with state := 3 }
    else { s with state := 1 }
  else if s.state = 3 then
    if isdigit c then
      { s with es_argc := 0, es_argv := store s.es_argv 0 ((c : Int) - 48), state := 4 }
    else if c = 59 then -- ';'
      { s with es_argc := 1, es_argv := store (store s.es_argv 0 0) 1 0, state := 4 }
    else
      { InterpretEscSeq { s with es_argc := 0, suffix := c } with state := 1 }
  else if s.state = 4 then
    if isdigit c then
      { s with es_argv := store s.es_argv s.es_argc
                            (toInt32 (10 * s.es_argv s.es_argc + ((c : Int) - 48))) }
    else if c = 59 then -- ';'
      let s1 : ANSI := if s.es_argc < MAX_ARG - 1 then { s with es_argc := s.es_argc + 1 } else s
      { s1 with es_argv := store s1.es_argv s1.es_argc 0 }
    else
      { InterpretEscSeq { s with es_argc := s.es_argc + 1, suffix := c } with state := 1 }
  else s

/-- The `for` loop of `ParseAndPrintString` over the code units of the buffer. -/
def ParseLoop (wc : WriteEffect) (s : ANSI) (lpBuffer : List Nat) : ANSI :=
  lpBuffer.foldl (ParseChar wc) s

/-- Function `ParseAndPrintString( hDev, lpBuffer, nNumberOfBytesToWrite,
lpNumberOfBytesWritten )`, where `nNumberOfBytesToWrite` is the length of
`lpBuffer`.  The result is the new global state, the value stored in
`*lpNumberOfBytesWritten` and the returned `BOOL`.  The loop counter `i` is 0
when the loop ends. -/
def ParseAndPrintString (wc : WriteEffect) (s : ANSI) (hDev : Nat) (lpBuffer : List Nat) :
    ANSI × Nat × Bool :=
  let s0 : ANSI := if hDev ≠ s.hConOut then { s with hConOut := hDev, state := 1 } else s
  let s1 := ParseLoop wc s0 lpBuffer
  let i : Nat := 0
  (FlushBuffer wc s1, lpBuffer.length - i, decide (i = 0))

/-! ## Initialisation: `OriginalAttr` -/

/-- Function `OriginalAttr()`: determine the original attributes for use by `\e[m`.
`queryOk` is the result of `GetConsoleScreenBufferInfo`; when it fails the
attribute word is taken to be 7.  (The final `set_ansicon` call only publishes
an environment variable.) -/
def OriginalAttr (queryOk : Bool) (s : ANSI) : ANSI :=
  let wAttributes : Nat := if queryOk then s.con.wAttributes else 7
  { s with foreground := attr2ansi (wAttributes &&& 7),
           org_fg := attr2ansi (wAttributes &&& 7),
           background := attr2ansi ((wAttributes >>> 4) &&& 7),
           org_bg := attr2ansi ((wAttributes >>> 4) &&& 7),
           bold := wAttributes &&& FOREGROUND_INTENSITY,
           org_bold := wAttributes &&& FOREGROUND_INTENSITY,
           underline := wAttributes &&& BACKGROUND_INTENSITY,
           org_ul := wAttributes &&& BACKGROUND_INTENSITY }

/-! ## Hooking API functions: `HookAPIOneMod` -/

/-- A C string as the list of its bytes. -/
def cstr (s : String) : List Nat := s.toList.map Char.toNat

def APIKernel : List Nat := cstr "kernel32.dll"
def APIKernelBase : List Nat := cstr "kernelbase.dll"
def APIConsole : List Nat := cstr "API-MS-Win-Core-Console-L1-1-0.dll"
def APIProcessThreads : List Nat := cstr "API-MS-Win-Core-ProcessThreads-L1-1-0.dll"
def APIProcessEnvironment : List Nat := cstr "API-MS-Win-Core-ProcessEnvironment-L1-1-0.dll"
def APILibraryLoader : List Nat := cstr "API-MS-Win-Core-LibraryLoader-L1-1-0.dll"
def APIFile : List Nat := cstr "API-MS-Win-Core-File-L1-1-0.dll"

/-- The array `APIs[]`, without its terminating `NULL`. -/
def APIs : List (List Nat) :=
  [ APIKernel,
    APIConsole,
    APIProcessThreads,
    APIProcessEnvironment,
    APILibraryLoader,
    APIFile ]

/-- Lower-case form of an ASCII byte, as `stricmp` compares bytes. -/
def tolower (c : Nat) : Nat := if 65 ≤ c ∧ c ≤ 90 then c + 32 else c

/-- The library routine `stricmp`: 0 exactly when the two strings are equal
up to ASCII case (only the comparison with 0 is used by the program). -/
def stricmp (a b : List Nat) : Int := if a.map tolower = b.map tolower then 0 else 1

/-- The struct `HookFn`. -/
structure HookFn where
  lib : List Nat
  name : List Nat
  newfunc : Nat
  oldfunc : Nat
  apifunc : Nat
deriving DecidableEq, Repr

/-- One slot of an import address table: the resolved address `u1.Function`,
the page protection `VirtualQuery` reports for it, and whether
`WriteProcessMemory` to it succeeds (a property of the process, fixed per
slot). -/
structure IMAGE_THUNK_DATA where
  Function : Nat
  Protect : Nat
  writable : Bool
deriving DecidableEq, Repr

/-- One entry of the import directory: the imported module's name (the string
at RVA `Name`) and its import address table (the array at RVA `FirstThunk`,
which the program reads up to the first slot holding 0). -/
structure IMAGE_IMPORT_DESCRIPTOR where
  Name : List Nat
  FirstThunk : List IMAGE_THUNK_DATA
deriving DecidableEq, Repr

/-- The parts of a module image `HookAPIOneMod` reads: the DOS magic, the PE
signature, the RVA of the import directory and the import descriptors up to
the terminating one (whose `Name` is 0). -/
structure MODULE where
  e_magic : Nat
  Signature : Nat
  ImportVirtualAddress : Nat
  ImportDesc : List IMAGE_IMPORT_DESCRIPTOR
deriving DecidableEq, Repr

def IMAGE_DOS_SIGNATURE : Nat := 0x5A4D
def IMAGE_NT_SIGNATURE : Nat := 0x00004550
def PAGE_READONLY : Nat := 0x02
def PAGE_READWRITE : Nat := 0x04
def PAGE_EXECUTE_READ : Nat := 0x20

/-- Result of a pass: the returned `BOOL` (or whether the pass is still
running), the memory it leaves, and the log of the successful
`WriteProcessMemory` calls as pairs (value overwritten, value written). -/
structure Pass (α : Type) where
  ok : Bool
  mem : α
  writes : List (Nat × Nat)

/-- The protection flags the program asks for before writing a slot:
`(mbi.Protect & ~(PAGE_READONLY | PAGE_EXECUTE_READ)) | PAGE_READWRITE`. -/
def flNewProtect (Protect : Nat) : Nat :=
  (Protect &&& (0xFFFFFFFF - (PAGE_READONLY ||| PAGE_EXECUTE_READ))) ||| PAGE_READWRITE

/-- The address a restore pass writes for a hook:
`(lib == APIs) ? hook->oldfunc : hook->apifunc`. -/
def restoreTarget (kernel : Bool) (hook : HookFn) : Nat :=
  if kernel then hook.oldfunc else hook.apifunc

/-- The loop `for (hook = Hooks; hook->name; ++hook)` on one slot.  `kernel`
is the test `lib == APIs` (the descriptor names `kernel32.dll`). -/
def hookLoop (restore : Bool) (kernel : Bool) :
    List HookFn → IMAGE_THUNK_DATA → Pass IMAGE_THUNK_DATA
  | [], t => { ok := true, mem := t, writes := [] }
  | hook :: rest, t =>
    let patch : Nat :=
      if restore then
        if t.Function = hook.newfunc then restoreTarget kernel hook
        else 0
      else if t.Function = hook.oldfunc ∨ t.Function = hook.apifunc then hook.newfunc
      else 0
    if patch ≠ 0 then
      -- VirtualQuery, then VirtualProtect( .., flNewProtect, &flOldProtect )
      let flOldProtect := t.Protect
      let t1 : IMAGE_THUNK_DATA := { t with Protect := flNewProtect t.Protect }
      if !t1.writable then
        -- WriteProcessMemory failed: return FALSE
        { ok := false, mem := t1, writes := [] }
      else
        let t2 : IMAGE_THUNK_DATA := { t1 with Function := patch }
        -- VirtualProtect( .., flOldProtect, &flDummy )
        let t3 : IMAGE_THUNK_DATA := { t2 with Protect := flOldProtect }
        let r := hookLoop restore kernel rest t3
        { r with writes := (t.Function, patch) :: r.writes }
    else hookLoop restore kernel rest t

/-- The loop `while (pThunk->u1.Function)` over the slots of one import
address table. -/
def thunkLoop (Hooks : List HookFn) (restore : Bool) (kernel : Bool) :
    List IMAGE_THUNK_DATA → Pass (List IMAGE_THUNK_DATA)
  | [] => { ok := true, mem := [], writes := [] }
  | t :: rest =>
    if t.Function = 0 then { ok := true, mem := t :: rest, writes := [] }
    else
      let r := hookLoop restore kernel Hooks t
      if !r.ok then { ok := false, mem := r.mem :: rest, writes := r.writes }
      else
        let r1 := thunkLoop Hooks restore kernel rest
        { ok := r1.ok, mem := r.mem :: r1.mem, writes := r.writes ++ r1.writes }

/-- The loop `for (lib = APIs; *lib; ++lib) if (stricmp( pszModName, *lib ) == 0)
break;`: the index at which it stops, or `none` when it ends on the `NULL`. -/
def findLib (pszModName : List Nat) : Option Nat :=
  let i := APIs.findIdx (fun lib => decide (stricmp pszModName lib = 0))
  if i < APIs.length then some i else none

/-- The loop `for (; pImportDesc->Name; pImportDesc++)` over the import
descriptors. -/
def descLoop (Hooks : List HookFn) (restore : Bool) :
    List IMAGE_IMPORT_DESCRIPTOR → Pass (List IMAGE_IMPORT_DESCRIPTOR)
  | [] => { ok := true, mem := [], writes := [] }
  | d :: rest =>
    match findLib d.Name with
    | none =>
      let r1 := descLoop Hooks restore rest
      { ok := r1.ok, mem := d :: r1.mem, writes := r1.writes }
    | some lib =>
      let r := thunkLoop Hooks restore (decide (lib = 0)) d.FirstThunk
      if !r.ok then
        { ok := false, mem := { d with FirstThunk := r.mem } :: rest, writes := r.writes }
      else
        let r1 := descLoop Hooks restore rest
        { ok := r1.ok, mem := { d with FirstThunk := r.mem } :: r1.mem,
          writes := r.writes ++ r1.writes }

/-- Function `HookAPIOneMod( hFromModule, Hooks, restore )`: substitute a new function
in the import address table of the module.  `Hooks` is the table without its
terminating entry. -/
def HookAPIOneMod (hFromModule : MODULE) (Hooks : List HookFn) (restore : Bool) :
    Pass MODULE :=
  if hFromModule.e_magic ≠ IMAGE_DOS_SIGNATURE then
    { ok := false, mem := hFromModule, writes := [] }
  else if hFromModule.Signature ≠ IMAGE_NT_SIGNATURE then
    { ok := false, mem := hFromModule, writes := [] }
  else if hFromModule.ImportVirtualAddress = 0 then
    { ok := true, mem := hFromModule, writes := [] }
  else
    let r := descLoop Hooks restore hFromModule.ImportDesc
    { ok := r.ok, mem := { hFromModule with ImportDesc := r.mem }, writes := r.writes }

/-- The values held by the import slots of a module, descriptor by
descriptor. -/
def slotValues (m : MODULE) : List (List Nat) :=
  m.ImportDesc.map (fun d => d.FirstThunk.map (fun t => t.Function))

/-- A slot value matches a hook in a hook pass: it is the hook's original or
fallback entry point. -/
def hookMatch (v : Nat) (hook : HookFn) : Prop := v = hook.oldfunc ∨ v = hook.apifunc

instance (v : Nat) (hook : HookFn) : Decidable (hookMatch v hook) := by
  unfold hookMatch; infer_instance

/-- No replacement entry point of the table equals an original or fallback
entry point of the table. -/
def newDisjoint (Hooks : List HookFn) : Prop :=
  ∀ h ∈ Hooks, ∀ h' ∈ Hooks, h.newfunc ≠ h'.oldfunc ∧ h.newfunc ≠ h'.apifunc

instance (Hooks : List HookFn) : Decidable (newDisjoint Hooks) := by
  unfold newDisjoint; infer_instance

/-- Different entries of the table have different replacement entry points. -/
def newDistinct (Hooks : List HookFn) : Prop :=
  ∀ h ∈ Hooks, ∀ h' ∈ Hooks, h.newfunc = h'.newfunc → h = h'

instance (Hooks : List HookFn) : Decidable (newDistinct Hooks) := by
  unfold newDistinct; infer_instance

/-- The import descriptor names `kernel32.dll` (the test `lib == APIs`). -/
def descKernel (d : IMAGE_IMPORT_DESCRIPTOR) : Bool := decide (findLib d.Name = some 0)

/-- Slots of one import address table as a restore pass can give them back:
no slot holds a replacement entry point, and a slot that matches a hook holds
the address the restore pass writes for that hook (`restoreTarget`). -/
def restorableSlots (Hooks : List HookFn) (kernel : Bool) (ts : List IMAGE_THUNK_DATA) : Prop :=
  ∀ t ∈ ts, ∀ h ∈ Hooks,
    t.Function ≠ h.newfunc ∧ (hookMatch t.Function h → t.Function = restoreTarget kernel h)

instance (Hooks : List HookFn) (kernel : Bool) (ts : List IMAGE_THUNK_DATA) :
    Decidable (restorableSlots Hooks kernel ts) := by
  unfold restorableSlots; infer_instance

/-- The slots under every import descriptor naming a module of `APIs` are
restorable: under `kernel32.dll` a slot that matches a hook holds the hook's
original entry point, under the other listed modules its fallback entry
point, and no such slot holds a replacement entry point. -/
def restorable (Hooks : List HookFn) (m : MODULE) : Prop :=
  ∀ d ∈ m.ImportDesc, findLib d.Name ≠ none →
    restorableSlots Hooks (descKernel d) d.FirstThunk

instance (Hooks : List HookFn) (m : MODULE) : Decidable (restorable Hooks m) := by
  unfold restorable; infer_instance

/-! ## Auxiliary definitions for the statements -/

/-- The code units waiting in the print buffer. -/
def pending (s : ANSI) : List Nat := (List.range s.nCharInBuffer).map s.ChBuffer

/-- The value the parser accumulates in an argument slot holding `v` while
reading the digits `ds` (state 4 of `ParseAndPrintString`). -/
def accum (v : Int) (ds : List Nat) : Int :=
  ds.foldl (fun a c => toInt32 (10 * a + ((c : Int) - 48))) v

/-- The decimal value of a string of digits. -/
def decimal (ds : List Nat) : Nat :=
  ds.foldl (fun a c => 10 * a + (c - 48)) 0

/-- Every code unit of the list is a decimal digit. -/
def allDigits (ds : List Nat) : Prop := ∀ c ∈ ds, isdigit c = true

instance (ds : List Nat) : Decidable (allDigits ds) := by
  unfold allDigits; infer_instance

/-- The attribute globals, in the order `org_fg`, `org_bg`, `org_bold`,
`org_ul`, `foreground`, `background`, `bold`, `underline`, `rvideo`,
`concealed`. -/
def attrState (s : ANSI) : List Nat :=
  [s.org_fg, s.org_bg, s.org_bold, s.org_ul, s.foreground, s.background, s.bold, s.underline,
   s.rvideo, s.concealed]

/-- The control sequence `ESC [ args fin`, the arguments (digit strings)
separated by `;`. -/
def CSI (args : List (List Nat)) (fin : Nat) : List Nat :=
  ESC :: 91 :: (List.intercalate [59] args ++ [fin])

/-- The six orders of three things. -/
def sixOrders {α : Type} (x y z : α) : List (List α) :=
  [[x, y, z], [x, z, y], [y, x, z], [y, z, x], [z, x, y], [z, y, x]]

/-! ## Concrete data for evaluations -/

/-- A hook table with two entries; the second has no fallback entry point. -/
def sampleHooks : List HookFn :=
  [ { lib := APIConsole, name := cstr "WriteConsoleA",
      newfunc := 1000, oldfunc := 2000, apifunc := 3000 },
    { lib := APIFile, name := cstr "WriteFile",
      newfunc := 1001, oldfunc := 2001, apifunc := 0 } ]

/-- A module image importing from `kernel32.dll` (slots `k`), from the console
API set (slots `c`) and from `user32.dll` (slots `u`); every slot is on a
read-only page and can be written. -/
def sampleModule (k c u : List Nat) : MODULE :=
  { e_magic := IMAGE_DOS_SIGNATURE, Signature := IMAGE_NT_SIGNATURE,
    ImportVirtualAddress := 4096,
    ImportDesc :=
      [ { Name := cstr "KERNEL32.dll",
          FirstThunk := k.map (fun v => { Function := v, Protect := PAGE_READONLY,
                                          writable := true }) },
        { Name := APIConsole,
          FirstThunk := c.map (fun v => { Function := v, Protect := PAGE_READONLY,
                                          writable := true }) },
        { Name := cstr "USER32.dll",
          FirstThunk := u.map (fun v => { Function := v, Protect := PAGE_READONLY,
                                          writable := true }) } ] }

/-- A console host on which `WriteConsole` leaves the reported information as
it is. -/
def quietConsole : WriteEffect := fun info _ => info

/-- The globals in state 1 (Literal) with an empty print buffer and no console
call made yet, on a console whose screen buffer has `W` columns and `H` rows,
with the cursor at column `x`, row `y` and the attribute word `attr`.  The
attribute globals are all 0, as before `OriginalAttr`. -/
def sample (W H x y : Int) (attr : Nat) : ANSI :=
  { hConOut := 1, state := 1, suffix := 0, es_argc := 0, es_argv := fun _ => 0,
    org_fg := 0, org_bg := 0, org_bold := 0, org_ul := 0,
    foreground := 0, background := 0, bold := 0, underline := 0, rvideo := 0, concealed := 0,
    SavePos := { X := 0, Y := 0 },
    nCharInBuffer := 0, ChBuffer := fun _ => 0,
    con := { dwSize := { X := W, Y := H }, dwCursorPosition := { X := x, Y := y },
             wAttributes := attr,
             srWindow := { Left := 0, Top := 0, Right := W - 1, Bottom := H - 1 } },
    trace := [] }

/-! ## Auxiliary definitions: argument lists and absorbed sequences -/

/-- The argument list handed to `InterpretEscSeq`: `es_argv[0]` to
`es_argv[es_argc - 1]`. -/
def handedArgs (s : ANSI) : List Int := (List.range s.es_argc).map s.es_argv

/-- The argument list the header comment of `ParseAndPrintString` promises
for the argument values `vals`: all of them when there are at most `MAX_ARG`,
and otherwise the first `MAX_ARG - 1` followed by the last. -/
def expectedArgs (vals : List Int) : List Int :=
  if vals.length ≤ MAX_ARG then vals
  else vals.take (MAX_ARG - 1) ++ vals.drop (vals.length - 1)

/-- What reading one more argument does to the list of argument slots in use:
a new slot while fewer than `MAX_ARG` are in use, the last slot again
afterwards. -/
def pushArg (l : List Int) (v : Int) : List Int :=
  if l.length < MAX_ARG then l ++ [v] else l.take (MAX_ARG - 1) ++ [v]

/-- The further arguments of a sequence, each preceded by its separator. -/
def moreArgs (rest : List (List Nat)) : List Nat := (rest.map (fun a => 59 :: a)).flatten

/-- What `InterpretEscSeq` never touches, between a state `s` and a later state `r`: the
handle, the automaton state, the print buffer, the suffix, and the argument slots from
index 2 on. -/
def Frame (s r : ANSI) : Prop :=
  r.hConOut = s.hConOut ∧ r.state = s.state ∧ r.nCharInBuffer = s.nCharInBuffer ∧
  r.ChBuffer = s.ChBuffer ∧ r.suffix = s.suffix ∧ ∀ j, 2 ≤ j → r.es_argv j = s.es_argv j

/-- Seventeen one-digit arguments: 1 to 9, then 0 to 7. -/
def seventeenArgs : List (List Nat) :=
  [[49], [50], [51], [52], [53], [54], [55], [56], [57], [48], [49], [50], [51], [52], [53],
   [54], [55]]

/-- The command units `InterpretEscSeq` has a `case` for: `m J K L M P @ A B C D E F G f H
s u`. -/
def supported : List Nat :=
  [109, 74, 75, 76, 77, 80, 64, 65, 66, 67, 68, 69, 70, 71, 102, 72, 115, 117]

/-- The number of arguments of the sequence `CSI args fin`: none when nothing stands
between `[` and the command unit. -/
def argCount (args : List (List Nat)) : Nat := if args = [[]] then 0 else args.length

/-- A supported command with a fixed number of arguments receives `k` arguments, too many:
two or more for `A` to `G`, `J`, `K`, `L`, `M`, `P`, `@`; three or more for `H` and `f`;
one or more for `s` and `u`. -/
def wrongCount (k : Nat) (X : Nat) : Prop :=
  (X ∈ [65, 66, 67, 68, 69, 70, 71, 74, 75, 76, 77, 80, 64] ∧ 2 ≤ k) ∨
  (X ∈ [72, 102] ∧ 3 ≤ k) ∨
  (X ∈ [115, 117] ∧ 1 ≤ k)

instance (k X : Nat) : Decidable (wrongCount k X) := by
  unfold wrongCount; infer_instance

/-- State `r` differs from state `s` at most in the variables that hold the sequence being
scanned: `es_argc`, `es_argv` and `suffix`. -/
def sameButArgs (s r : ANSI) : Prop :=
  r = { s with es_argc := r.es_argc, es_argv := r.es_argv, suffix := r.suffix }

/-! ## Replacement functions: `MyWriteConsoleA`, `MyWriteConsoleW`, `MyWriteFile` -/

def ENABLE_PROCESSED_OUTPUT : Nat := 1

/-- The test `GetConsoleMode( hCon, &Mode ) && (Mode & ENABLE_PROCESSED_OUTPUT)`, where
`Mode` is `none` when `GetConsoleMode` fails (the handle is not a console). -/
def processedOutput (Mode : Option Nat) : Bool :=
  match Mode with
  | none => false
  | some m => m &&& ENABLE_PROCESSED_OUTPUT != 0

/-- Function `MyWriteConsoleA( hCon, lpBuffer, nNumberOfCharsToWrite,
lpNumberOfCharsWritten, lpReserved )`, where `nNumberOfCharsToWrite` is the length of
`lpBuffer`.  `Mode` is what `GetConsoleMode` gives for the handle, `MultiByteToWideChar`
the conversion from the console output code page, `malloc` whether the allocation of the
wide buffer succeeds.  The result is `none` when the call is passed on to the original
`WriteConsoleA`, else the new globals, the value stored in `*lpNumberOfCharsWritten`
and the returned `BOOL`. -/
def MyWriteConsoleA (wc : WriteEffect) (Mode : Option Nat)
    (MultiByteToWideChar : List Nat → List Nat) (malloc : Bool)
    (s : ANSI) (hCon : Nat) (lpBuffer : List Nat) : Option (ANSI × Nat × Bool) :=
  if processedOutput Mode then
    let buf := MultiByteToWideChar lpBuffer
    if ¬ malloc then some (s, 0, decide (lpBuffer.length = 0))
    else some (ParseAndPrintString wc s hCon buf)
  else none

/-- Function `MyWriteConsoleW( hCon, lpBuffer, nNumberOfCharsToWrite,
lpNumberOfCharsWritten, lpReserved )`; `none` when the call is passed on to the original
`WriteConsoleW`. -/
def MyWriteConsoleW (wc : WriteEffect) (Mode : Option Nat)
    (s : ANSI) (hCon : Nat) (lpBuffer : List Nat) : Option (ANSI × Nat × Bool) :=
  if processedOutput Mode then some (ParseAndPrintString wc s hCon lpBuffer)
  else none

/-- Function `MyWriteFile( hFile, lpBuffer, nNumberOfBytesToWrite,
lpNumberOfBytesWritten, lpOverlapped )`; `none` when the call is passed on to the
original `WriteFile`. -/
def MyWriteFile (wc : WriteEffect) (Mode : Option Nat)
    (MultiByteToWideChar : List Nat → List Nat) (malloc : Bool)
    (s : ANSI) (hFile : Nat) (lpBuffer : List Nat) : Option (ANSI × Nat × Bool) :=
  if processedOutput Mode then
    MyWriteConsoleA wc Mode MultiByteToWideChar malloc s hFile lpBuffer
  else none

/-- A conversion from UTF-8 (code page 65001) for evaluations: a lead byte `C0` to `DF`
and the byte after it make one code unit, every other byte is passed as it is. -/
def sampleUtf8 : List Nat → List Nat
  | b1 :: b2 :: rest =>
    if 192 ≤ b1 ∧ b1 < 224 then ((b1 - 192) * 64 + (b2 - 128)) :: sampleUtf8 rest
    else b1 :: sampleUtf8 (b2 :: rest)
  | l => l

/-! ## The cells filled by console calls -/

/-- Row-major index of the cell at `p` on a screen buffer of `W` columns. -/
def cellIndex (W : Int) (p : COORD) : Int := p.Y * W + p.X

/-- Whether a fill of `len` cells from `pos` on reaches the cell of index `i`, on a screen
buffer of `W` columns and `H` rows: the fill runs on into the following rows and stops at
the end of the buffer. -/
def covers (W H : Int) (len : Nat) (pos : COORD) (i : Int) : Bool :=
  decide (cellIndex W pos ≤ i ∧ i < cellIndex W pos + len ∧ i < W * H)

/-- Whether the console call sets the character of cell `i` to `ch`. -/
def setsChar (W H : Int) (ch : Nat) (i : Int) : ConOp → Bool
  | ConOp.FillConsoleOutputCharacter c len pos => c == ch && covers W H len pos i
  | _ => false

/-- Whether the console call sets the attribute of cell `i` to `a`. -/
def setsAttr (W H : Int) (a : Nat) (i : Int) : ConOp → Bool
  | ConOp.FillConsoleOutputAttribute b len pos => b == a && covers W H len pos i
  | _ => false

/-- Whether the fill calls of a trace set cell `i` to a space with attribute `a`. -/
def erased (W H : Int) (a : Nat) (trace : List ConOp) (i : Int) : Bool :=
  trace.any (setsChar W H 32 i) && trace.any (setsAttr W H a i)

/-! ## Auxiliary definitions: windows and scroll rectangles -/

/-- The globals `s` on a console whose window is `w`. -/
def windowed (s : ANSI) (w : SMALL_RECT) : ANSI :=
  { s with con := { s.con with srWindow := w } }

/-- The rectangle lies inside a screen buffer of `W` columns and `H` rows; it may be
empty, its left edge one past its right edge or its top one past its bottom. -/
def rectInside (W H : Int) (r : SMALL_RECT) : Prop :=
  0 ≤ r.Left ∧ r.Right ≤ W - 1 ∧ 0 ≤ r.Top ∧ r.Bottom ≤ H - 1 ∧
  r.Left ≤ r.Right + 1 ∧ r.Top ≤ r.Bottom + 1

instance (W H : Int) (r : SMALL_RECT) : Decidable (rectInside W H r) := by
  unfold rectInside; infer_instance

/-- The position is a cell of a screen buffer of `W` columns and `H` rows. -/
def originInside (W H : Int) (p : COORD) : Prop :=
  0 ≤ p.X ∧ p.X < W ∧ 0 ≤ p.Y ∧ p.Y < H

instance (W H : Int) (p : COORD) : Decidable (originInside W H p) := by
  unfold originInside; infer_instance

/-! ## Child process injection: `Inject`, `MyCreateProcessA`, `MyCreateProcessW` -/

def CREATE_SUSPENDED : Nat := 0x00000004
def IMAGE_SUBSYSTEM_WINDOWS_CUI : Nat := 3
def IMAGE_FILE_MACHINE_I386 : Nat := 0x014c
def IMAGE_FILE_MACHINE_AMD64 : Nat := 0x8664

/-- The fields of `IMAGE_NT_HEADERS` that `Inject` looks at. -/
structure IMAGE_NT_HEADERS where
  Signature : Nat
  Subsystem : Nat
  Machine : Nat
deriving DecidableEq, Repr

/-- One region of the child's address space as `Inject` sees it: `e_magic` of the
`IMAGE_DOS_HEADER` read at its `AllocationBase` and the `IMAGE_NT_HEADERS` read at
`e_lfanew`, each `none` when `ReadProcessMemory` fails. -/
structure REGION where
  dos_header : Option Nat
  nt_header : Option IMAGE_NT_HEADERS
deriving DecidableEq, Repr

/-- One call made on behalf of the child process. -/
inductive ProcOp where
  | CreateProcessA (dwCreationFlags : Nat)
  | CreateProcessW (dwCreationFlags : Nat)
  | InjectDLL32
  | InjectDLL64
  | memcpy
  | ResumeThread
deriving DecidableEq, Repr

/-- The loop `while (VirtualQueryEx( ... ))` of `Inject` over the regions of the child,
which ends at the first region holding an image (or when `VirtualQueryEx` fails, after
the last region); the result is the pair of the flags `con` and `x86`.  `win64` tells
whether the code is compiled with `_WIN64`. -/
def scanRegions (win64 : Bool) : List REGION → Bool × Bool
  | [] => (false, false)
  | r :: rest =>
    match r.dos_header with
    | none => scanRegions win64 rest
    | some e_magic =>
      if e_magic = IMAGE_DOS_SIGNATURE then
        match r.nt_header with
        | none => scanRegions win64 rest
        | some nt_header =>
          if nt_header.Signature = IMAGE_NT_SIGNATURE then
            if nt_header.Subsystem = IMAGE_SUBSYSTEM_WINDOWS_CUI then
              if nt_header.Machine = IMAGE_FILE_MACHINE_I386 then (true, true)
              else if win64 ∧ nt_header.Machine = IMAGE_FILE_MACHINE_AMD64 then (true, false)
              else (false, false)
            else (false, false)
          else scanRegions win64 rest
      else scanRegions win64 rest

/-- Function `Inject( pinfo, lpi, dwCreationFlags )`: the calls it makes, in order.
`lpi` tells whether the pointer `lpi` is not null. -/
def Inject (win64 : Bool) (regions : List REGION) (lpi : Bool) (dwCreationFlags : Nat) :
    List ProcOp :=
  let (con, x86) := scanRegions win64 regions
  let ops1 : List ProcOp :=
    if con then
      if win64 then
        if x86 then [ProcOp.InjectDLL32] else [ProcOp.InjectDLL64]
      else [ProcOp.InjectDLL32]
    else []
  let ops2 : List ProcOp := if lpi then ops1 ++ [ProcOp.memcpy] else ops1
  if dwCreationFlags &&& CREATE_SUSPENDED = 0 then ops2 ++ [ProcOp.ResumeThread] else ops2

/-- Function `MyCreateProcessA( ..., dwCreationFlags, ..., lpProcessInformation )`: the
returned `BOOL` and the calls made, in order.  `created` is `none` when `CreateProcessA`
fails, else the regions of the new process. -/
def MyCreateProcessA (win64 : Bool) (created : Option (List REGION))
    (dwCreationFlags : Nat) (lpProcessInformation : Bool) : Bool × List ProcOp :=
  match created with
  | none => (false, [ProcOp.CreateProcessA (dwCreationFlags ||| CREATE_SUSPENDED)])
  | some regions =>
    (true, ProcOp.CreateProcessA (dwCreationFlags ||| CREATE_SUSPENDED) ::
             Inject win64 regions lpProcessInformation dwCreationFlags)

/-- Function `MyCreateProcessW( ..., dwCreationFlags, ..., lpProcessInformation )`. -/
def MyCreateProcessW (win64 : Bool) (created : Option (List REGION))
    (dwCreationFlags : Nat) (lpProcessInformation : Bool) : Bool × List ProcOp :=
  match created with
  | none => (false, [ProcOp.CreateProcessW (dwCreationFlags ||| CREATE_SUSPENDED)])
  | some regions =>
    (true, ProcOp.CreateProcessW (dwCreationFlags ||| CREATE_SUSPENDED) ::
             Inject win64 regions lpProcessInformation dwCreationFlags)

/-- The call injects the DLL. -/
def isInject (op : ProcOp) : Prop := op = ProcOp.InjectDLL32 ∨ op = ProcOp.InjectDLL64

instance (op : ProcOp) : Decidable (isInject op) := by
  unfold isInject; infer_instance

/-- A child whose first image is a 32-bit console program. -/
def consoleChild : List REGION :=
  [ { dos_header := none, nt_header := none },
    { dos_header := some 0, nt_header := none },
    { dos_header := some IMAGE_DOS_SIGNATURE,
      nt_header := some { Signature := IMAGE_NT_SIGNATURE,
                          Subsystem := IMAGE_SUBSYSTEM_WINDOWS_CUI,
                          Machine := IMAGE_FILE_MACHINE_I386 } } ]

/-- The `IMAGE_NT_HEADERS` of a region that holds an image: both headers can be read,
`e_magic` is `IMAGE_DOS_SIGNATURE` and `Signature` is `IMAGE_NT_SIGNATURE`. -/
def imageHeader (r : REGION) : Option IMAGE_NT_HEADERS :=
  match r.dos_header, r.nt_header with
  | some e_magic, some nt_header =>
    if e_magic = IMAGE_DOS_SIGNATURE ∧ nt_header.Signature = IMAGE_NT_SIGNATURE
    then some nt_header else none
  | _, _ => none

/-- The image header of the child: that of the first region of its address space that
holds an image, if there is one. -/
def childImage (regions : List REGION) : Option IMAGE_NT_HEADERS :=
  regions.findSome? imageHeader

/-- The child qualifies for injection: its image is of the console subsystem and for a
machine the build supports, i386, or AMD64 when the code is compiled with `_WIN64`. -/
def qualifies (win64 : Bool) (regions : List REGION) : Prop :=
  ∃ nt_header, childImage regions = some nt_header ∧
    nt_header.Subsystem = IMAGE_SUBSYSTEM_WINDOWS_CUI ∧
    (nt_header.Machine = IMAGE_FILE_MACHINE_I386 ∨
     (win64 = true ∧ nt_header.Machine = IMAGE_FILE_MACHINE_AMD64))

instance (win64 : Bool) (regions : List REGION) : Decidable (qualifies win64 regions) := by
  unfold qualifies
  cases childImage regions with
  | none => exact isFalse (fun ⟨_, h, _⟩ => by cases h)
  | some nt =>
    exact decidable_of_iff
      (nt.Subsystem = IMAGE_SUBSYSTEM_WINDOWS_CUI ∧
        (nt.Machine = IMAGE_FILE_MACHINE_I386 ∨
         (win64 = true ∧ nt.Machine = IMAGE_FILE_MACHINE_AMD64)))
      ⟨fun h => ⟨nt, rfl, h⟩, fun ⟨_, h1, h2⟩ => by cases h1; exact h2⟩

/-- A child whose first image is a 64-bit console program. -/
def consoleChild64 : List REGION :=
  [ { dos_header := some IMAGE_DOS_SIGNATURE, nt_header := none },
    { dos_header := some IMAGE_DOS_SIGNATURE,
      nt_header := some { Signature := IMAGE_NT_SIGNATURE,
                          Subsystem := IMAGE_SUBSYSTEM_WINDOWS_CUI,
                          Machine := IMAGE_FILE_MACHINE_AMD64 } } ]

/-- A child whose first image is a 32-bit program of the GUI subsystem (2), followed by a
console image. -/
def windowsChild : List REGION :=
  [ { dos_header := some IMAGE_DOS_SIGNATURE,
      nt_header := some { Signature := IMAGE_NT_SIGNATURE, Subsystem := 2,
                          Machine := IMAGE_FILE_MACHINE_I386 } },
    { dos_header := some IMAGE_DOS_SIGNATURE,
      nt_header := some { Signature := IMAGE_NT_SIGNATURE,
                          Subsystem := IMAGE_SUBSYSTEM_WINDOWS_CUI,
                          Machine := IMAGE_FILE_MACHINE_I386 } } ]

/-! ## Hooking of loaded modules: `HookAPIAllMod`, `MyLoadLibraryA` and the others -/

def LOAD_LIBRARY_AS_DATAFILE : Nat := 0x00000002

/-- The loop of `HookAPIAllMod` over the modules of the snapshot, each given by its handle
and its image: the returned `BOOL` and the handles on which `HookAPIOneMod` has been
called. -/
def moduleLoop (hDllInstance hKernel : Nat) (Hooks : List HookFn) (restore : Bool) :
    List (Nat × MODULE) → Bool × List Nat
  | [] => (true, [])
  | me :: rest =>
    -- the own module and kernel32 are left out
    if me.1 ≠ hDllInstance ∧ me.1 ≠ hKernel then
      if ¬ (HookAPIOneMod me.2 Hooks restore).ok then (false, [me.1])
      else
        let r := moduleLoop hDllInstance hKernel Hooks restore rest
        (r.1, me.1 :: r.2)
    else moduleLoop hDllInstance hKernel Hooks restore rest

/-- Function `HookAPIAllMod( Hooks, restore )`; `snapshot` is `none` when
`CreateToolhelp32Snapshot` fails. -/
def HookAPIAllMod (hDllInstance hKernel : Nat) (snapshot : Option (List (Nat × MODULE)))
    (Hooks : List HookFn) (restore : Bool) : Bool × List Nat :=
  match snapshot with
  | none => (false, [])
  | some modules => moduleLoop hDllInstance hKernel Hooks restore modules

/-- Function `MyLoadLibraryA( lpFileName )`: `hMod` is what `LoadLibraryA` returns (0 for
`NULL`) and `image` the module at that handle.  The result is the returned handle and the
pass of `HookAPIOneMod( hMod, Hooks, FALSE )`, `none` when it is not called. -/
def MyLoadLibraryA (hKernel : Nat) (Hooks : List HookFn) (hMod : Nat) (image : MODULE) :
    Nat × Option (Pass MODULE) :=
  if hMod ≠ 0 ∧ hMod ≠ hKernel then (hMod, some (HookAPIOneMod image Hooks false))
  else (hMod, none)

/-- Function `MyLoadLibraryW( lpFileName )`. -/
def MyLoadLibraryW (hKernel : Nat) (Hooks : List HookFn) (hMod : Nat) (image : MODULE) :
    Nat × Option (Pass MODULE) :=
  if hMod ≠ 0 ∧ hMod ≠ hKernel then (hMod, some (HookAPIOneMod image Hooks false))
  else (hMod, none)

/-- Function `MyLoadLibraryExA( lpFileName, hFile, dwFlags )`. -/
def MyLoadLibraryExA (hKernel : Nat) (Hooks : List HookFn) (dwFlags : Nat) (hMod : Nat)
    (image : MODULE) : Nat × Option (Pass MODULE) :=
  if hMod ≠ 0 ∧ hMod ≠ hKernel ∧ dwFlags &&& LOAD_LIBRARY_AS_DATAFILE = 0 then
    (hMod, some (HookAPIOneMod image Hooks false))
  else (hMod, none)

/-- Function `MyLoadLibraryExW( lpFileName, hFile, dwFlags )`. -/
def MyLoadLibraryExW (hKernel : Nat) (Hooks : List HookFn) (dwFlags : Nat) (hMod : Nat)
    (image : MODULE) : Nat × Option (Pass MODULE) :=
  if hMod ≠ 0 ∧ hMod ≠ hKernel ∧ dwFlags &&& LOAD_LIBRARY_AS_DATAFILE = 0 then
    (hMod, some (HookAPIOneMod image Hooks false))
  else (hMod, none)

/-! ## Auxiliary definitions: protection flags and attribute words -/

/-- The protection flags of the import slots of a module, descriptor by descriptor. -/
def slotProtects (m : MODULE) : List (List Nat) :=
  m.ImportDesc.map (fun d => d.FirstThunk.map (fun t => t.Protect))

/-- A module image importing one function from `kernel32.dll` through a slot on a
read-only page that `WriteProcessMemory` cannot write. -/
def lockedModule (v : Nat) : MODULE :=
  { e_magic := IMAGE_DOS_SIGNATURE, Signature := IMAGE_NT_SIGNATURE,
    ImportVirtualAddress := 4096,
    ImportDesc :=
      [ { Name := cstr "KERNEL32.dll",
          FirstThunk := [{ Function := v, Protect := PAGE_READONLY, writable := false }] } ] }

/-- The attribute word with its two nibbles exchanged. -/
def swapNibbles (a : Nat) : Nat := ((a &&& 15) <<< 4) ||| ((a >>> 4) &&& 15)

/-- The invariant of the attribute globals: colour indices in 0..7, `bold` 0 or
`FOREGROUND_INTENSITY`, `underline` 0 or `BACKGROUND_INTENSITY`, `rvideo` and `concealed`
0 or 1, and the same for the original attributes. -/
def attrInv (s : ANSI) : Prop :=
  s.foreground < 8 ∧ s.background < 8 ∧
  (s.bold = 0 ∨ s.bold = FOREGROUND_INTENSITY) ∧
  (s.underline = 0 ∨ s.underline = BACKGROUND_INTENSITY) ∧
  s.rvideo ≤ 1 ∧ s.concealed ≤ 1 ∧
  s.org_fg < 8 ∧ s.org_bg < 8 ∧
  (s.org_bold = 0 ∨ s.org_bold = FOREGROUND_INTENSITY) ∧
  (s.org_ul = 0 ∨ s.org_ul = BACKGROUND_INTENSITY)

instance (s : ANSI) : Decidable (attrInv s) := by
  unfold attrInv; infer_instance

/-! ## Auxiliary definitions: traces up to the boundaries of text writes -/

/-- Adds a console call to a trace kept newest first: a text write that follows a text
write is joined to it. -/
def addOp : List ConOp → ConOp → List ConOp
  | ConOp.WriteConsole a :: rest, ConOp.WriteConsole b => ConOp.WriteConsole (a ++ b) :: rest
  | acc, op => op :: acc

/-- The trace with every run of successive text writes joined into one write. -/
def mergeWrites (trace : List ConOp) : List ConOp := (trace.foldl addOp []).reverse

/-- The globals with the trace `pre` put before their own and the print buffer array
replaced by `b`. -/
def transport (pre : List ConOp) (b : Nat → Nat) (s : ANSI) : ANSI :=
  { s with trace := pre ++ s.trace, ChBuffer := b }

/-- The globals once the print buffer is flushed, without the trace and the content of the
print buffer array. -/
def skeleton (wc : WriteEffect) (s : ANSI) : ANSI :=
  { FlushBuffer wc s with trace := [], ChBuffer := fun _ => 0 }

/-- Two runs of the loop that differ at most in when the print buffer was flushed. -/
def Sim (wc : WriteEffect) (x y : ANSI) : Prop :=
  skeleton wc x = skeleton wc y ∧
  (FlushBuffer wc x).trace.foldl addOp [] = (FlushBuffer wc y).trace.foldl addOp [] ∧
  (x.state = 3 ∨ x.state = 4 → x.nCharInBuffer = 0 ∧ y.nCharInBuffer = 0)

/-- What a call of `ParseAndPrintString` leaves to be seen: the handle, the automaton with
its arguments, the attribute globals, the saved position, the console information, and the
console calls up to the boundaries of text writes. -/
def outcome (s : ANSI) :
    Nat × Int × Nat × Nat × (Nat → Int) × List Nat × COORD × CONSOLE_SCREEN_BUFFER_INFO ×
      List ConOp :=
  (s.hConOut, s.state, s.suffix, s.es_argc, s.es_argv, attrState s, s.SavePos, s.con,
   mergeWrites s.trace)

/-- A console host on which text advances the cursor by its length along the row. -/
def lineConsole : WriteEffect :=
  fun info text =>
    { info with dwCursorPosition :=
                  { X := info.dwCursorPosition.X + text.length, Y := info.dwCursorPosition.Y } }

/-! ## Auxiliary definitions: the text that reaches the console -/

/-- The text that has reached the console: the texts of the `WriteConsole` calls of a
trace, in order. -/
def written : List ConOp → List Nat
  | [] => []
  | ConOp.WriteConsole text :: rest => text ++ written rest
  | _ :: rest => written rest

/-- The literal text of an input read from the globals `s`: the code units other than ESC
that the loop reads in state 1, outside every escape sequence. -/
def literalUnits (wc : WriteEffect) (s : ANSI) : List Nat → List Nat
  | [] => []
  | c :: rest =>
    (if s.state = 1 ∧ c ≠ ESC then [c] else []) ++ literalUnits wc (ParseChar wc s c) rest

/-- Between a state `s` and a later state `r` console calls have been made, none of them a
`WriteConsole`. -/
def Quiet (s r : ANSI) : Prop :=
  ∃ ops : List ConOp, r.trace = s.trace ++ ops ∧ written ops = []

/-! # Theorems -/

/-! ## The print buffer and the parser -/

theorem store_same {α : Type} (a : Nat → α) (i : Nat) (v : α) : store a i v i = v := by
  simp [store]

theorem map_range_store (buf : Nat → Nat) (n : Nat) (c : Nat) :
    (List.range (n + 1)).map (store buf n c) = (List.range n).map buf ++ [c] := by
  rw [List.range_succ, List.map_append]
  congr 1
  · apply List.map_congr_left
    intro i hi
    have : i ≠ n := Nat.ne_of_lt (List.mem_range.mp hi)
    simp [store, this]
  · simp [store]

theorem FlushBuffer_empty (wc : WriteEffect) (s : ANSI) (h : s.nCharInBuffer = 0) :
    FlushBuffer wc s = s := by
  simp [FlushBuffer, h]

theorem ParseLoop_nil (wc : WriteEffect) (s : ANSI) : ParseLoop wc s [] = s := rfl

theorem ParseLoop_cons (wc : WriteEffect) (s : ANSI) (c : Nat) (t : List Nat) :
    ParseLoop wc s (c :: t) = ParseLoop wc (ParseChar wc s c) t := rfl

theorem ParseLoop_append (wc : WriteEffect) (s : ANSI) (t u : List Nat) :
    ParseLoop wc s (t ++ u) = ParseLoop wc (ParseLoop wc s t) u := by
  simp [ParseLoop, List.foldl_append]

/-- Literal text: a run of code units without ESC, read in state 1, only fills
and flushes the print buffer. -/
theorem ParseLoop_literal (wc : WriteEffect) (t : List Nat) :
    ∀ s : ANSI, s.state = 1 → s.nCharInBuffer < BUFFER_SIZE → ESC ∉ t →
      ∃ (chunks : List (List Nat)) (con1 : CONSOLE_SCREEN_BUFFER_INFO) (n1 : Nat)
        (buf1 : Nat → Nat),
        ParseLoop wc s t =
          { s with con := con1, trace := s.trace ++ chunks.map ConOp.WriteConsole,
                   nCharInBuffer := n1, ChBuffer := buf1 } ∧
        n1 < BUFFER_SIZE ∧
        chunks.flatten ++ (List.range n1).map buf1 = pending s ++ t ∧
        (∀ c ∈ chunks, c ≠ []) := by
  induction t with
  | nil =>
    intro s _ hn _
    exact ⟨[], s.con, s.nCharInBuffer, s.ChBuffer, by simp [ParseLoop], hn, by simp [pending],
      by simp⟩
  | cons c t ih =>
    intro s hs hn hesc
    have hc : c ≠ ESC := fun h => hesc (by simp [h])
    have ht : ESC ∉ t := fun h => hesc (by simp [h])
    rw [ParseLoop_cons]
    have hstep : ParseChar wc s c = PushBuffer wc s c := by
      simp [ParseChar, hs, hc]
    rw [hstep]
    by_cases hfull : s.nCharInBuffer + 1 ≥ BUFFER_SIZE
    · -- the buffer becomes full and is flushed
      have hpush : PushBuffer wc s c =
          { s with con := wc s.con (pending s ++ [c]),
                   trace := s.trace ++ [ConOp.WriteConsole (pending s ++ [c])],
                   nCharInBuffer := 0,
                   ChBuffer := store s.ChBuffer s.nCharInBuffer c } := by
        simp [PushBuffer, hfull, FlushBuffer, WriteConsole, map_range_store, pending]
      obtain ⟨chunks, con1, n1, buf1, heq, hn1, hcat, hne⟩ :=
        ih (PushBuffer wc s c) (by rw [hpush]; exact hs)
          (by rw [hpush]; simp [BUFFER_SIZE]) ht
      refine ⟨(pending s ++ [c]) :: chunks, con1, n1, buf1, ?_, hn1, ?_, ?_⟩
      · rw [heq, hpush]; simp
      · rw [hpush] at hcat
        simp only [pending, List.range_zero, List.map_nil, List.nil_append] at hcat
        simp [hcat, pending]
      · intro x hx
        rcases List.mem_cons.mp hx with rfl | hx
        · simp
        · exact hne x hx
    · have hpush : PushBuffer wc s c =
          { s with nCharInBuffer := s.nCharInBuffer + 1,
                   ChBuffer := store s.ChBuffer s.nCharInBuffer c } := by
        simp [PushBuffer, hfull]
      obtain ⟨chunks, con1, n1, buf1, heq, hn1, hcat, hne⟩ :=
        ih (PushBuffer wc s c) (by rw [hpush]; exact hs)
          (by rw [hpush]; simp only; omega) ht
      refine ⟨chunks, con1, n1, buf1, ?_, hn1, ?_, hne⟩
      · rw [heq, hpush]
      · rw [hpush] at hcat
        simp only [pending, map_range_store] at hcat
        simp [hcat, pending]


theorem store_store_same {α : Type} (a : Nat → α) (i : Nat) (x y : α) :
    store (store a i x) i y = store a i y := by
  funext j; unfold store; split <;> rfl

theorem store_self {α : Type} (a : Nat → α) (i : Nat) : store a i (a i) = a := by
  funext j; unfold store; split
  · next h => rw [h]
  · rfl

theorem accum_cons (v : Int) (c : Nat) (ds : List Nat) :
    accum v (c :: ds) = accum (toInt32 (10 * v + ((c : Int) - 48))) ds := rfl

theorem isdigit_iff (c : Nat) : isdigit c = true ↔ 48 ≤ c ∧ c ≤ 57 := by
  simp [isdigit]

theorem allDigits_cons (c : Nat) (ds : List Nat) :
    allDigits (c :: ds) ↔ isdigit c = true ∧ allDigits ds := by
  simp [allDigits]

/-- Digits read in state 4 accumulate in the current argument slot. -/
theorem ParseLoop_digits (wc : WriteEffect) (ds : List Nat) :
    ∀ s : ANSI, s.state = 4 → allDigits ds →
      ParseLoop wc s ds =
        { s with es_argv := store s.es_argv s.es_argc (accum (s.es_argv s.es_argc) ds) } := by
  induction ds with
  | nil =>
    intro s _ _
    simp [ParseLoop_nil, accum, store_self]
  | cons c ds ih =>
    intro s hs hd
    rw [allDigits_cons] at hd
    have hstep : ParseChar wc s c =
        { s with es_argv := store s.es_argv s.es_argc
                              (toInt32 (10 * s.es_argv s.es_argc + ((c : Int) - 48))) } := by
      simp [ParseChar, hs, hd.1]
    rw [ParseLoop_cons, hstep, ih _ (by simpa using hs) hd.2]
    simp [store_store_same, accum_cons, store]

/-- A first digit read in state 3 opens argument 0. -/
theorem ParseLoop_firstArg (wc : WriteEffect) (s : ANSI) (d : Nat) (ds : List Nat)
    (hs : s.state = 3) (hd : allDigits (d :: ds)) :
    ParseLoop wc s (d :: ds) =
      { s with es_argc := 0, es_argv := store s.es_argv 0 (accum 0 (d :: ds)), state := 4 } := by
  have hd0 := hd
  rw [allDigits_cons] at hd
  have hstep : ParseChar wc s d =
      { s with es_argc := 0, es_argv := store s.es_argv 0 ((d : Int) - 48), state := 4 } := by
    simp [ParseChar, hs, hd.1]
  have hsmall : toInt32 (((d : Nat) : Int) - 48) = ((d : Nat) : Int) - 48 := by
    have := (isdigit_iff d).mp hd.1
    unfold toInt32; omega
  rw [ParseLoop_cons, hstep, ParseLoop_digits wc ds _ (by simp) hd.2]
  simp [store_store_same, accum_cons, store, hsmall]

/-- A separator read in state 4 opens the next argument slot. -/
theorem ParseLoop_nextArg (wc : WriteEffect) (s : ANSI) (ds : List Nat)
    (hs : s.state = 4) (hk : s.es_argc < 15) (hd : allDigits ds) :
    ParseLoop wc s (59 :: ds) =
      { s with es_argc := s.es_argc + 1,
               es_argv := store s.es_argv (s.es_argc + 1) (accum 0 ds) } := by
  have hstep : ParseChar wc s 59 =
      { s with es_argc := s.es_argc + 1, es_argv := store s.es_argv (s.es_argc + 1) 0 } := by
    simp [ParseChar, hs, isdigit, MAX_ARG, hk]
  rw [ParseLoop_cons, hstep, ParseLoop_digits wc ds _ (by simpa using hs) hd]
  simp [store_store_same, store]

/-- A code unit that is neither a digit nor a separator, read in state 4,
closes the sequence: it is interpreted and the automaton returns to state 1. -/
theorem ParseChar_final (wc : WriteEffect) (s : ANSI) (c : Nat)
    (hs : s.state = 4) (hc : isdigit c = false) (hc2 : c ≠ 59) :
    ParseChar wc s c =
      { InterpretEscSeq { s with es_argc := s.es_argc + 1, suffix := c } with state := 1 } := by
  simp [ParseChar, hs, hc, hc2]

/-- The same in state 3: a sequence without arguments. -/
theorem ParseChar_final0 (wc : WriteEffect) (s : ANSI) (c : Nat)
    (hs : s.state = 3) (hc : isdigit c = false) (hc2 : c ≠ 59) :
    ParseChar wc s c =
      { InterpretEscSeq { s with es_argc := 0, suffix := c } with state := 1 } := by
  simp [ParseChar, hs, hc, hc2]

/-- The introducer `ESC [` read in state 1 flushes the print buffer and leads
to state 3. -/
theorem ParseLoop_CSI (wc : WriteEffect) (s : ANSI) (hs : s.state = 1) :
    ParseLoop wc s [ESC, 91] = { FlushBuffer wc s with state := 3 } := by
  simp only [ParseLoop_cons, ParseLoop_nil]
  have h1 : ParseChar wc s ESC = { s with state := 2 } := by simp [ParseChar, hs]
  rw [h1]
  by_cases h : s.nCharInBuffer ≤ 0 <;> simp [ParseChar, ESC, FlushBuffer, WriteConsole, h]

/-- Without overflow the accumulated value is the decimal value. -/
theorem accum_eq_decimal_aux (ds : List Nat) :
    ∀ v : Nat, allDigits ds →
      ds.foldl (fun a c => 10 * a + (c - 48)) v < 2147483648 →
      accum (v : Int) ds = ((ds.foldl (fun a c => 10 * a + (c - 48)) v : Nat) : Int) := by
  induction ds with
  | nil => intro v _ _; rfl
  | cons c ds ih =>
    intro v hd hlt
    rw [allDigits_cons] at hd
    have hc := (isdigit_iff c).mp hd.1
    have hmono : ∀ (l : List Nat) (w : Nat), w ≤ l.foldl (fun a c => 10 * a + (c - 48)) w := by
      intro l
      induction l with
      | nil => intro w; exact Nat.le_refl _
      | cons x l ihl =>
        intro w
        exact Nat.le_trans (by omega) (ihl (10 * w + (x - 48)))
    have hlt1 : 10 * v + (c - 48) < 2147483648 :=
      Nat.lt_of_le_of_lt (hmono ds _) hlt
    have hwrap : toInt32 (10 * (v : Int) + ((c : Int) - 48)) = ((10 * v + (c - 48) : Nat) : Int) := by
      unfold toInt32; omega
    rw [accum_cons, hwrap]
    exact ih _ hd.2 hlt

theorem accum_eq_decimal (ds : List Nat) (hd : allDigits ds) (hlt : decimal ds < 2147483648) :
    accum 0 ds = (decimal ds : Int) :=
  accum_eq_decimal_aux ds 0 hd hlt


theorem ParseAndPrintString_fst (wc : WriteEffect) (s : ANSI) (hDev : Nat)
    (input : List Nat) (hs : s.state = 1) :
    (ParseAndPrintString wc s hDev input).1 =
      FlushBuffer wc (ParseLoop wc { s with hConOut := hDev } input) := by
  have h0 : (if hDev ≠ s.hConOut then { s with hConOut := hDev, state := 1 } else s)
      = { s with hConOut := hDev } := by
    split
    · rw [← hs]
    · next h => simp only [ne_eq, not_not] at h; rw [h]
  simp only [ParseAndPrintString, h0]

/-- Parsing `ESC [ fin`: a sequence without arguments. -/
theorem ParseLoop_seq0 (wc : WriteEffect) (s : ANSI) (fin : Nat)
    (hs : s.state = 1) (hbuf : s.nCharInBuffer = 0)
    (hfin : isdigit fin = false) (hfin2 : fin ≠ 59) :
    ParseLoop wc s (CSI [] fin) =
      { InterpretEscSeq { s with state := 3, es_argc := 0, suffix := fin } with state := 1 } := by
  have h : CSI [] fin = [ESC, 91] ++ [fin] := rfl
  rw [h, ParseLoop_append, ParseLoop_CSI wc s hs, FlushBuffer_empty wc s hbuf, ParseLoop_cons,
    ParseLoop_nil, ParseChar_final0 wc _ fin (by simp) hfin hfin2]

/-- Parsing `ESC [ ds fin`: a sequence with one argument. -/
theorem ParseLoop_seq1 (wc : WriteEffect) (s : ANSI) (ds : List Nat) (fin : Nat)
    (hs : s.state = 1) (hbuf : s.nCharInBuffer = 0)
    (hne : ds ≠ []) (hd : allDigits ds)
    (hfin : isdigit fin = false) (hfin2 : fin ≠ 59) :
    ParseLoop wc s (CSI [ds] fin) =
      { InterpretEscSeq { s with state := 4, es_argc := 1,
                                 es_argv := store s.es_argv 0 (accum 0 ds),
                                 suffix := fin } with state := 1 } := by
  obtain ⟨d, ds, rfl⟩ := List.exists_cons_of_ne_nil hne
  have h : CSI [d :: ds] fin = [ESC, 91] ++ ((d :: ds) ++ [fin]) := by
    simp [CSI, List.intercalate]
  rw [h, ParseLoop_append, ParseLoop_CSI wc s hs, FlushBuffer_empty wc s hbuf, ParseLoop_append,
    ParseLoop_firstArg wc _ d ds (by simp) hd, ParseLoop_cons, ParseLoop_nil,
    ParseChar_final wc _ fin (by simp) hfin hfin2]

/-- Parsing `ESC [ ds ; es fin`: a sequence with two arguments. -/
theorem ParseLoop_seq2 (wc : WriteEffect) (s : ANSI) (ds es : List Nat) (fin : Nat)
    (hs : s.state = 1) (hbuf : s.nCharInBuffer = 0)
    (hne : ds ≠ []) (hd : allDigits ds) (he : allDigits es)
    (hfin : isdigit fin = false) (hfin2 : fin ≠ 59) :
    ParseLoop wc s (CSI [ds, es] fin) =
      { InterpretEscSeq { s with state := 4, es_argc := 2,
                                 es_argv := store (store s.es_argv 0 (accum 0 ds)) 1 (accum 0 es),
                                 suffix := fin } with state := 1 } := by
  obtain ⟨d, ds, rfl⟩ := List.exists_cons_of_ne_nil hne
  have h : CSI [d :: ds, es] fin
      = [ESC, 91] ++ ((d :: ds) ++ ((59 :: es) ++ [fin])) := by
    simp [CSI, List.intercalate]
  rw [h, ParseLoop_append, ParseLoop_CSI wc s hs, FlushBuffer_empty wc s hbuf, ParseLoop_append,
    ParseLoop_firstArg wc _ d ds (by simp) hd, ParseLoop_append,
    ParseLoop_nextArg wc _ es (by simp) (by simp) he, ParseLoop_cons, ParseLoop_nil,
    ParseChar_final wc _ fin (by simp) hfin hfin2]

/-- Literal text followed by a flush of the print buffer: everything read has
been written, in non-empty chunks, and nothing else has changed. -/
theorem FlushBuffer_ParseLoop_literal (wc : WriteEffect) (s : ANSI) (t : List Nat)
    (hs : s.state = 1) (hbuf : s.nCharInBuffer = 0) (hesc : ESC ∉ t) :
    ∃ (chunks : List (List Nat)) (con1 : CONSOLE_SCREEN_BUFFER_INFO) (buf1 : Nat → Nat),
      FlushBuffer wc (ParseLoop wc s t) =
        { s with con := con1, trace := s.trace ++ chunks.map ConOp.WriteConsole,
                 nCharInBuffer := 0, ChBuffer := buf1 } ∧
      (ParseLoop wc s t).state = 1 ∧
      chunks.flatten = t ∧ (∀ c ∈ chunks, c ≠ []) := by
  obtain ⟨chunks, con1, n1, buf1, heq, _, hcat, hne⟩ :=
    ParseLoop_literal wc t s hs (by rw [hbuf]; decide) hesc
  have hpend : pending s = [] := by simp [pending, hbuf]
  rw [hpend, List.nil_append] at hcat
  rw [heq]
  by_cases hn : n1 = 0
  · refine ⟨chunks, con1, buf1, ?_, by simpa using hs, by simpa [hn] using hcat, hne⟩
    rw [FlushBuffer_empty _ _ (by simpa using hn)]
    simp [hn]
  · refine ⟨chunks ++ [(List.range n1).map buf1], wc con1 ((List.range n1).map buf1), buf1, ?_,
      by simpa using hs, by simpa using hcat, ?_⟩
    · simp [FlushBuffer, hn, WriteConsole]
    · intro x hx
      rcases List.mem_append.mp hx with hx | hx
      · exact hne x hx
      · simp only [List.mem_singleton] at hx
        subst hx
        intro h0
        have hlen := congrArg List.length h0
        simp at hlen
        exact hn hlen

/-- Literal text followed by the introducer `ESC [`. -/
theorem ParseLoop_literal_CSI (wc : WriteEffect) (s : ANSI) (t : List Nat)
    (hs : s.state = 1) (hbuf : s.nCharInBuffer = 0) (hesc : ESC ∉ t) :
    ∃ (chunks : List (List Nat)) (con1 : CONSOLE_SCREEN_BUFFER_INFO) (buf1 : Nat → Nat),
      ParseLoop wc s (t ++ [ESC, 91]) =
        { s with state := 3, con := con1, trace := s.trace ++ chunks.map ConOp.WriteConsole,
                 nCharInBuffer := 0, ChBuffer := buf1 } ∧
      chunks.flatten = t ∧ (∀ c ∈ chunks, c ≠ []) := by
  obtain ⟨chunks, con1, buf1, heq, hst, hcat, hne⟩ :=
    FlushBuffer_ParseLoop_literal wc s t hs hbuf hesc
  refine ⟨chunks, con1, buf1, ?_, hcat, hne⟩
  rw [ParseLoop_append, ParseLoop_CSI wc _ hst, heq]

/-! ## C1: literal text -/

/-- C1: for every input without ESC, of any length, `ParseAndPrintString`
started in state 1 (Literal) with an empty print buffer makes only
`WriteConsole` calls, whose texts concatenated in order are the input, and
ends in state 1. -/
theorem C1_literal_pass_through (wc : WriteEffect) (s : ANSI) (hDev : Nat)
    (input : List Nat) (hstate : s.state = 1) (hbuf : s.nCharInBuffer = 0)
    (hesc : ESC ∉ input) :
    ∃ chunks : List (List Nat),
      (ParseAndPrintString wc s hDev input).1.trace = s.trace ++ chunks.map ConOp.WriteConsole ∧
      chunks.flatten = input ∧
      (ParseAndPrintString wc s hDev input).1.state = 1 := by
  obtain ⟨chunks, con1, buf1, heq, _, hcat, _⟩ :=
    FlushBuffer_ParseLoop_literal wc { s with hConOut := hDev } input hstate hbuf hesc
  refine ⟨chunks, ?_, hcat, ?_⟩
  · rw [ParseAndPrintString_fst wc s hDev input hstate, heq]
  · rw [ParseAndPrintString_fst wc s hDev input hstate, heq]
    exact hstate

/-- Witness of C1: 600 code units `A`, more than two buffers full. -/
theorem C1_literal_pass_through_witness :
    ∃ chunks : List (List Nat),
      (ParseAndPrintString quietConsole (sample 80 25 0 0 7) 1 (List.replicate 600 65)).1.trace =
        (sample 80 25 0 0 7).trace ++ chunks.map ConOp.WriteConsole ∧
      chunks.flatten = List.replicate 600 65 ∧
      (ParseAndPrintString quietConsole (sample 80 25 0 0 7) 1 (List.replicate 600 65)).1.state
        = 1 :=
  C1_literal_pass_through quietConsole (sample 80 25 0 0 7) 1 (List.replicate 600 65) rfl rfl
    (fun h => absurd (List.mem_replicate.mp h).2 (by decide))

/-! ## C2: the colour scenario -/

theorem OriginalAttr_seven (ok : Bool) (s : ANSI) (hattr : ok = true → s.con.wAttributes = 7) :
    OriginalAttr ok s = { s with foreground := 7, org_fg := 7, background := 0, org_bg := 0,
                                 bold := 0, org_bold := 0, underline := 0, org_ul := 0 } := by
  have h : (if ok = true then s.con.wAttributes else 7) = 7 := by
    split
    · next h => exact hattr h
    · rfl
  simp only [OriginalAttr, h]
  rfl

/-- Case `m` with exactly one argument. -/
theorem InterpretEscSeq_SGR1 (s : ANSI) (hsuf : s.suffix = 109) (hargc : s.es_argc = 1) :
    InterpretEscSeq s =
      SetConsoleTextAttribute (SGRArg s (s.es_argv 0)) (attribut (SGRArg s (s.es_argv 0))) := by
  simp [InterpretEscSeq, hsuf, InterpretSGR, defaultArg, hargc, show List.range 1 = [0] from rfl]

/-- Parsing `ds m` in state 3: an SGR sequence with one argument. -/
theorem ParseLoop_SGR1 (wc : WriteEffect) (s : ANSI) (ds : List Nat)
    (hs : s.state = 3) (hne : ds ≠ []) (hd : allDigits ds) :
    ParseLoop wc s (ds ++ [109]) =
      { SetConsoleTextAttribute
          (SGRArg { s with state := 4, es_argc := 1, es_argv := store s.es_argv 0 (accum 0 ds),
                           suffix := 109 } (accum 0 ds))
          (attribut
            (SGRArg { s with state := 4, es_argc := 1, es_argv := store s.es_argv 0 (accum 0 ds),
                             suffix := 109 } (accum 0 ds)))
        with state := 1 } := by
  obtain ⟨d, ds, rfl⟩ := List.exists_cons_of_ne_nil hne
  rw [ParseLoop_append, ParseLoop_firstArg wc s d ds hs hd, ParseLoop_cons, ParseLoop_nil,
    ParseChar_final wc _ 109 (by simp) (by decide) (by decide),
    InterpretEscSeq_SGR1 _ (by simp) (by simp)]
  simp [store]

theorem flatten_singleton_chunks (chunks : List (List Nat)) (x : Nat)
    (hflat : chunks.flatten = [x]) (hne : ∀ c ∈ chunks, c ≠ []) : chunks = [[x]] := by
  match chunks, hflat, hne with
  | [], hflat, _ => simp at hflat
  | [] :: rest, _, hne => exact absurd rfl (hne [] (by simp))
  | (y :: c) :: rest, hflat, hne =>
    simp only [List.flatten_cons, List.cons_append, List.cons.injEq, List.append_eq_nil] at hflat
    obtain ⟨rfl, rfl, hrest⟩ := hflat
    match rest, hrest, hne with
    | [], _, _ => rfl
    | [] :: rest, _, hne => exact absurd rfl (hne [] (by simp))
    | (z :: c) :: rest, hrest, _ => simp at hrest

theorem SGRArg_zero (s : ANSI) :
    SGRArg s 0 =
      { s with foreground := s.org_fg, background := s.org_bg,
               bold := if s.es_argc = 1 then s.org_bold else 0,
               underline := if s.es_argc = 1 then s.org_ul else 0,
               rvideo := 0, concealed := 0 } := by
  simp [SGRArg, SGRSwitch]

theorem SGRArg_one (s : ANSI) : SGRArg s 1 = { s with bold := FOREGROUND_INTENSITY } := by
  simp [SGRArg, SGRSwitch]

theorem SGRArg_fg (s : ANSI) (v : Int) (h1 : 30 ≤ v) (h2 : v ≤ 37) :
    SGRArg s v = { s with foreground := (v - 30).toNat } := by
  have e0 : ¬ v = 0 := by omega
  have e1 : ¬ v = 1 := by omega
  have e2 : ¬ (v = 5 ∨ v = 4) := by omega
  have e3 : ¬ v = 7 := by omega
  have e4 : ¬ v = 8 := by omega
  have e5 : ¬ v = 21 := by omega
  have e6 : ¬ (v = 25 ∨ v = 24) := by omega
  have e7 : ¬ v = 27 := by omega
  have e8 : ¬ v = 28 := by omega
  have e9 : ¬ (40 ≤ v ∧ v ≤ 47) := by omega
  simp only [SGRArg, SGRSwitch, e0, e1, e2, e3, e4, e5, e6, e7, e8, e9, h1, h2, and_self, if_true, if_false]

theorem SGRArg_bg (s : ANSI) (v : Int) (h1 : 40 ≤ v) (h2 : v ≤ 47) :
    SGRArg s v = { s with background := (v - 40).toNat } := by
  have e0 : ¬ v = 0 := by omega
  have e1 : ¬ v = 1 := by omega
  have e2 : ¬ (v = 5 ∨ v = 4) := by omega
  have e3 : ¬ v = 7 := by omega
  have e4 : ¬ v = 8 := by omega
  have e5 : ¬ v = 21 := by omega
  have e6 : ¬ (v = 25 ∨ v = 24) := by omega
  have e7 : ¬ v = 27 := by omega
  have e8 : ¬ v = 28 := by omega
  have e9 : ¬ (30 ≤ v ∧ v ≤ 37) := by omega
  simp only [SGRArg, SGRSwitch, e0, e1, e2, e3, e4, e5, e6, e7, e8, e9, h1, h2, and_self, if_true, if_false]

theorem attribut_plain (s : ANSI) (hrv : s.rvideo = 0) (hcon : s.concealed = 0) :
    attribut s =
      foregroundcolor s.foreground ||| backgroundcolor s.background ||| s.bold ||| s.underline := by
  simp [attribut, hrv, hcon]

/-- The scenario of C2 from any state whose attribute globals are those set by
`OriginalAttr` for the attribute word 7. -/
theorem scenario_trace (wc : WriteEffect) (s : ANSI) (t1 t2 t3 : List Nat)
    (hstate : s.state = 1) (hbuf : s.nCharInBuffer = 0)
    (hbg : s.background = 0) (hbold : s.bold = 0)
    (hul : s.underline = 0) (hofg : s.org_fg = 7) (hobg : s.org_bg = 0)
    (hobold : s.org_bold = 0) (houl : s.org_ul = 0)
    (hrv : s.rvideo = 0) (hcon : s.concealed = 0)
    (h1 : ESC ∉ t1) (h2 : ESC ∉ t2) (h3 : ESC ∉ t3) :
    ∃ c1 c2 c3 : List (List Nat),
      (FlushBuffer wc (ParseLoop wc s
          (t1 ++ [ESC, 91, 51, 49, 109] ++ t2 ++ [ESC, 91, 48, 109] ++ t3))).trace =
        s.trace ++ c1.map ConOp.WriteConsole ++ [ConOp.SetConsoleTextAttribute 4]
          ++ c2.map ConOp.WriteConsole ++ [ConOp.SetConsoleTextAttribute 7]
          ++ c3.map ConOp.WriteConsole ∧
      c1.flatten = t1 ∧ c2.flatten = t2 ∧ c3.flatten = t3 ∧
      (∀ c ∈ c1, c ≠ []) ∧ (∀ c ∈ c2, c ≠ []) ∧ (∀ c ∈ c3, c ≠ []) := by
  have hsplit : t1 ++ [ESC, 91, 51, 49, 109] ++ t2 ++ [ESC, 91, 48, 109] ++ t3
      = (t1 ++ [ESC, 91]) ++ (([51, 49] ++ [109]) ++ ((t2 ++ [ESC, 91]) ++
          (([48] ++ [109]) ++ t3))) := by simp
  obtain ⟨c1, conA, bufA, hA, hf1, hn1⟩ := ParseLoop_literal_CSI wc s t1 hstate hbuf h1
  have hv1 : accum 0 [51, 49] = 31 := by decide
  have hv2 : accum 0 [48] = 0 := by decide
  rw [hsplit, ParseLoop_append, hA, ParseLoop_append,
    ParseLoop_SGR1 wc _ [51, 49] (by simp) (by simp) (by decide), hv1,
    SGRArg_fg _ 31 (by decide) (by decide),
    attribut_plain _ (by simpa using hrv) (by simpa using hcon)]
  -- the state after the first sequence
  generalize hB : ({ SetConsoleTextAttribute _ _ with state := 1 } : ANSI) = sB
  have hBstate : sB.state = 1 := by subst hB; rfl
  have hBbuf : sB.nCharInBuffer = 0 := by subst hB; rfl
  have hBtrace : sB.trace = s.trace ++ c1.map ConOp.WriteConsole
      ++ [ConOp.SetConsoleTextAttribute 4] := by
    subst hB
    simp [SetConsoleTextAttribute, hbg, hbold, hul, foregroundcolor, backgroundcolor,
      FOREGROUND_RED, BACKGROUND_BLACK]
  have hBorg : sB.org_fg = 7 ∧ sB.org_bg = 0 ∧ sB.org_bold = 0 ∧ sB.org_ul = 0 := by
    subst hB; exact ⟨hofg, hobg, hobold, houl⟩
  obtain ⟨c2, conC, bufC, hC, hf2, hn2⟩ := ParseLoop_literal_CSI wc sB t2 hBstate hBbuf h2
  rw [ParseLoop_append, hC, ParseLoop_append,
    ParseLoop_SGR1 wc _ [48] (by simp) (by simp) (by decide), hv2, SGRArg_zero,
    attribut_plain _ (by simp) (by simp)]
  generalize hD : ({ SetConsoleTextAttribute _ _ with state := 1 } : ANSI) = sD
  have hDstate : sD.state = 1 := by subst hD; rfl
  have hDbuf : sD.nCharInBuffer = 0 := by subst hD; rfl
  have hDtrace : sD.trace = sB.trace ++ c2.map ConOp.WriteConsole
      ++ [ConOp.SetConsoleTextAttribute 7] := by
    subst hD
    simp [SetConsoleTextAttribute, hBorg.1, hBorg.2.1, hBorg.2.2.1, hBorg.2.2.2, foregroundcolor,
      backgroundcolor, FOREGROUND_WHITE, FOREGROUND_RED, FOREGROUND_GREEN, FOREGROUND_BLUE,
      BACKGROUND_BLACK]
  obtain ⟨c3, conE, bufE, hE, _, hf3, hn3⟩ :=
    FlushBuffer_ParseLoop_literal wc sD t3 hDstate hDbuf h3
  refine ⟨c1, c2, c3, ?_, hf1, hf2, hf3, hn1, hn2, hn3⟩
  rw [hE]
  simp [hDtrace, hBtrace]

/-- C2: with the attribute globals as set by `OriginalAttr` for the default
attribute word 7, the input `A ESC[31m B ESC[0m C` makes exactly the console
calls write "A", set attribute to red on the original background, write "B",
set attribute to the original 7, write "C"; and for any ESC-free texts in place
of A, B, C the writes before, between and after the two attribute calls
concatenate to the first, second and third text. -/
theorem C2_colour_scenario (wc : WriteEffect) (s : ANSI) (hDev : Nat) (ok : Bool)
    (hstate : s.state = 1) (hbuf : s.nCharInBuffer = 0)
    (hrv : s.rvideo = 0) (hcon : s.concealed = 0)
    (hattr : ok = true → s.con.wAttributes = 7) :
    (ParseAndPrintString wc (OriginalAttr ok s) hDev
        ([65] ++ [ESC, 91, 51, 49, 109] ++ [66] ++ [ESC, 91, 48, 109] ++ [67])).1.trace =
      s.trace ++ [ConOp.WriteConsole [65], ConOp.SetConsoleTextAttribute FOREGROUND_RED,
                  ConOp.WriteConsole [66], ConOp.SetConsoleTextAttribute 7,
                  ConOp.WriteConsole [67]] ∧
    ∀ t1 t2 t3 : List Nat, ESC ∉ t1 → ESC ∉ t2 → ESC ∉ t3 →
      ∃ c1 c2 c3 : List (List Nat),
        (ParseAndPrintString wc (OriginalAttr ok s) hDev
            (t1 ++ [ESC, 91, 51, 49, 109] ++ t2 ++ [ESC, 91, 48, 109] ++ t3)).1.trace =
          s.trace ++ c1.map ConOp.WriteConsole ++ [ConOp.SetConsoleTextAttribute FOREGROUND_RED]
            ++ c2.map ConOp.WriteConsole ++ [ConOp.SetConsoleTextAttribute 7]
            ++ c3.map ConOp.WriteConsole ∧
        c1.flatten = t1 ∧ c2.flatten = t2 ∧ c3.flatten = t3 := by
  have hgen : ∀ t1 t2 t3 : List Nat, ESC ∉ t1 → ESC ∉ t2 → ESC ∉ t3 →
      ∃ c1 c2 c3 : List (List Nat),
        (ParseAndPrintString wc (OriginalAttr ok s) hDev
            (t1 ++ [ESC, 91, 51, 49, 109] ++ t2 ++ [ESC, 91, 48, 109] ++ t3)).1.trace =
          s.trace ++ c1.map ConOp.WriteConsole ++ [ConOp.SetConsoleTextAttribute 4]
            ++ c2.map ConOp.WriteConsole ++ [ConOp.SetConsoleTextAttribute 7]
            ++ c3.map ConOp.WriteConsole ∧
        c1.flatten = t1 ∧ c2.flatten = t2 ∧ c3.flatten = t3 ∧
        (∀ c ∈ c1, c ≠ []) ∧ (∀ c ∈ c2, c ≠ []) ∧ (∀ c ∈ c3, c ≠ []) := by
    intro t1 t2 t3 h1 h2 h3
    rw [OriginalAttr_seven ok s hattr, ParseAndPrintString_fst _ _ _ _ (by simpa using hstate)]
    exact scenario_trace wc _ t1 t2 t3 (by simpa using hstate) (by simpa using hbuf)
      rfl rfl rfl rfl rfl rfl rfl (by simpa using hrv) (by simpa using hcon) h1 h2 h3
  constructor
  · obtain ⟨c1, c2, c3, htr, hf1, hf2, hf3, hn1, hn2, hn3⟩ :=
      hgen [65] [66] [67] (by decide) (by decide) (by decide)
    rw [htr, flatten_singleton_chunks c1 65 hf1 hn1, flatten_singleton_chunks c2 66 hf2 hn2,
      flatten_singleton_chunks c3 67 hf3 hn3]
    simp [FOREGROUND_RED]
  · intro t1 t2 t3 h1 h2 h3
    obtain ⟨c1, c2, c3, htr, hf1, hf2, hf3, _⟩ := hgen t1 t2 t3 h1 h2 h3
    exact ⟨c1, c2, c3, htr, hf1, hf2, hf3⟩

/-- Witness of C2 on an 80x25 console with attribute 7. -/
theorem C2_colour_scenario_witness :
    (ParseAndPrintString quietConsole (OriginalAttr true (sample 80 25 0 0 7)) 1
        ([65] ++ [ESC, 91, 51, 49, 109] ++ [66] ++ [ESC, 91, 48, 109] ++ [67])).1.trace =
      (sample 80 25 0 0 7).trace ++
        [ConOp.WriteConsole [65], ConOp.SetConsoleTextAttribute FOREGROUND_RED,
         ConOp.WriteConsole [66], ConOp.SetConsoleTextAttribute 7,
         ConOp.WriteConsole [67]] :=
  (C2_colour_scenario quietConsole (sample 80 25 0 0 7) 1 true rfl rfl rfl rfl (fun _ => rfl)).1

/-! ## C3: reset -/

theorem and_low_byte (a m : Nat) (hm : 255 &&& m = m) : a &&& m = (a % 256) &&& m := by
  have h255 : a &&& 255 = a % 256 := Nat.and_pow_two_sub_one_eq_mod a 8
  rw [← h255, Nat.and_assoc, hm]

theorem shift_low_byte (a : Nat) : (a >>> 4) &&& 7 = ((a % 256) >>> 4) &&& 7 := by
  have h7 : ∀ x : Nat, x &&& 7 = x % 8 := fun x => Nat.and_pow_two_sub_one_eq_mod x 3
  rw [h7, h7, Nat.shiftRight_eq_div_pow, Nat.shiftRight_eq_div_pow]
  omega

set_option maxRecDepth 100000 in
theorem palette_roundtrip_byte : ∀ r : Nat, r < 256 →
    foregroundcolor (attr2ansi (r &&& 7)) ||| backgroundcolor (attr2ansi ((r >>> 4) &&& 7))
      ||| (r &&& FOREGROUND_INTENSITY) ||| (r &&& BACKGROUND_INTENSITY) = r := by
  decide

/-- The attribute word rebuilt from what `OriginalAttr` keeps of `a` is the low
byte of `a`. -/
theorem palette_roundtrip (a : Nat) :
    foregroundcolor (attr2ansi (a &&& 7)) ||| backgroundcolor (attr2ansi ((a >>> 4) &&& 7))
      ||| (a &&& FOREGROUND_INTENSITY) ||| (a &&& BACKGROUND_INTENSITY) = a % 256 := by
  rw [and_low_byte a 7 (by decide), shift_low_byte a,
    and_low_byte a FOREGROUND_INTENSITY (by decide),
    and_low_byte a BACKGROUND_INTENSITY (by decide)]
  exact palette_roundtrip_byte (a % 256) (Nat.mod_lt _ (by decide))

/-- What `ESC [ 0 m` does in state 1 with an empty print buffer. -/
theorem reset_sequence (wc : WriteEffect) (s : ANSI) (hDev : Nat)
    (hstate : s.state = 1) (hbuf : s.nCharInBuffer = 0) :
    (ParseAndPrintString wc s hDev [ESC, 91, 48, 109]).1.trace =
      s.trace ++ [ConOp.SetConsoleTextAttribute
        (foregroundcolor s.org_fg ||| backgroundcolor s.org_bg ||| s.org_bold ||| s.org_ul)] ∧
    (ParseAndPrintString wc s hDev [ESC, 91, 48, 109]).1.con.wAttributes =
      (foregroundcolor s.org_fg ||| backgroundcolor s.org_bg ||| s.org_bold ||| s.org_ul) := by
  have hseq : [ESC, 91, 48, 109] = CSI [[48]] 109 := rfl
  have hv : accum 0 [48] = 0 := by decide
  rw [ParseAndPrintString_fst wc s hDev _ hstate, hseq,
    ParseLoop_seq1 wc _ [48] 109 (by simpa using hstate) (by simpa using hbuf) (by simp)
      (by decide) (by decide) (by decide),
    InterpretEscSeq_SGR1 _ (by simp) (by simp)]
  simp only [store_same, hv, SGRArg_zero]
  rw [attribut_plain _ (by simp) (by simp)]
  simp [FlushBuffer, hbuf, SetConsoleTextAttribute]

/-- C3 (amended): whatever the attribute globals are, `ESC [ 0 m` applies to the
console the low byte of the attribute word `a` that `OriginalAttr` captured
(or of the fallback 7), so it applies `a` itself whenever `a < 256`. -/
theorem C3_reset_low_byte (wc : WriteEffect) (ok : Bool) (s0 s : ANSI) (hDev : Nat)
    (hstate : s.state = 1) (hbuf : s.nCharInBuffer = 0)
    (hfg : s.org_fg = (OriginalAttr ok s0).org_fg)
    (hbg : s.org_bg = (OriginalAttr ok s0).org_bg)
    (hbold : s.org_bold = (OriginalAttr ok s0).org_bold)
    (hul : s.org_ul = (OriginalAttr ok s0).org_ul) :
    (ParseAndPrintString wc s hDev [ESC, 91, 48, 109]).1.trace =
      s.trace ++ [ConOp.SetConsoleTextAttribute
        ((if ok then s0.con.wAttributes else 7) % 256)] ∧
    (ParseAndPrintString wc s hDev [ESC, 91, 48, 109]).1.con.wAttributes =
      (if ok then s0.con.wAttributes else 7) % 256 ∧
    ((if ok then s0.con.wAttributes else 7) < 256 →
      (ParseAndPrintString wc s hDev [ESC, 91, 48, 109]).1.con.wAttributes =
        (if ok then s0.con.wAttributes else 7)) := by
  have hword : foregroundcolor s.org_fg ||| backgroundcolor s.org_bg ||| s.org_bold ||| s.org_ul
      = (if ok then s0.con.wAttributes else 7) % 256 := by
    rw [hfg, hbg, hbold, hul]
    exact palette_roundtrip _
  obtain ⟨h1, h2⟩ := reset_sequence wc s hDev hstate hbuf
  rw [hword] at h1 h2
  refine ⟨h1, h2, fun hlt => ?_⟩
  rw [h2, Nat.mod_eq_of_lt hlt]

/-- Witness of C3 (amended): bright yellow on blue (attribute word 30) was
captured; the attribute globals now say red, reverse video, concealed. -/
theorem C3_reset_low_byte_witness :
    (ParseAndPrintString quietConsole
        { OriginalAttr true (sample 80 25 0 0 30) with foreground := 1, rvideo := 1,
                                                       concealed := 1 } 1
        [ESC, 91, 48, 109]).1.con.wAttributes = 30 :=
  (C3_reset_low_byte quietConsole true (sample 80 25 0 0 30)
    { OriginalAttr true (sample 80 25 0 0 30) with foreground := 1, rvideo := 1, concealed := 1 }
    1 rfl rfl rfl rfl rfl rfl).2.2 (by decide)

/-- C3 as stated fails: with the attribute word 0x107 (white on black with
`COMMON_LVB_LEADING_BYTE`) captured by `OriginalAttr`, `ESC [ 0 m` applies 7. -/
theorem C3_counterexample :
    (sample 80 25 0 0 263).con.wAttributes = 263 ∧
    (ParseAndPrintString quietConsole (OriginalAttr true (sample 80 25 0 0 263)) 1
        [ESC, 91, 48, 109]).1.trace = [ConOp.SetConsoleTextAttribute 7] ∧
    (ParseAndPrintString quietConsole (OriginalAttr true (sample 80 25 0 0 263)) 1
        [ESC, 91, 48, 109]).1.con.wAttributes ≠ 263 := by
  decide

/-! ## C4: order of SGR arguments -/

/-- Parsing `ESC [ d1 ; d2 ; d3 fin`: a sequence with three arguments. -/
theorem ParseLoop_seq3 (wc : WriteEffect) (s : ANSI) (d1 d2 d3 : List Nat) (fin : Nat)
    (hs : s.state = 1) (hbuf : s.nCharInBuffer = 0)
    (hne : d1 ≠ []) (h1 : allDigits d1) (h2 : allDigits d2) (h3 : allDigits d3)
    (hfin : isdigit fin = false) (hfin2 : fin ≠ 59) :
    ParseLoop wc s (CSI [d1, d2, d3] fin) =
      { InterpretEscSeq
          { s with state := 4, es_argc := 3,
                   es_argv := store (store (store s.es_argv 0 (accum 0 d1)) 1 (accum 0 d2)) 2
                                (accum 0 d3),
                   suffix := fin } with state := 1 } := by
  obtain ⟨d, ds, rfl⟩ := List.exists_cons_of_ne_nil hne
  have h : CSI [d :: ds, d2, d3] fin
      = [ESC, 91] ++ ((d :: ds) ++ ((59 :: d2) ++ ((59 :: d3) ++ [fin]))) := by
    simp [CSI, List.intercalate]
  rw [h, ParseLoop_append, ParseLoop_CSI wc s hs, FlushBuffer_empty wc s hbuf, ParseLoop_append,
    ParseLoop_firstArg wc _ d ds (by simp) h1, ParseLoop_append,
    ParseLoop_nextArg wc _ d2 (by simp) (by simp) h2, ParseLoop_append,
    ParseLoop_nextArg wc _ d3 (by simp) (by simp) h3, ParseLoop_cons, ParseLoop_nil,
    ParseChar_final wc _ fin (by simp) hfin hfin2]

theorem SGRSwitch_es_argv (s : ANSI) (v : Int) : (SGRSwitch s v).es_argv = s.es_argv := by
  unfold SGRSwitch
  split_ifs <;> rfl

theorem SGRArg_es_argv (s : ANSI) (v : Int) : (SGRArg s v).es_argv = s.es_argv := by
  unfold SGRArg
  simp only
  split_ifs <;> simp [SGRSwitch_es_argv]

/-- Case `m` with exactly three arguments. -/
theorem InterpretEscSeq_SGR3 (s : ANSI) (hsuf : s.suffix = 109) (hargc : s.es_argc = 3) :
    InterpretEscSeq s =
      SetConsoleTextAttribute
        (SGRArg (SGRArg (SGRArg s (s.es_argv 0)) (s.es_argv 1)) (s.es_argv 2))
        (attribut (SGRArg (SGRArg (SGRArg s (s.es_argv 0)) (s.es_argv 1)) (s.es_argv 2))) := by
  simp [InterpretEscSeq, hsuf, InterpretSGR, defaultArg, hargc,
    show List.range 3 = [0, 1, 2] from rfl, SGRArg_es_argv]

theorem accum_two_digits (a b : Nat) (ha : 48 ≤ a ∧ a ≤ 57) (hb : 48 ≤ b ∧ b ≤ 57) :
    accum 0 [a, b] = 10 * ((a : Int) - 48) + ((b : Int) - 48) := by
  show toInt32 (10 * toInt32 (10 * 0 + ((a : Int) - 48)) + ((b : Int) - 48)) = _
  unfold toInt32
  omega

/-- C4: from any attribute state, an SGR sequence whose arguments are 1, 30+f
and 40+b (f, b in 0..7) in any of the six orders leaves bold set, foreground f
and background b, and applies one and the same attribute word in all orders. -/
theorem C4_sgr_order_independent (wc : WriteEffect) (s : ANSI) (hDev : Nat) (f b : Nat)
    (hstate : s.state = 1) (hbuf : s.nCharInBuffer = 0) (hf : f < 8) (hb : b < 8) :
    ∀ args ∈ sixOrders [49] [51, 48 + f] [52, 48 + b],
      (ParseAndPrintString wc s hDev (CSI args 109)).1.bold = FOREGROUND_INTENSITY ∧
      (ParseAndPrintString wc s hDev (CSI args 109)).1.foreground = f ∧
      (ParseAndPrintString wc s hDev (CSI args 109)).1.background = b ∧
      (ParseAndPrintString wc s hDev (CSI args 109)).1.trace =
        s.trace ++ [ConOp.SetConsoleTextAttribute
          (attribut { s with bold := FOREGROUND_INTENSITY, foreground := f, background := b })] := by
  have hv1 : accum 0 [49] = 1 := by decide
  have hv2 : accum 0 [51, 48 + f] = 30 + (f : Int) := by
    rw [accum_two_digits 51 (48 + f) (by omega) (by omega)]; push_cast; omega
  have hv3 : accum 0 [52, 48 + b] = 40 + (b : Int) := by
    rw [accum_two_digits 52 (48 + b) (by omega) (by omega)]; push_cast; omega
  have hd2 : allDigits [51, 48 + f] := by
    intro c hc
    simp only [List.mem_cons, List.mem_singleton, List.not_mem_nil, or_false] at hc
    rcases hc with rfl | rfl
    · decide
    · exact (isdigit_iff _).mpr (by omega)
  have hd3 : allDigits [52, 48 + b] := by
    intro c hc
    simp only [List.mem_cons, List.mem_singleton, List.not_mem_nil, or_false] at hc
    rcases hc with rfl | rfl
    · decide
    · exact (isdigit_iff _).mpr (by omega)
  have hfg : ∀ t : ANSI, SGRArg t (30 + (f : Int)) = { t with foreground := f } := by
    intro t
    rw [SGRArg_fg t _ (by omega) (by omega)]
    simp
  have hbg : ∀ t : ANSI, SGRArg t (40 + (b : Int)) = { t with background := b } := by
    intro t
    rw [SGRArg_bg t _ (by omega) (by omega)]
    simp
  intro args hargs
  simp only [sixOrders, List.mem_cons, List.mem_singleton, List.not_mem_nil, or_false] at hargs
  rcases hargs with rfl | rfl | rfl | rfl | rfl | rfl
  all_goals
    rw [ParseAndPrintString_fst wc s hDev _ hstate,
      ParseLoop_seq3 wc _ _ _ _ 109 (by simpa using hstate) (by simpa using hbuf) (by simp)
        (by first | exact hd2 | exact hd3 | decide) (by first | exact hd2 | exact hd3 | decide)
        (by first | exact hd2 | exact hd3 | decide) (by decide) (by decide),
      InterpretEscSeq_SGR3 _ (by simp) (by simp)]
    simp only [store, hv1, hv2, hv3, if_true, if_false, Nat.reduceEqDiff, OfNat.ofNat_ne_zero,
      OfNat.zero_ne_ofNat, one_ne_zero, zero_ne_one, SGRArg_one, hfg, hbg]
    refine ⟨?_, ?_, ?_, ?_⟩
    · simp [FlushBuffer, hbuf, SetConsoleTextAttribute]
    · simp [FlushBuffer, hbuf, SetConsoleTextAttribute]
    · simp [FlushBuffer, hbuf, SetConsoleTextAttribute]
    · simp only [FlushBuffer, hbuf, SetConsoleTextAttribute, le_refl, if_true]
      rfl

/-- Witness of C4: `ESC [ 1 ; 31 ; 42 m` (f = 1, b = 2) on an 80x25 console. -/
theorem C4_sgr_order_independent_witness :
    (ParseAndPrintString quietConsole (sample 80 25 0 0 7) 1
        (CSI [[49], [51, 48 + 1], [52, 48 + 2]] 109)).1.bold = FOREGROUND_INTENSITY ∧
    (ParseAndPrintString quietConsole (sample 80 25 0 0 7) 1
        (CSI [[49], [51, 48 + 1], [52, 48 + 2]] 109)).1.foreground = 1 ∧
    (ParseAndPrintString quietConsole (sample 80 25 0 0 7) 1
        (CSI [[49], [51, 48 + 1], [52, 48 + 2]] 109)).1.background = 2 ∧
    (ParseAndPrintString quietConsole (sample 80 25 0 0 7) 1
        (CSI [[49], [51, 48 + 1], [52, 48 + 2]] 109)).1.trace =
      (sample 80 25 0 0 7).trace ++ [ConOp.SetConsoleTextAttribute
        (attribut { sample 80 25 0 0 7 with bold := FOREGROUND_INTENSITY, foreground := 1,
                                            background := 2 })] :=
  C4_sgr_order_independent quietConsole (sample 80 25 0 0 7) 1 1 2 rfl rfl (by decide) (by decide)
    [[49], [51, 48 + 1], [52, 48 + 2]] (by simp [sixOrders])

/-! ## C5: cursor position -/

/-- The clamp of case `H` on a 1-based argument `v` for a dimension `W`. -/
theorem clampH_in_range (v W : Int) (h1 : 1 ≤ v) (h2 : v ≤ W) (hW : W ≤ 32767) :
    (if (if toSHORT (toInt32 (v - 1)) < 0 then 0 else toSHORT (toInt32 (v - 1))) ≥ W
      then toSHORT (W - 1)
      else (if toSHORT (toInt32 (v - 1)) < 0 then 0 else toSHORT (toInt32 (v - 1)))) = v - 1 := by
  have hv : toSHORT (toInt32 (v - 1)) = v - 1 := by unfold toSHORT toInt32; omega
  rw [hv]
  split_ifs <;> omega

/-- Case `H` / `f` with two arguments. -/
theorem InterpretEscSeq_H2 (s : ANSI) (hsuf : s.suffix = 72 ∨ s.suffix = 102)
    (hargc : s.es_argc = 2) :
    InterpretEscSeq s =
      SetConsoleCursorPosition s
        { X := if (if toSHORT (toInt32 (s.es_argv 1 - 1)) < 0 then 0
                   else toSHORT (toInt32 (s.es_argv 1 - 1))) ≥ s.con.dwSize.X
               then toSHORT (s.con.dwSize.X - 1)
               else (if toSHORT (toInt32 (s.es_argv 1 - 1)) < 0 then 0
                     else toSHORT (toInt32 (s.es_argv 1 - 1))),
          Y := if (if toSHORT (toInt32 (s.es_argv 0 - 1)) < 0 then 0
                   else toSHORT (toInt32 (s.es_argv 0 - 1))) ≥ s.con.dwSize.Y
               then toSHORT (s.con.dwSize.Y - 1)
               else (if toSHORT (toInt32 (s.es_argv 0 - 1)) < 0 then 0
                     else toSHORT (toInt32 (s.es_argv 0 - 1))) } := by
  rcases hsuf with h | h <;> simp [InterpretEscSeq, h, defaultArg, hargc]

/-- Case `H` / `f` with one argument: the column defaults to 1. -/
theorem InterpretEscSeq_H1 (s : ANSI) (hsuf : s.suffix = 72 ∨ s.suffix = 102)
    (hargc : s.es_argc = 1) :
    InterpretEscSeq s =
      InterpretEscSeq { s with es_argv := store s.es_argv 1 1, es_argc := 2 } := by
  rcases hsuf with h | h <;> simp [InterpretEscSeq, h, defaultArg, hargc]

/-- Case `H` / `f` without arguments: row and column default to 1. -/
theorem InterpretEscSeq_H0 (s : ANSI) (hsuf : s.suffix = 72 ∨ s.suffix = 102)
    (hargc : s.es_argc = 0) :
    InterpretEscSeq s =
      InterpretEscSeq { s with es_argv := store (store s.es_argv 0 1) 1 1, es_argc := 2 } := by
  rcases hsuf with h | h <;> simp [InterpretEscSeq, h, defaultArg, hargc]

/-- Case `H` / `f` on arguments inside the screen buffer: one
`SetConsoleCursorPosition` call, which puts the cursor at the zero-based
position. -/
theorem cursor_position_result (wc : WriteEffect) (S : ANSI) (r c : Int)
    (hsuf : S.suffix = 72 ∨ S.suffix = 102) (hargc : S.es_argc = 2)
    (hbuf : S.nCharInBuffer = 0)
    (hr0 : S.es_argv 0 = r) (hc0 : S.es_argv 1 = c)
    (hr : 1 ≤ r ∧ r ≤ S.con.dwSize.Y) (hc : 1 ≤ c ∧ c ≤ S.con.dwSize.X)
    (hW : S.con.dwSize.X ≤ 32767) (hH : S.con.dwSize.Y ≤ 32767) :
    (FlushBuffer wc { InterpretEscSeq S with state := 1 }).trace =
      S.trace ++ [ConOp.SetConsoleCursorPosition { X := c - 1, Y := r - 1 }] ∧
    (FlushBuffer wc { InterpretEscSeq S with state := 1 }).con.dwCursorPosition =
      { X := c - 1, Y := r - 1 } := by
  rw [InterpretEscSeq_H2 S hsuf hargc, hr0, hc0, clampH_in_range r _ hr.1 hr.2 hH,
    clampH_in_range c _ hc.1 hc.2 hW]
  have hin : 0 ≤ c - 1 ∧ c - 1 < S.con.dwSize.X ∧ 0 ≤ r - 1 ∧ r - 1 < S.con.dwSize.Y := by
    omega
  simp [FlushBuffer, SetConsoleCursorPosition, hbuf, hin]

/-- C5: on a screen buffer of W columns and H rows, `ESC [ r ; c H` (or `f`)
with 1 ≤ r ≤ H and 1 ≤ c ≤ W calls `SetConsoleCursorPosition` once and sets the
cursor to column c-1, row r-1; with the column omitted the column is 0; with
both omitted the cursor goes to column 0, row 0.  `rs` and `cs` are the digit
strings of r and c. -/
theorem C5_cursor_position (wc : WriteEffect) (s : ANSI) (hDev : Nat)
    (rs cs : List Nat) (fin : Nat)
    (hstate : s.state = 1) (hbuf : s.nCharInBuffer = 0)
    (hfin : fin = 72 ∨ fin = 102)
    (hW : s.con.dwSize.X ≤ 32767) (hH : s.con.dwSize.Y ≤ 32767)
    (hrs : rs ≠ [] ∧ allDigits rs) (hcs : cs ≠ [] ∧ allDigits cs)
    (hr : 1 ≤ decimal rs ∧ (decimal rs : Int) ≤ s.con.dwSize.Y)
    (hc : 1 ≤ decimal cs ∧ (decimal cs : Int) ≤ s.con.dwSize.X) :
    ((ParseAndPrintString wc s hDev (CSI [rs, cs] fin)).1.trace =
        s.trace ++ [ConOp.SetConsoleCursorPosition
          { X := (decimal cs : Int) - 1, Y := (decimal rs : Int) - 1 }] ∧
      (ParseAndPrintString wc s hDev (CSI [rs, cs] fin)).1.con.dwCursorPosition =
        { X := (decimal cs : Int) - 1, Y := (decimal rs : Int) - 1 }) ∧
    ((ParseAndPrintString wc s hDev (CSI [rs] fin)).1.trace =
        s.trace ++ [ConOp.SetConsoleCursorPosition { X := 0, Y := (decimal rs : Int) - 1 }] ∧
      (ParseAndPrintString wc s hDev (CSI [rs] fin)).1.con.dwCursorPosition =
        { X := 0, Y := (decimal rs : Int) - 1 }) ∧
    ((ParseAndPrintString wc s hDev (CSI [] fin)).1.trace =
        s.trace ++ [ConOp.SetConsoleCursorPosition { X := 0, Y := 0 }] ∧
      (ParseAndPrintString wc s hDev (CSI [] fin)).1.con.dwCursorPosition =
        { X := 0, Y := 0 }) := by
  have hfd : isdigit fin = false := by rcases hfin with rfl | rfl <;> decide
  have hf59 : fin ≠ 59 := by rcases hfin with rfl | rfl <;> decide
  have hvr : accum 0 rs = (decimal rs : Int) := accum_eq_decimal rs hrs.2 (by omega)
  have hvc : accum 0 cs = (decimal cs : Int) := accum_eq_decimal cs hcs.2 (by omega)
  have hr1 : (1 : Int) ≤ (decimal rs : Int) := by omega
  have hc1 : (1 : Int) ≤ (decimal cs : Int) := by omega
  refine ⟨?_, ?_, ?_⟩
  · rw [ParseAndPrintString_fst wc s hDev _ hstate,
      ParseLoop_seq2 wc _ rs cs fin (by simpa using hstate) (by simpa using hbuf) hrs.1 hrs.2
        hcs.2 hfd hf59]
    exact cursor_position_result wc _ (decimal rs) (decimal cs) (by simpa using hfin) rfl
      (by simpa using hbuf) (by simp [store, hvr]) (by simp [store, hvc])
      ⟨hr1, hr.2⟩ ⟨hc1, hc.2⟩ hW hH
  · rw [ParseAndPrintString_fst wc s hDev _ hstate,
      ParseLoop_seq1 wc _ rs fin (by simpa using hstate) (by simpa using hbuf) hrs.1 hrs.2
        hfd hf59,
      InterpretEscSeq_H1 _ (by simpa using hfin) rfl]
    have h := cursor_position_result wc
      { s with hConOut := hDev, state := 4, es_argc := 2,
               es_argv := store (store s.es_argv 0 (accum 0 rs)) 1 1, suffix := fin }
      (decimal rs) 1 (by simpa using hfin) rfl
      (by simpa using hbuf) (by simp [store, hvr]) (by simp [store])
      ⟨hr1, hr.2⟩ ⟨le_refl _, by simpa using (le_trans hc1 hc.2)⟩ hW hH
    simpa using h
  · rw [ParseAndPrintString_fst wc s hDev _ hstate,
      ParseLoop_seq0 wc _ fin (by simpa using hstate) (by simpa using hbuf) hfd hf59,
      InterpretEscSeq_H0 _ (by simpa using hfin) rfl]
    have h := cursor_position_result wc
      { s with hConOut := hDev, state := 3, es_argc := 2,
               es_argv := store (store s.es_argv 0 1) 1 1, suffix := fin }
      1 1 (by simpa using hfin) rfl
      (by simpa using hbuf) (by simp [store]) (by simp [store])
      ⟨le_refl _, by simpa using (le_trans hr1 hr.2)⟩
      ⟨le_refl _, by simpa using (le_trans hc1 hc.2)⟩ hW hH
    simpa using h

/-- Witness of C5: `ESC [ 5 ; 10 H` on an 80x25 buffer gives column 9, row 4. -/
theorem C5_cursor_position_witness :
    (ParseAndPrintString quietConsole (sample 80 25 3 7 7) 1
        (CSI [[53], [49, 48]] 72)).1.con.dwCursorPosition = { X := 9, Y := 4 } :=
  (C5_cursor_position quietConsole (sample 80 25 3 7 7) 1 [53] [49, 48] 72 rfl rfl
    (Or.inl rfl) (by decide) (by decide) (by decide) (by decide) (by decide) (by decide)).1.2

/-! ## C6: cursor motion and the 16-bit coordinates -/

theorem toSHORT_toInt32_small (v : Int) (h1 : -32768 ≤ v) (h2 : v ≤ 32767) :
    toSHORT (toInt32 v) = v := by
  unfold toSHORT toInt32; omega

theorem toSHORT_small (v : Int) (h1 : -32768 ≤ v) (h2 : v ≤ 32767) : toSHORT v = v := by
  unfold toSHORT; omega

/-- Cursor motion with one argument `n` that is small enough not to wrap the
16-bit coordinates: each of the cases `A` to `G` passes the clamped target to
`SetConsoleCursorPosition`. -/
theorem cursor_motion_in_range (s : ANSI) (n : Int)
    (hargc : s.es_argc = 1) (harg : s.es_argv 0 = n) (hn : 0 ≤ n)
    (hnW : n + s.con.dwSize.X ≤ 32767) (hnH : n + s.con.dwSize.Y ≤ 32767)
    (hx : 0 ≤ s.con.dwCursorPosition.X ∧ s.con.dwCursorPosition.X < s.con.dwSize.X)
    (hy : 0 ≤ s.con.dwCursorPosition.Y ∧ s.con.dwCursorPosition.Y < s.con.dwSize.Y) :
    (s.suffix = 65 → InterpretEscSeq s = SetConsoleCursorPosition s
      { X := s.con.dwCursorPosition.X, Y := max 0 (s.con.dwCursorPosition.Y - n) }) ∧
    (s.suffix = 66 → InterpretEscSeq s = SetConsoleCursorPosition s
      { X := s.con.dwCursorPosition.X,
        Y := min (s.con.dwSize.Y - 1) (s.con.dwCursorPosition.Y + n) }) ∧
    (s.suffix = 67 → InterpretEscSeq s = SetConsoleCursorPosition s
      { X := min (s.con.dwSize.X - 1) (s.con.dwCursorPosition.X + n),
        Y := s.con.dwCursorPosition.Y }) ∧
    (s.suffix = 68 → InterpretEscSeq s = SetConsoleCursorPosition s
      { X := max 0 (s.con.dwCursorPosition.X - n), Y := s.con.dwCursorPosition.Y }) ∧
    (s.suffix = 69 → InterpretEscSeq s = SetConsoleCursorPosition s
      { X := 0, Y := min (s.con.dwSize.Y - 1) (s.con.dwCursorPosition.Y + n) }) ∧
    (s.suffix = 70 → InterpretEscSeq s = SetConsoleCursorPosition s
      { X := 0, Y := max 0 (s.con.dwCursorPosition.Y - n) }) ∧
    (s.suffix = 71 → InterpretEscSeq s = SetConsoleCursorPosition s
      { X := min (max n 1) s.con.dwSize.X - 1, Y := s.con.dwCursorPosition.Y }) := by
  have e1 := toSHORT_toInt32_small (s.con.dwCursorPosition.Y - n) (by omega) (by omega)
  have e2 := toSHORT_toInt32_small (s.con.dwCursorPosition.Y + n) (by omega) (by omega)
  have e3 := toSHORT_toInt32_small (s.con.dwCursorPosition.X + n) (by omega) (by omega)
  have e4 := toSHORT_toInt32_small (s.con.dwCursorPosition.X - n) (by omega) (by omega)
  have e5 := toSHORT_toInt32_small (n - 1) (by omega) (by omega)
  have e6 := toSHORT_small (s.con.dwSize.Y - 1) (by omega) (by omega)
  have e7 := toSHORT_small (s.con.dwSize.X - 1) (by omega) (by omega)
  refine ⟨?_, ?_, ?_, ?_, ?_, ?_, ?_⟩ <;> intro h <;>
    simp only [InterpretEscSeq, h, defaultArg, hargc, harg, e1, e2, e3, e4, e5, e6, e7,
      OfNat.ofNat_ne_zero, OfNat.ofNat_ne_one, one_ne_zero, if_false, if_true, ne_eq,
      not_true_eq_false, Nat.reduceEqDiff, Nat.succ_ne_self, reduceCtorEq, or_self, or_false,
      false_or] <;>
    congr 1 <;> simp only [COORD.mk.injEq, true_and, and_true] <;>
    split_ifs <;> omega

/-- C6 fails on the code: on an 80x25 buffer with the cursor at column 3,
row 5, `ESC [ 32763 B` passes row -32768 to `SetConsoleCursorPosition` (the
console rejects it and the cursor stays on row 5, not on the clamped row 24),
and `ESC [ 65536 A` passes row 5 instead of the clamped row 0. -/
theorem C6_failing_input :
    (ParseAndPrintString quietConsole (sample 80 25 3 5 7) 1
        (CSI [[51, 50, 55, 54, 51]] 66)).1.trace =
      [ConOp.SetConsoleCursorPosition { X := 3, Y := -32768 }] ∧
    (ParseAndPrintString quietConsole (sample 80 25 3 5 7) 1
        (CSI [[51, 50, 55, 54, 51]] 66)).1.con.dwCursorPosition = { X := 3, Y := 5 } ∧
    (ParseAndPrintString quietConsole (sample 80 25 3 5 7) 1
        (CSI [[54, 53, 53, 51, 54]] 65)).1.trace =
      [ConOp.SetConsoleCursorPosition { X := 3, Y := 5 }] := by
  decide

/-! ## C7: save and restore -/

/-- Case `s` without arguments. -/
theorem InterpretEscSeq_s (s : ANSI) (hsuf : s.suffix = 115) (hargc : s.es_argc = 0) :
    InterpretEscSeq s = { s with SavePos := s.con.dwCursorPosition } := by
  simp [InterpretEscSeq, hsuf, hargc]

/-- Case `u` without arguments. -/
theorem InterpretEscSeq_u (s : ANSI) (hsuf : s.suffix = 117) (hargc : s.es_argc = 0) :
    InterpretEscSeq s = SetConsoleCursorPosition s s.SavePos := by
  simp [InterpretEscSeq, hsuf, hargc]

/-- C7: for every cursor position p inside the buffer, `ESC [ s` immediately
followed by `ESC [ u` leaves the cursor at p, whatever position was saved
before; and `ESC [ s` alone replaces the saved position by p. -/
theorem C7_save_restore (wc : WriteEffect) (s : ANSI) (hDev : Nat)
    (hstate : s.state = 1) (hbuf : s.nCharInBuffer = 0)
    (hx : 0 ≤ s.con.dwCursorPosition.X ∧ s.con.dwCursorPosition.X < s.con.dwSize.X)
    (hy : 0 ≤ s.con.dwCursorPosition.Y ∧ s.con.dwCursorPosition.Y < s.con.dwSize.Y) :
    (ParseAndPrintString wc s hDev (CSI [] 115 ++ CSI [] 117)).1.con.dwCursorPosition =
      s.con.dwCursorPosition ∧
    (ParseAndPrintString wc s hDev (CSI [] 115 ++ CSI [] 117)).1.trace =
      s.trace ++ [ConOp.SetConsoleCursorPosition s.con.dwCursorPosition] ∧
    (ParseAndPrintString wc s hDev (CSI [] 115)).1.SavePos = s.con.dwCursorPosition := by
  refine ⟨?_, ?_, ?_⟩
  · rw [ParseAndPrintString_fst wc s hDev _ hstate, ParseLoop_append,
      ParseLoop_seq0 wc _ 115 (by simpa using hstate) (by simpa using hbuf) (by decide) (by decide),
      InterpretEscSeq_s _ rfl rfl,
      ParseLoop_seq0 wc _ 117 (by simp) (by simpa using hbuf) (by decide) (by decide),
      InterpretEscSeq_u _ rfl rfl]
    simp [FlushBuffer, hbuf, SetConsoleCursorPosition, hx, hy]
  · rw [ParseAndPrintString_fst wc s hDev _ hstate, ParseLoop_append,
      ParseLoop_seq0 wc _ 115 (by simpa using hstate) (by simpa using hbuf) (by decide) (by decide),
      InterpretEscSeq_s _ rfl rfl,
      ParseLoop_seq0 wc _ 117 (by simp) (by simpa using hbuf) (by decide) (by decide),
      InterpretEscSeq_u _ rfl rfl]
    simp [FlushBuffer, hbuf, SetConsoleCursorPosition]
  · rw [ParseAndPrintString_fst wc s hDev _ hstate,
      ParseLoop_seq0 wc _ 115 (by simpa using hstate) (by simpa using hbuf) (by decide) (by decide),
      InterpretEscSeq_s _ rfl rfl]
    simp [FlushBuffer, hbuf]

/-- Witness of C7: the cursor at column 3, row 5 of an 80x25 buffer, with
another position saved earlier. -/
theorem C7_save_restore_witness :
    (ParseAndPrintString quietConsole { sample 80 25 3 5 7 with SavePos := { X := 70, Y := 20 } } 1
        (CSI [] 115 ++ CSI [] 117)).1.con.dwCursorPosition = { X := 3, Y := 5 } :=
  (C7_save_restore quietConsole { sample 80 25 3 5 7 with SavePos := { X := 70, Y := 20 } } 1
    rfl rfl (by decide) (by decide)).1

/-! ## C8: up then down -/

/-- Case `A` with one argument. -/
theorem InterpretEscSeq_A (s : ANSI) (hsuf : s.suffix = 65) (hargc : s.es_argc = 1) :
    InterpretEscSeq s =
      SetConsoleCursorPosition s
        { X := s.con.dwCursorPosition.X,
          Y := if toSHORT (toInt32 (s.con.dwCursorPosition.Y - s.es_argv 0)) < 0 then 0
               else toSHORT (toInt32 (s.con.dwCursorPosition.Y - s.es_argv 0)) } := by
  simp [InterpretEscSeq, hsuf, defaultArg, hargc]

/-- Case `B` with one argument. -/
theorem InterpretEscSeq_B (s : ANSI) (hsuf : s.suffix = 66) (hargc : s.es_argc = 1) :
    InterpretEscSeq s =
      SetConsoleCursorPosition s
        { X := s.con.dwCursorPosition.X,
          Y := if toSHORT (toInt32 (s.con.dwCursorPosition.Y + s.es_argv 0)) ≥ s.con.dwSize.Y
               then toSHORT (s.con.dwSize.Y - 1)
               else toSHORT (toInt32 (s.con.dwCursorPosition.Y + s.es_argv 0)) } := by
  simp [InterpretEscSeq, hsuf, defaultArg, hargc]

/-- Sequence `ESC [ n A` from a cursor inside the buffer, for 0 ≤ n ≤ 32767: the cursor
goes to row max(0, y - n), same column. -/
theorem cursor_up_result (wc : WriteEffect) (s : ANSI) (ns : List Nat)
    (hstate : s.state = 1) (hbuf : s.nCharInBuffer = 0)
    (hns : ns ≠ [] ∧ allDigits ns) (hn : decimal ns ≤ 32767)
    (hx : 0 ≤ s.con.dwCursorPosition.X ∧ s.con.dwCursorPosition.X < s.con.dwSize.X)
    (hy : 0 ≤ s.con.dwCursorPosition.Y ∧ s.con.dwCursorPosition.Y < s.con.dwSize.Y)
    (hH : s.con.dwSize.Y ≤ 32767) :
    (ParseLoop wc s (CSI [ns] 65)).state = 1 ∧
    (ParseLoop wc s (CSI [ns] 65)).nCharInBuffer = 0 ∧
    (ParseLoop wc s (CSI [ns] 65)).con.dwSize = s.con.dwSize ∧
    (ParseLoop wc s (CSI [ns] 65)).con.dwCursorPosition =
      { X := s.con.dwCursorPosition.X,
        Y := max 0 (s.con.dwCursorPosition.Y - (decimal ns : Int)) } := by
  have hv : accum 0 ns = (decimal ns : Int) := accum_eq_decimal ns hns.2 (by omega)
  rw [ParseLoop_seq1 wc s ns 65 hstate hbuf hns.1 hns.2 (by decide) (by decide),
    InterpretEscSeq_A _ rfl rfl]
  simp only [store_same, hv]
  have hY : (if toSHORT (toInt32 (s.con.dwCursorPosition.Y - (decimal ns : Int))) < 0 then 0
      else toSHORT (toInt32 (s.con.dwCursorPosition.Y - (decimal ns : Int))))
      = max 0 (s.con.dwCursorPosition.Y - (decimal ns : Int)) := by
    have : toSHORT (toInt32 (s.con.dwCursorPosition.Y - (decimal ns : Int)))
        = s.con.dwCursorPosition.Y - (decimal ns : Int) := by
      unfold toSHORT toInt32; omega
    rw [this]
    split_ifs <;> omega
  rw [hY]
  have hin : 0 ≤ max 0 (s.con.dwCursorPosition.Y - (decimal ns : Int)) ∧
      max 0 (s.con.dwCursorPosition.Y - (decimal ns : Int)) < s.con.dwSize.Y := by
    omega
  simp [SetConsoleCursorPosition, hbuf, hx, hin]

/-- Sequence `ESC [ n B` from a cursor inside the buffer, for 0 ≤ n ≤ 32767 - y: the
cursor goes to row min(H - 1, y + n), same column. -/
theorem cursor_down_result (wc : WriteEffect) (s : ANSI) (ns : List Nat)
    (hstate : s.state = 1) (hbuf : s.nCharInBuffer = 0)
    (hns : ns ≠ [] ∧ allDigits ns)
    (hn : s.con.dwCursorPosition.Y + (decimal ns : Int) ≤ 32767)
    (hx : 0 ≤ s.con.dwCursorPosition.X ∧ s.con.dwCursorPosition.X < s.con.dwSize.X)
    (hy : 0 ≤ s.con.dwCursorPosition.Y ∧ s.con.dwCursorPosition.Y < s.con.dwSize.Y)
    (hH : s.con.dwSize.Y ≤ 32767) :
    (ParseLoop wc s (CSI [ns] 66)).state = 1 ∧
    (ParseLoop wc s (CSI [ns] 66)).nCharInBuffer = 0 ∧
    (ParseLoop wc s (CSI [ns] 66)).con.dwSize = s.con.dwSize ∧
    (ParseLoop wc s (CSI [ns] 66)).con.dwCursorPosition =
      { X := s.con.dwCursorPosition.X,
        Y := min (s.con.dwSize.Y - 1) (s.con.dwCursorPosition.Y + (decimal ns : Int)) } := by
  have hv : accum 0 ns = (decimal ns : Int) := accum_eq_decimal ns hns.2 (by omega)
  rw [ParseLoop_seq1 wc s ns 66 hstate hbuf hns.1 hns.2 (by decide) (by decide),
    InterpretEscSeq_B _ rfl rfl]
  simp only [store_same, hv]
  have hY : (if toSHORT (toInt32 (s.con.dwCursorPosition.Y + (decimal ns : Int)))
        ≥ s.con.dwSize.Y then toSHORT (s.con.dwSize.Y - 1)
      else toSHORT (toInt32 (s.con.dwCursorPosition.Y + (decimal ns : Int))))
      = min (s.con.dwSize.Y - 1) (s.con.dwCursorPosition.Y + (decimal ns : Int)) := by
    have h1 : toSHORT (toInt32 (s.con.dwCursorPosition.Y + (decimal ns : Int)))
        = s.con.dwCursorPosition.Y + (decimal ns : Int) := by
      unfold toSHORT toInt32; omega
    have h2 : toSHORT (s.con.dwSize.Y - 1) = s.con.dwSize.Y - 1 := by
      unfold toSHORT; omega
    rw [h1, h2]
    split_ifs <;> omega
  rw [hY]
  have hin : 0 ≤ min (s.con.dwSize.Y - 1) (s.con.dwCursorPosition.Y + (decimal ns : Int)) ∧
      min (s.con.dwSize.Y - 1) (s.con.dwCursorPosition.Y + (decimal ns : Int))
        < s.con.dwSize.Y := by
    omega
  simp [SetConsoleCursorPosition, hbuf, hx, hin]

/-- C8 (amended): on a buffer of height H, from a cursor at row y inside the
buffer and for 1 ≤ n ≤ H, `ESC [ n A` followed by `ESC [ n B` leaves the cursor
in its column on row min(H - 1, max(0, y - n) + n); this is row y whenever
n ≤ y.  `ns` is the digit string of n. -/
theorem C8_up_then_down (wc : WriteEffect) (s : ANSI) (hDev : Nat) (ns : List Nat)
    (hstate : s.state = 1) (hbuf : s.nCharInBuffer = 0)
    (hns : ns ≠ [] ∧ allDigits ns)
    (hn : 1 ≤ decimal ns ∧ (decimal ns : Int) ≤ s.con.dwSize.Y)
    (hx : 0 ≤ s.con.dwCursorPosition.X ∧ s.con.dwCursorPosition.X < s.con.dwSize.X)
    (hy : 0 ≤ s.con.dwCursorPosition.Y ∧ s.con.dwCursorPosition.Y < s.con.dwSize.Y)
    (hH : s.con.dwSize.Y ≤ 32767) :
    (ParseAndPrintString wc s hDev (CSI [ns] 65 ++ CSI [ns] 66)).1.con.dwCursorPosition =
      { X := s.con.dwCursorPosition.X,
        Y := min (s.con.dwSize.Y - 1)
               (max 0 (s.con.dwCursorPosition.Y - (decimal ns : Int)) + (decimal ns : Int)) } ∧
    ((decimal ns : Int) ≤ s.con.dwCursorPosition.Y →
      (ParseAndPrintString wc s hDev (CSI [ns] 65 ++ CSI [ns] 66)).1.con.dwCursorPosition =
        s.con.dwCursorPosition) := by
  have hmain : (ParseAndPrintString wc s hDev (CSI [ns] 65 ++ CSI [ns] 66)).1.con.dwCursorPosition =
      { X := s.con.dwCursorPosition.X,
        Y := min (s.con.dwSize.Y - 1)
               (max 0 (s.con.dwCursorPosition.Y - (decimal ns : Int)) + (decimal ns : Int)) } := by
    rw [ParseAndPrintString_fst wc s hDev _ hstate, ParseLoop_append]
    obtain ⟨hAst, hAbuf, hAsize, hAcur⟩ :=
      cursor_up_result wc { s with hConOut := hDev } ns hstate hbuf hns (by omega) hx hy hH
    generalize ParseLoop wc { s with hConOut := hDev } (CSI [ns] 65) = sA at hAst hAbuf hAsize hAcur
    simp only at hAsize hAcur
    obtain ⟨_, hBbuf, _, hBcur⟩ :=
      cursor_down_result wc sA ns hAst hAbuf hns
        (by rw [hAcur]; simp only; omega)
        (by rw [hAcur, hAsize]; exact hx)
        (by rw [hAcur, hAsize]; simp only; omega)
        (by rw [hAsize]; exact hH)
    rw [FlushBuffer_empty wc _ hBbuf, hBcur, hAcur, hAsize]
  refine ⟨hmain, fun hle => ?_⟩
  rw [hmain]
  have : min (s.con.dwSize.Y - 1)
      (max 0 (s.con.dwCursorPosition.Y - (decimal ns : Int)) + (decimal ns : Int))
      = s.con.dwCursorPosition.Y := by omega
  rw [this]

/-- Witness of C8 (amended): `ESC [ 3 A ESC [ 3 B` from row 5 of an 80x25
buffer returns to row 5. -/
theorem C8_up_then_down_witness :
    (ParseAndPrintString quietConsole (sample 80 25 3 5 7) 1
        (CSI [[51]] 65 ++ CSI [[51]] 66)).1.con.dwCursorPosition =
      (sample 80 25 3 5 7).con.dwCursorPosition :=
  (C8_up_then_down quietConsole (sample 80 25 3 5 7) 1 [51] rfl rfl (by decide) (by decide)
    (by decide) (by decide) (by decide)).2 (by decide)

/-- C8 as stated fails: from row 0 of an 80x25 buffer, `ESC [ 1 A ESC [ 1 B`
ends on row 1. -/
theorem C8_counterexample :
    (sample 80 25 3 0 7).con.dwCursorPosition = { X := 3, Y := 0 } ∧
    (ParseAndPrintString quietConsole (sample 80 25 3 0 7) 1
        (CSI [[49]] 65 ++ CSI [[49]] 66)).1.con.dwCursorPosition = { X := 3, Y := 1 } := by
  decide

/-! ## C9, C10: the hook engine -/

theorem hookLoop_hook_skip (kernel : Bool) (h : HookFn) (rest : List HookFn)
    (t : IMAGE_THUNK_DATA) (hno : ¬ hookMatch t.Function h ∨ h.newfunc = 0) :
    hookLoop false kernel (h :: rest) t = hookLoop false kernel rest t := by
  unfold hookMatch at hno
  rcases hno with hno | hno
  · simp [hookLoop, hno]
  · simp [hookLoop, hno]

theorem hookLoop_hook_fail (kernel : Bool) (h : HookFn) (rest : List HookFn)
    (t : IMAGE_THUNK_DATA) (hm : hookMatch t.Function h) (hn : h.newfunc ≠ 0)
    (hw : t.writable = false) :
    hookLoop false kernel (h :: rest) t =
      { ok := false, mem := { t with Protect := flNewProtect t.Protect }, writes := [] } := by
  unfold hookMatch at hm
  simp [hookLoop, hm, hn, hw]

theorem hookLoop_hook_write (kernel : Bool) (h : HookFn) (rest : List HookFn)
    (t : IMAGE_THUNK_DATA) (hm : hookMatch t.Function h) (hn : h.newfunc ≠ 0)
    (hw : t.writable = true) :
    hookLoop false kernel (h :: rest) t =
      { hookLoop false kernel rest { t with Function := h.newfunc } with
        writes := (t.Function, h.newfunc) ::
          (hookLoop false kernel rest { t with Function := h.newfunc }).writes } := by
  unfold hookMatch at hm
  simp [hookLoop, hm, hn, hw]

theorem hookLoop_restore_skip (kernel : Bool) (h : HookFn) (rest : List HookFn)
    (t : IMAGE_THUNK_DATA) (hno : t.Function ≠ h.newfunc ∨ restoreTarget kernel h = 0) :
    hookLoop true kernel (h :: rest) t = hookLoop true kernel rest t := by
  rcases hno with hno | hno
  · simp [hookLoop, hno]
  · simp [hookLoop, hno]

theorem hookLoop_restore_write (kernel : Bool) (h : HookFn) (rest : List HookFn)
    (t : IMAGE_THUNK_DATA) (hm : t.Function = h.newfunc) (hn : restoreTarget kernel h ≠ 0)
    (hw : t.writable = true) :
    hookLoop true kernel (h :: rest) t =
      { hookLoop true kernel rest { t with Function := restoreTarget kernel h } with
        writes := (t.Function, restoreTarget kernel h) ::
          (hookLoop true kernel rest { t with Function := restoreTarget kernel h }).writes } := by
  simp [hookLoop, hm, hn, hw]

/-- A hook pass leaves a slot alone when no hook with a replacement matches. -/
theorem hook_pass_nomatch (kernel : Bool) (hs : List HookFn) (t : IMAGE_THUNK_DATA)
    (hno : ∀ h ∈ hs, ¬ hookMatch t.Function h ∨ h.newfunc = 0) :
    hookLoop false kernel hs t = { ok := true, mem := t, writes := [] } := by
  induction hs with
  | nil => rfl
  | cons h rest ih =>
    rw [hookLoop_hook_skip kernel h rest t (hno h (by simp))]
    exact ih (fun h' hh' => hno h' (by simp [hh']))

/-- A hook pass fails on a matching slot that cannot be written. -/
theorem hook_pass_fail (kernel : Bool) (hs : List HookFn) (t : IMAGE_THUNK_DATA)
    (hw : t.writable = false)
    (hm : ∃ h ∈ hs, hookMatch t.Function h ∧ h.newfunc ≠ 0) :
    hookLoop false kernel hs t =
      { ok := false, mem := { t with Protect := flNewProtect t.Protect }, writes := [] } := by
  induction hs with
  | nil => obtain ⟨h, hh, _⟩ := hm; simp at hh
  | cons h rest ih =>
    by_cases hh : hookMatch t.Function h ∧ h.newfunc ≠ 0
    · exact hookLoop_hook_fail kernel h rest t hh.1 hh.2 hw
    · have hno : ¬ hookMatch t.Function h ∨ h.newfunc = 0 := by
        by_cases h1 : hookMatch t.Function h
        · right; by_contra h2; exact hh ⟨h1, h2⟩
        · left; exact h1
      rw [hookLoop_hook_skip kernel h rest t hno]
      apply ih
      obtain ⟨h', hh', hm'⟩ := hm
      rcases List.mem_cons.mp hh' with rfl | hin
      · exact absurd hm' hh
      · exact ⟨h', hin, hm'⟩

/-- A hook pass on a matching, writable slot writes the replacement of a
matching hook, once. -/
theorem hook_pass_write (kernel : Bool) (HS hs : List HookFn) (t : IMAGE_THUNK_DATA)
    (hd : newDisjoint HS) (hsub : ∀ h ∈ hs, h ∈ HS)
    (hw : t.writable = true)
    (hm : ∃ h ∈ hs, hookMatch t.Function h ∧ h.newfunc ≠ 0) :
    ∃ h ∈ hs, hookMatch t.Function h ∧ h.newfunc ≠ 0 ∧
      hookLoop false kernel hs t =
        { ok := true, mem := { t with Function := h.newfunc },
          writes := [(t.Function, h.newfunc)] } := by
  induction hs with
  | nil => obtain ⟨h, hh, _⟩ := hm; simp at hh
  | cons h rest ih =>
    by_cases hh : hookMatch t.Function h ∧ h.newfunc ≠ 0
    · refine ⟨h, by simp, hh.1, hh.2, ?_⟩
      rw [hookLoop_hook_write kernel h rest t hh.1 hh.2 hw,
        hook_pass_nomatch kernel rest { t with Function := h.newfunc }]
      intro h' hh'
      left
      have := hd h (hsub h (by simp)) h' (hsub h' (by simp [hh']))
      unfold hookMatch
      simp only
      tauto
    · have hno : ¬ hookMatch t.Function h ∨ h.newfunc = 0 := by
        by_cases h1 : hookMatch t.Function h
        · right; by_contra h2; exact hh ⟨h1, h2⟩
        · left; exact h1
      rw [hookLoop_hook_skip kernel h rest t hno]
      have hm' : ∃ h ∈ rest, hookMatch t.Function h ∧ h.newfunc ≠ 0 := by
        obtain ⟨h', hh', hm'⟩ := hm
        rcases List.mem_cons.mp hh' with rfl | hin
        · exact absurd hm' hh
        · exact ⟨h', hin, hm'⟩
      obtain ⟨h', hin, h1, h2, h3⟩ := ih (fun x hx => hsub x (by simp [hx])) hm'
      exact ⟨h', by simp [hin], h1, h2, h3⟩

/-- A hook pass leaves a slot that holds a replacement entry point alone. -/
theorem hook_pass_on_new (kernel : Bool) (HS : List HookFn) (t : IMAGE_THUNK_DATA)
    (hd : newDisjoint HS) (h : HookFn) (hh : h ∈ HS) (ht : t.Function = h.newfunc) :
    hookLoop false kernel HS t = { ok := true, mem := t, writes := [] } := by
  apply hook_pass_nomatch
  intro h' hh'
  left
  have := hd h hh h' hh'
  unfold hookMatch
  rw [ht]
  tauto

/-- The three ways a hook pass can treat a slot. -/
theorem hook_pass_cases (kernel : Bool) (HS : List HookFn) (t : IMAGE_THUNK_DATA)
    (hd : newDisjoint HS) :
    ((∀ h ∈ HS, ¬ hookMatch t.Function h ∨ h.newfunc = 0) ∧
      hookLoop false kernel HS t = { ok := true, mem := t, writes := [] }) ∨
    (t.writable = false ∧ (∃ h ∈ HS, hookMatch t.Function h ∧ h.newfunc ≠ 0) ∧
      hookLoop false kernel HS t =
        { ok := false, mem := { t with Protect := flNewProtect t.Protect }, writes := [] }) ∨
    (t.writable = true ∧ ∃ h ∈ HS, hookMatch t.Function h ∧ h.newfunc ≠ 0 ∧
      hookLoop false kernel HS t =
        { ok := true, mem := { t with Function := h.newfunc },
          writes := [(t.Function, h.newfunc)] }) := by
  by_cases hm : ∃ h ∈ HS, hookMatch t.Function h ∧ h.newfunc ≠ 0
  · by_cases hw : t.writable = true
    · exact Or.inr (Or.inr ⟨hw, hook_pass_write kernel HS HS t hd (fun _ h => h) hw hm⟩)
    · have hw' : t.writable = false := by simpa using hw
      exact Or.inr (Or.inl ⟨hw', hm, hook_pass_fail kernel HS t hw' hm⟩)
  · left
    have hno : ∀ h ∈ HS, ¬ hookMatch t.Function h ∨ h.newfunc = 0 := by
      intro h hh
      by_cases h1 : hookMatch t.Function h
      · right; by_contra h2; exact hm ⟨h, hh, h1, h2⟩
      · left; exact h1
    exact ⟨hno, hook_pass_nomatch kernel HS t hno⟩

/-- Two hook passes over one import address table: the second writes nothing
and changes no slot value, and it ends as the first did; a slot changed by
the first pass holds a replacement entry point. -/
theorem thunkLoop_hook_twice (kernel : Bool) (HS : List HookFn) (hd : newDisjoint HS) :
    ∀ ts : List IMAGE_THUNK_DATA,
      (thunkLoop HS false kernel (thunkLoop HS false kernel ts).mem).ok
        = (thunkLoop HS false kernel ts).ok ∧
      (thunkLoop HS false kernel (thunkLoop HS false kernel ts).mem).mem.map (fun t => t.Function)
        = (thunkLoop HS false kernel ts).mem.map (fun t => t.Function) ∧
      (thunkLoop HS false kernel (thunkLoop HS false kernel ts).mem).writes = [] ∧
      List.Forall₂ (fun v0 v1 => v1 = v0 ∨ ∃ h ∈ HS, v1 = h.newfunc)
        (ts.map (fun t => t.Function))
        ((thunkLoop HS false kernel ts).mem.map (fun t => t.Function)) := by
  have hrefl : ∀ l : List Nat,
      List.Forall₂ (fun v0 v1 => v1 = v0 ∨ ∃ h ∈ HS, v1 = h.newfunc) l l := by
    intro l
    induction l with
    | nil => exact List.Forall₂.nil
    | cons a l ih => exact List.Forall₂.cons (Or.inl rfl) ih
  intro ts
  induction ts with
  | nil => simp [thunkLoop]
  | cons t rest ih =>
    obtain ⟨ih1, ih2, ih3, ih4⟩ := ih
    by_cases h0 : t.Function = 0
    · simp [thunkLoop, h0, hrefl]
    · rcases hook_pass_cases kernel HS t hd with ⟨_, heq⟩ | ⟨hw, hm, heq⟩ | ⟨_, h, hh, _, hn, heq⟩
      · -- no hook matches: the slot is left alone by both passes
        have e1 : thunkLoop HS false kernel (t :: rest) =
            { ok := (thunkLoop HS false kernel rest).ok,
              mem := t :: (thunkLoop HS false kernel rest).mem,
              writes := (thunkLoop HS false kernel rest).writes } := by
          simp [thunkLoop, h0, heq]
        have e2 : thunkLoop HS false kernel (t :: (thunkLoop HS false kernel rest).mem) =
            { ok := (thunkLoop HS false kernel (thunkLoop HS false kernel rest).mem).ok,
              mem := t :: (thunkLoop HS false kernel (thunkLoop HS false kernel rest).mem).mem,
              writes := (thunkLoop HS false kernel (thunkLoop HS false kernel rest).mem).writes } := by
          simp [thunkLoop, h0, heq]
        rw [e1]
        simp only
        rw [e2]
        simp only [List.map_cons]
        exact ⟨ih1, by rw [ih2], ih3, List.Forall₂.cons (Or.inl rfl) ih4⟩
      · -- the write fails: both passes stop at this slot
        have e1 : thunkLoop HS false kernel (t :: rest) =
            { ok := false, mem := { t with Protect := flNewProtect t.Protect } :: rest,
              writes := [] } := by
          simp [thunkLoop, h0, heq]
        have heq2 := hook_pass_fail kernel HS { t with Protect := flNewProtect t.Protect }
          hw hm
        have e2 : thunkLoop HS false kernel
              ({ t with Protect := flNewProtect t.Protect } :: rest) =
            { ok := false,
              mem := { t with Protect := flNewProtect (flNewProtect t.Protect) } :: rest,
              writes := [] } := by
          simp [thunkLoop, h0, heq2]
        rw [e1]
        simp only
        rw [e2]
        simp [hrefl]
      · -- the slot is patched by the first pass and left alone by the second
        have hne : h.newfunc ≠ 0 := hn
        have e1 : thunkLoop HS false kernel (t :: rest) =
            { ok := (thunkLoop HS false kernel rest).ok,
              mem := { t with Function := h.newfunc } :: (thunkLoop HS false kernel rest).mem,
              writes := (t.Function, h.newfunc) :: (thunkLoop HS false kernel rest).writes } := by
          simp [thunkLoop, h0, heq]
        have heq2 := hook_pass_on_new kernel HS { t with Function := h.newfunc } hd h hh rfl
        have e2 : thunkLoop HS false kernel
              ({ t with Function := h.newfunc } :: (thunkLoop HS false kernel rest).mem) =
            { ok := (thunkLoop HS false kernel (thunkLoop HS false kernel rest).mem).ok,
              mem := { t with Function := h.newfunc } ::
                (thunkLoop HS false kernel (thunkLoop HS false kernel rest).mem).mem,
              writes := (thunkLoop HS false kernel (thunkLoop HS false kernel rest).mem).writes } := by
          simp [thunkLoop, hne, heq2]
        rw [e1]
        simp only
        rw [e2]
        simp only [List.map_cons]
        exact ⟨ih1, by rw [ih2], ih3, List.Forall₂.cons (Or.inr ⟨h, hh, rfl⟩) ih4⟩

theorem descLoop_cons_none (HS : List HookFn) (restore : Bool) (d : IMAGE_IMPORT_DESCRIPTOR)
    (rest : List IMAGE_IMPORT_DESCRIPTOR) (h : findLib d.Name = none) :
    descLoop HS restore (d :: rest) =
      { ok := (descLoop HS restore rest).ok, mem := d :: (descLoop HS restore rest).mem,
        writes := (descLoop HS restore rest).writes } := by
  simp [descLoop, h]

theorem descLoop_cons_fail (HS : List HookFn) (restore : Bool) (d : IMAGE_IMPORT_DESCRIPTOR)
    (rest : List IMAGE_IMPORT_DESCRIPTOR) (lib : Nat) (h : findLib d.Name = some lib)
    (hok : (thunkLoop HS restore (decide (lib = 0)) d.FirstThunk).ok = false) :
    descLoop HS restore (d :: rest) =
      { ok := false,
        mem := { d with FirstThunk := (thunkLoop HS restore (decide (lib = 0)) d.FirstThunk).mem }
                :: rest,
        writes := (thunkLoop HS restore (decide (lib = 0)) d.FirstThunk).writes } := by
  simp [descLoop, h, hok]

theorem descLoop_cons_ok (HS : List HookFn) (restore : Bool) (d : IMAGE_IMPORT_DESCRIPTOR)
    (rest : List IMAGE_IMPORT_DESCRIPTOR) (lib : Nat) (h : findLib d.Name = some lib)
    (hok : (thunkLoop HS restore (decide (lib = 0)) d.FirstThunk).ok = true) :
    descLoop HS restore (d :: rest) =
      { ok := (descLoop HS restore rest).ok,
        mem := { d with FirstThunk := (thunkLoop HS restore (decide (lib = 0)) d.FirstThunk).mem }
                :: (descLoop HS restore rest).mem,
        writes := (thunkLoop HS restore (decide (lib = 0)) d.FirstThunk).writes
                    ++ (descLoop HS restore rest).writes } := by
  simp [descLoop, h, hok]

/-- Two hook passes over the import descriptors. -/
theorem descLoop_hook_twice (HS : List HookFn) (hd : newDisjoint HS) :
    ∀ ds : List IMAGE_IMPORT_DESCRIPTOR,
      (descLoop HS false (descLoop HS false ds).mem).ok = (descLoop HS false ds).ok ∧
      (descLoop HS false (descLoop HS false ds).mem).mem.map
          (fun d => d.FirstThunk.map (fun t => t.Function))
        = (descLoop HS false ds).mem.map (fun d => d.FirstThunk.map (fun t => t.Function)) ∧
      (descLoop HS false (descLoop HS false ds).mem).writes = [] ∧
      List.Forall₂ (List.Forall₂ (fun v0 v1 => v1 = v0 ∨ ∃ h ∈ HS, v1 = h.newfunc))
        (ds.map (fun d => d.FirstThunk.map (fun t => t.Function)))
        ((descLoop HS false ds).mem.map (fun d => d.FirstThunk.map (fun t => t.Function))) := by
  have hrefl : ∀ l : List Nat,
      List.Forall₂ (fun v0 v1 => v1 = v0 ∨ ∃ h ∈ HS, v1 = h.newfunc) l l := by
    intro l
    induction l with
    | nil => exact List.Forall₂.nil
    | cons a l ih => exact List.Forall₂.cons (Or.inl rfl) ih
  have hrefl2 : ∀ l : List (List Nat),
      List.Forall₂ (List.Forall₂ (fun v0 v1 => v1 = v0 ∨ ∃ h ∈ HS, v1 = h.newfunc)) l l := by
    intro l
    induction l with
    | nil => exact List.Forall₂.nil
    | cons a l ih => exact List.Forall₂.cons (hrefl a) ih
  intro ds
  induction ds with
  | nil => simp [descLoop]
  | cons d rest ih =>
    obtain ⟨ih1, ih2, ih3, ih4⟩ := ih
    cases hlib : findLib d.Name with
    | none =>
      rw [descLoop_cons_none HS false d rest hlib]
      simp only
      rw [descLoop_cons_none HS false d _ hlib]
      simp only [List.map_cons]
      exact ⟨ih1, by rw [ih2], ih3, List.Forall₂.cons (hrefl _) ih4⟩
    | some lib =>
      obtain ⟨t1, t2, t3, t4⟩ := thunkLoop_hook_twice (decide (lib = 0)) HS hd d.FirstThunk
      cases hok : (thunkLoop HS false (decide (lib = 0)) d.FirstThunk).ok with
      | false =>
        rw [descLoop_cons_fail HS false d rest lib hlib hok]
        simp only
        rw [descLoop_cons_fail HS false
          { d with FirstThunk := (thunkLoop HS false (decide (lib = 0)) d.FirstThunk).mem }
          rest lib hlib (by simpa [hok] using t1)]
        simp only [List.map_cons]
        exact ⟨trivial, by rw [t2], t3, List.Forall₂.cons t4 (hrefl2 _)⟩
      | true =>
        rw [descLoop_cons_ok HS false d rest lib hlib hok]
        simp only
        rw [descLoop_cons_ok HS false
          { d with FirstThunk := (thunkLoop HS false (decide (lib = 0)) d.FirstThunk).mem }
          _ lib hlib (by simpa [hok] using t1)]
        simp only [List.map_cons]
        exact ⟨ih1, by rw [t2, ih2], by rw [t3, ih3]; rfl, List.Forall₂.cons t4 ih4⟩

/-- C9: when no replacement entry point of the hook table equals an original
or fallback entry point, a second `HookAPIOneMod(module, Hooks, FALSE)` leaves
every import slot as the first pass left it and writes no slot (and returns
what the first pass returned); every slot changed by the first pass holds a
replacement entry point of the table. -/
theorem C9_hook_pass_idempotent (m : MODULE) (Hooks : List HookFn)
    (hdisj : newDisjoint Hooks) :
    slotValues (HookAPIOneMod (HookAPIOneMod m Hooks false).mem Hooks false).mem
      = slotValues (HookAPIOneMod m Hooks false).mem ∧
    (HookAPIOneMod (HookAPIOneMod m Hooks false).mem Hooks false).writes = [] ∧
    (HookAPIOneMod (HookAPIOneMod m Hooks false).mem Hooks false).ok
      = (HookAPIOneMod m Hooks false).ok ∧
    List.Forall₂ (List.Forall₂ (fun v0 v1 => v1 = v0 ∨ ∃ h ∈ Hooks, v1 = h.newfunc))
      (slotValues m) (slotValues (HookAPIOneMod m Hooks false).mem) := by
  have hrefl : ∀ l : List (List Nat),
      List.Forall₂ (List.Forall₂ (fun v0 v1 => v1 = v0 ∨ ∃ h ∈ Hooks, v1 = h.newfunc)) l l := by
    intro l
    induction l with
    | nil => exact List.Forall₂.nil
    | cons a l ih =>
      refine List.Forall₂.cons ?_ ih
      induction a with
      | nil => exact List.Forall₂.nil
      | cons x a iha => exact List.Forall₂.cons (Or.inl rfl) iha
  obtain ⟨d1, d2, d3, d4⟩ := descLoop_hook_twice Hooks hdisj m.ImportDesc
  by_cases h1 : m.e_magic ≠ IMAGE_DOS_SIGNATURE
  · simp [HookAPIOneMod, h1, hrefl]
  · by_cases h2 : m.Signature ≠ IMAGE_NT_SIGNATURE
    · simp [HookAPIOneMod, h1, h2, hrefl]
    · by_cases h3 : m.ImportVirtualAddress = 0
      · simp [HookAPIOneMod, h1, h2, h3, hrefl]
      · simp only [HookAPIOneMod, h1, h2, h3, if_false, slotValues]
        exact ⟨d2, d3, d1, d4⟩

/-- Witness of C9 on the sample module and hook table. -/
theorem C9_hook_pass_idempotent_witness :
    slotValues (HookAPIOneMod (HookAPIOneMod (sampleModule [2000, 5555, 2001] [3000] [2000])
        sampleHooks false).mem sampleHooks false).mem
      = slotValues (HookAPIOneMod (sampleModule [2000, 5555, 2001] [3000] [2000])
          sampleHooks false).mem :=
  (C9_hook_pass_idempotent (sampleModule [2000, 5555, 2001] [3000] [2000]) sampleHooks
    (by decide)).1

/-- A restore pass leaves a slot alone when it holds no replacement entry
point of a hook that has a restore target. -/
theorem restore_pass_nomatch (kernel : Bool) (hs : List HookFn) (t : IMAGE_THUNK_DATA)
    (hno : ∀ h ∈ hs, t.Function ≠ h.newfunc ∨ restoreTarget kernel h = 0) :
    hookLoop true kernel hs t = { ok := true, mem := t, writes := [] } := by
  induction hs with
  | nil => rfl
  | cons h rest ih =>
    rw [hookLoop_restore_skip kernel h rest t (hno h (by simp))]
    exact ih (fun h' hh' => hno h' (by simp [hh']))

/-- A restore pass on a writable slot holding the replacement of the hook `h0`
writes the restore target `v` of `h0`, provided `v` is no replacement. -/
theorem restore_pass_write (kernel : Bool) (HS hs : List HookFn) (t : IMAGE_THUNK_DATA)
    (hdist : newDistinct HS) (hsub : ∀ h ∈ hs, h ∈ HS)
    (h0 : HookFn) (hh0 : h0 ∈ hs) (ht : t.Function = h0.newfunc)
    (hv : restoreTarget kernel h0 ≠ 0)
    (hvnew : ∀ h ∈ HS, restoreTarget kernel h0 ≠ h.newfunc)
    (hw : t.writable = true) :
    hookLoop true kernel hs t =
      { ok := true, mem := { t with Function := restoreTarget kernel h0 },
        writes := [(t.Function, restoreTarget kernel h0)] } := by
  induction hs with
  | nil => simp at hh0
  | cons h rest ih =>
    by_cases hh : t.Function = h.newfunc
    · have heq : h = h0 := hdist h (hsub h (by simp)) h0 (hsub h0 hh0) (by rw [← hh, ht])
      subst heq
      rw [hookLoop_restore_write kernel h rest t hh hv hw,
        restore_pass_nomatch kernel rest { t with Function := restoreTarget kernel h }]
      intro h' hh'
      left
      exact hvnew h' (hsub h' (by simp [hh']))
    · rw [hookLoop_restore_skip kernel h rest t (Or.inl hh)]
      rcases List.mem_cons.mp hh0 with rfl | hin
      · exact absurd ht hh
      · exact ih (fun x hx => hsub x (by simp [hx])) hin

/-- A restore pass over slots none of which holds a replacement entry point
changes nothing. -/
theorem thunkLoop_restore_id (kernel : Bool) (HS : List HookFn) :
    ∀ ts : List IMAGE_THUNK_DATA, (∀ t ∈ ts, ∀ h ∈ HS, t.Function ≠ h.newfunc) →
      thunkLoop HS true kernel ts = { ok := true, mem := ts, writes := [] } := by
  intro ts
  induction ts with
  | nil => intro _; rfl
  | cons t rest ih =>
    intro hno
    by_cases h0 : t.Function = 0
    · simp [thunkLoop, h0]
    · have h1 := restore_pass_nomatch kernel HS t (fun h hh => Or.inl (hno t (by simp) h hh))
      have h2 := ih (fun t' ht' => hno t' (by simp [ht']))
      simp [thunkLoop, h0, h1, h2]

/-- A hook pass followed by a restore pass over one import address table whose
slots are restorable: the restore pass succeeds and every slot holds its
prior value. -/
theorem thunkLoop_roundtrip (kernel : Bool) (HS : List HookFn)
    (hd : newDisjoint HS) (hdist : newDistinct HS) :
    ∀ ts : List IMAGE_THUNK_DATA, restorableSlots HS kernel ts →
      (thunkLoop HS true kernel (thunkLoop HS false kernel ts).mem).ok = true ∧
      (thunkLoop HS true kernel (thunkLoop HS false kernel ts).mem).mem.map (fun t => t.Function)
        = ts.map (fun t => t.Function) := by
  intro ts
  induction ts with
  | nil => intro _; simp [thunkLoop]
  | cons t rest ih =>
    intro hres
    have hrest : restorableSlots HS kernel rest := fun t' ht' => hres t' (by simp [ht'])
    have hnonew : ∀ h ∈ HS, t.Function ≠ h.newfunc := fun h hh => (hres t (by simp) h hh).1
    obtain ⟨ih1, ih2⟩ := ih hrest
    by_cases h0 : t.Function = 0
    · simp [thunkLoop, h0]
    · rcases hook_pass_cases kernel HS t hd with ⟨_, heq⟩ | ⟨_, _, heq⟩ | ⟨hw, h, hh, hm, hn, heq⟩
      · have e1 : thunkLoop HS false kernel (t :: rest) =
            { ok := (thunkLoop HS false kernel rest).ok,
              mem := t :: (thunkLoop HS false kernel rest).mem,
              writes := (thunkLoop HS false kernel rest).writes } := by
          simp [thunkLoop, h0, heq]
        have r1 := restore_pass_nomatch kernel HS t (fun h hh => Or.inl (hnonew h hh))
        rw [e1]
        simp [thunkLoop, h0, r1, ih1, ih2]
      · have e1 : thunkLoop HS false kernel (t :: rest) =
            { ok := false, mem := { t with Protect := flNewProtect t.Protect } :: rest,
              writes := [] } := by
          simp [thunkLoop, h0, heq]
        have r1 := restore_pass_nomatch kernel HS { t with Protect := flNewProtect t.Protect }
          (fun h hh => Or.inl (hnonew h hh))
        have r2 := thunkLoop_restore_id kernel HS rest (fun t' ht' h hh => (hrest t' ht' h hh).1)
        rw [e1]
        simp [thunkLoop, h0, r1, r2]
      · have hne : h.newfunc ≠ 0 := hn
        have hval : t.Function = restoreTarget kernel h := (hres t (by simp) h hh).2 hm
        have e1 : thunkLoop HS false kernel (t :: rest) =
            { ok := (thunkLoop HS false kernel rest).ok,
              mem := { t with Function := h.newfunc } :: (thunkLoop HS false kernel rest).mem,
              writes := (t.Function, h.newfunc) :: (thunkLoop HS false kernel rest).writes } := by
          simp [thunkLoop, h0, heq]
        have r1 := restore_pass_write kernel HS HS { t with Function := h.newfunc } hdist
          (fun _ hx => hx) h hh rfl (by rw [← hval]; exact h0)
          (fun h' hh' => by rw [← hval]; exact hnonew h' hh') hw
        rw [e1]
        simp [thunkLoop, hne, r1, ih1, ih2, hval]

/-- A restore pass over descriptors whose listed slots hold no replacement
entry point changes nothing. -/
theorem descLoop_restore_id (HS : List HookFn) :
    ∀ ds : List IMAGE_IMPORT_DESCRIPTOR,
      (∀ d ∈ ds, findLib d.Name ≠ none → ∀ t ∈ d.FirstThunk, ∀ h ∈ HS, t.Function ≠ h.newfunc) →
      descLoop HS true ds = { ok := true, mem := ds, writes := [] } := by
  intro ds
  induction ds with
  | nil => intro _; rfl
  | cons d rest ih =>
    intro hno
    have h2 := ih (fun d' hd' => hno d' (by simp [hd']))
    cases hlib : findLib d.Name with
    | none =>
      rw [descLoop_cons_none HS true d rest hlib, h2]
    | some lib =>
      have h1 := thunkLoop_restore_id (decide (lib = 0)) HS d.FirstThunk
        (hno d (by simp) (by simp [hlib]))
      rw [descLoop_cons_ok HS true d rest lib hlib (by rw [h1]), h1, h2]
      simp

/-- A hook pass followed by a restore pass over the import descriptors of a
restorable module gives every slot its prior value. -/
theorem descLoop_roundtrip (HS : List HookFn) (hd : newDisjoint HS) (hdist : newDistinct HS) :
    ∀ ds : List IMAGE_IMPORT_DESCRIPTOR,
      (∀ d ∈ ds, findLib d.Name ≠ none → restorableSlots HS (descKernel d) d.FirstThunk) →
      (descLoop HS true (descLoop HS false ds).mem).mem.map
          (fun d => d.FirstThunk.map (fun t => t.Function))
        = ds.map (fun d => d.FirstThunk.map (fun t => t.Function)) := by
  intro ds
  induction ds with
  | nil => intro _; simp [descLoop]
  | cons d rest ih =>
    intro hres
    have hrest : ∀ d' ∈ rest, findLib d'.Name ≠ none →
        restorableSlots HS (descKernel d') d'.FirstThunk :=
      fun d' hd' => hres d' (by simp [hd'])
    have ih' := ih hrest
    cases hlib : findLib d.Name with
    | none =>
      rw [descLoop_cons_none HS false d rest hlib]
      simp only
      rw [descLoop_cons_none HS true d _ hlib]
      simp only [List.map_cons]
      rw [ih']
    | some lib =>
      have hk : descKernel d = decide (lib = 0) := by simp [descKernel, hlib]
      have hslots : restorableSlots HS (decide (lib = 0)) d.FirstThunk := by
        rw [← hk]; exact hres d (by simp) (by simp [hlib])
      obtain ⟨t1, t2⟩ := thunkLoop_roundtrip (decide (lib = 0)) HS hd hdist d.FirstThunk hslots
      cases hok : (thunkLoop HS false (decide (lib = 0)) d.FirstThunk).ok with
      | false =>
        rw [descLoop_cons_fail HS false d rest lib hlib hok]
        simp only
        rw [descLoop_cons_ok HS true
          { d with FirstThunk := (thunkLoop HS false (decide (lib = 0)) d.FirstThunk).mem }
          rest lib hlib t1,
          descLoop_restore_id HS rest
            (fun d' hd' hl t ht h hh => (hrest d' hd' hl t ht h hh).1)]
        simp only [List.map_cons]
        rw [t2]
      | true =>
        rw [descLoop_cons_ok HS false d rest lib hlib hok]
        simp only
        rw [descLoop_cons_ok HS true
          { d with FirstThunk := (thunkLoop HS false (decide (lib = 0)) d.FirstThunk).mem }
          _ lib hlib t1]
        simp only [List.map_cons]
        rw [t2, ih']

/-- C10 (amended): when the replacement entry points of the hook table are
pairwise distinct and none equals an original or fallback entry point, and
the module is restorable (no slot holds a replacement; under `kernel32.dll` a
slot that matches a hook holds the hook's original entry point, under the
other listed modules its fallback entry point), `HookAPIOneMod` with
restore = FALSE followed by restore = TRUE returns every import slot to the
value it held before. -/
theorem C10_hook_restore_roundtrip (m : MODULE) (Hooks : List HookFn)
    (hdisj : newDisjoint Hooks) (hdist : newDistinct Hooks) (hres : restorable Hooks m) :
    slotValues (HookAPIOneMod (HookAPIOneMod m Hooks false).mem Hooks true).mem
      = slotValues m := by
  by_cases h1 : m.e_magic ≠ IMAGE_DOS_SIGNATURE
  · simp [HookAPIOneMod, h1]
  · by_cases h2 : m.Signature ≠ IMAGE_NT_SIGNATURE
    · simp [HookAPIOneMod, h1, h2]
    · by_cases h3 : m.ImportVirtualAddress = 0
      · simp [HookAPIOneMod, h1, h2, h3]
      · simp only [HookAPIOneMod, h1, h2, h3, if_false, slotValues]
        exact descLoop_roundtrip Hooks hdisj hdist m.ImportDesc hres

/-- Witness of C10 (amended) on the sample module and hook table. -/
theorem C10_hook_restore_roundtrip_witness :
    slotValues (HookAPIOneMod (HookAPIOneMod (sampleModule [2000, 5555, 2001] [3000] [2000])
        sampleHooks false).mem sampleHooks true).mem
      = slotValues (sampleModule [2000, 5555, 2001] [3000] [2000]) :=
  C10_hook_restore_roundtrip (sampleModule [2000, 5555, 2001] [3000] [2000]) sampleHooks
    (by decide) (by decide) (by decide)

/-- C10 as stated fails.  A slot under `kernel32.dll` holding the fallback
entry point 3000 of the first hook is hooked and then restored to the
original entry point 2000; a slot under the console API set holding the
original entry point 2001 of the second hook, which has no fallback entry
point, is hooked to 1001 and not restored at all. -/
theorem C10_counterexample :
    slotValues (sampleModule [3000] [2001] []) = [[3000], [2001], []] ∧
    slotValues (HookAPIOneMod (sampleModule [3000] [2001] []) sampleHooks false).mem
      = [[1000], [1001], []] ∧
    slotValues (HookAPIOneMod (HookAPIOneMod (sampleModule [3000] [2001] [])
        sampleHooks false).mem sampleHooks true).mem = [[2000], [1001], []] := by
  decide

/-! ## The argument list of a control sequence -/

theorem map_range_store_any {α : Type} (a : Nat → α) (n : Nat) (v : α) :
    (List.range (n + 1)).map (store a n v) = (List.range n).map a ++ [v] := by
  rw [List.range_succ, List.map_append]
  congr 1
  · apply List.map_congr_left
    intro i hi
    have : i ≠ n := Nat.ne_of_lt (List.mem_range.mp hi)
    simp [store, this]
  · simp [store]

theorem pushArg_expectedArgs (l : List Int) (v : Int) :
    pushArg (expectedArgs l) v = expectedArgs (l ++ [v]) := by
  unfold pushArg expectedArgs
  simp only [MAX_ARG, List.length_append, List.length_singleton]
  by_cases h1 : l.length ≤ 15
  · have h2 : l.length ≤ 16 := by omega
    have h3 : l.length + 1 ≤ 16 := by omega
    have h4 : l.length < 16 := by omega
    simp [h2, h3, h4]
  · by_cases h2 : l.length = 16
    · have h3 : ¬ (l.length + 1 ≤ 16) := by omega
      have h4 : ¬ (l.length < 16) := by omega
      have h5 : l.length ≤ 16 := by omega
      simp only [h3, h4, h5, if_true, if_false]
      rw [List.take_append_of_le_length (by omega), List.drop_append_of_le_length (by omega)]
      have : List.drop (l.length + 1 - 1) l = [] := by
        apply List.drop_of_length_le; omega
      rw [this]; simp
    · have h3 : ¬ (l.length + 1 ≤ 16) := by omega
      have h5 : ¬ (l.length ≤ 16) := by omega
      have hlen : (List.take (16 - 1) l ++ List.drop (l.length - 1) l).length = 16 := by
        simp only [List.length_append, List.length_take, List.length_drop]; omega
      have h4 : ¬ ((List.take (16 - 1) l ++ List.drop (l.length - 1) l).length < 16) := by
        omega
      simp only [h3, h4, h5, if_false]
      rw [List.take_append_of_le_length (by simp; omega), List.take_take,
        List.take_append_of_le_length (by omega), List.drop_append_of_le_length (by omega)]
      have : List.drop (l.length + 1 - 1) l = [] := by
        apply List.drop_of_length_le; omega
      rw [this]; simp

theorem foldl_pushArg (v0 : Int) (vs : List Int) :
    vs.foldl pushArg [v0] = expectedArgs (v0 :: vs) := by
  induction vs using List.reverseRecOn with
  | nil => simp [expectedArgs, MAX_ARG]
  | append_singleton vs v ih =>
    rw [List.foldl_append, ih]
    simp only [List.foldl_cons, List.foldl_nil]
    rw [pushArg_expectedArgs]
    simp

/-- A separator read in state 4 when the last slot is in use: the slot is
used again. -/
theorem ParseLoop_nextArg_cap (wc : WriteEffect) (s : ANSI) (ds : List Nat)
    (hs : s.state = 4) (hk : s.es_argc = 15) (hd : allDigits ds) :
    ParseLoop wc s (59 :: ds) =
      { s with es_argv := store s.es_argv 15 (accum 0 ds) } := by
  have hstep : ParseChar wc s 59 = { s with es_argv := store s.es_argv 15 0 } := by
    simp [ParseChar, hs, isdigit, MAX_ARG, hk]
  rw [ParseLoop_cons, hstep, ParseLoop_digits wc ds _ (by simpa using hs) hd]
  simp [store_store_same, store, hk]

/-- A separator read in state 3 opens two argument slots. -/
theorem ParseLoop_emptyFirstArg (wc : WriteEffect) (s : ANSI) (ds : List Nat)
    (hs : s.state = 3) (hd : allDigits ds) :
    ParseLoop wc s (59 :: ds) =
      { s with es_argc := 1, es_argv := store (store s.es_argv 0 0) 1 (accum 0 ds),
               state := 4 } := by
  have hstep : ParseChar wc s 59 =
      { s with es_argc := 1, es_argv := store (store s.es_argv 0 0) 1 0, state := 4 } := by
    simp [ParseChar, hs, isdigit]
  rw [ParseLoop_cons, hstep, ParseLoop_digits wc ds _ (by simp) hd]
  simp [store_store_same, store]

/-- The slots in use while an argument is being read in state 4. -/
theorem slots_nextArg (wc : WriteEffect) (s : ANSI) (ds : List Nat)
    (hs : s.state = 4) (hk : s.es_argc ≤ 15) (hd : allDigits ds) :
    ∃ (argc1 : Nat) (argv1 : Nat → Int),
      ParseLoop wc s (59 :: ds) = { s with es_argc := argc1, es_argv := argv1 } ∧
      argc1 ≤ 15 ∧
      (List.range (argc1 + 1)).map argv1 =
        pushArg ((List.range (s.es_argc + 1)).map s.es_argv) (accum 0 ds) ∧
      (∀ j, 16 ≤ j → argv1 j = s.es_argv j) := by
  by_cases hlt : s.es_argc < 15
  · refine ⟨s.es_argc + 1, store s.es_argv (s.es_argc + 1) (accum 0 ds),
      ParseLoop_nextArg wc s ds hs hlt hd, by omega, ?_, ?_⟩
    · rw [map_range_store_any]
      have : s.es_argc + 1 < MAX_ARG := by simp [MAX_ARG]; omega
      simp [pushArg, this]
    · intro j hj
      have : j ≠ s.es_argc + 1 := by omega
      simp [store, this]
  · have heq : s.es_argc = 15 := by omega
    refine ⟨s.es_argc, store s.es_argv 15 (accum 0 ds), ?_, hk, ?_, ?_⟩
    · rw [ParseLoop_nextArg_cap wc s ds hs heq hd]
    · rw [heq, map_range_store_any]
      have : ¬ ((List.range (15 + 1)).map s.es_argv).length < MAX_ARG := by
        simp [MAX_ARG]
      simp only [pushArg, this, if_false, MAX_ARG]
      rw [← List.map_take, List.take_range]
      rfl
    · intro j hj
      have : j ≠ 15 := by omega
      simp [store, this]

/-- Reading further arguments in state 4. -/
theorem slots_moreArgs (wc : WriteEffect) (rest : List (List Nat)) :
    ∀ s : ANSI, s.state = 4 → s.es_argc ≤ 15 → (∀ a ∈ rest, allDigits a) →
      ∃ (argc1 : Nat) (argv1 : Nat → Int),
        ParseLoop wc s (moreArgs rest) = { s with es_argc := argc1, es_argv := argv1 } ∧
        argc1 ≤ 15 ∧
        (List.range (argc1 + 1)).map argv1 =
          (rest.map (accum 0)).foldl pushArg ((List.range (s.es_argc + 1)).map s.es_argv) ∧
        (∀ j, 16 ≤ j → argv1 j = s.es_argv j) := by
  induction rest with
  | nil =>
    intro s _ hk _
    exact ⟨s.es_argc, s.es_argv, by simp [moreArgs, ParseLoop_nil], hk, by simp, fun _ _ => rfl⟩
  | cons a rest ih =>
    intro s hs hk hd
    obtain ⟨c1, v1, e1, hc1, hl1, hf1⟩ := slots_nextArg wc s a hs hk (hd a (by simp))
    obtain ⟨c2, v2, e2, hc2, hl2, hf2⟩ :=
      ih { s with es_argc := c1, es_argv := v1 } (by simpa using hs) (by simpa using hc1)
        (fun b hb => hd b (by simp [hb]))
    refine ⟨c2, v2, ?_, hc2, ?_, ?_⟩
    · have : moreArgs (a :: rest) = (59 :: a) ++ moreArgs rest := by simp [moreArgs]
      rw [this, ParseLoop_append, e1, e2]
    · rw [hl2]
      simp only [List.map_cons, List.foldl_cons]
      rw [← hl1]
    · intro j hj
      rw [hf2 j hj]
      exact hf1 j hj

theorem intercalate_cons (a : List Nat) (rest : List (List Nat)) :
    List.intercalate [59] (a :: rest) = a ++ moreArgs rest := by
  induction rest generalizing a with
  | nil => simp [List.intercalate, moreArgs]
  | cons b rest ih =>
    have h := ih b
    simp only [List.intercalate, moreArgs] at h ⊢
    simp only [List.intersperse_cons_cons, List.flatten_cons, List.map_cons, h]
    simp

theorem expectedArgs_length (l : List Int) : (expectedArgs l).length = min l.length 16 := by
  unfold expectedArgs
  simp only [MAX_ARG]
  split_ifs with h
  · omega
  · simp only [List.length_append, List.length_take, List.length_drop]; omega

/-- A whole control sequence `ESC [ args fin` with at least one argument,
read in state 1 with an empty print buffer: `InterpretEscSeq` is called with
the suffix `fin`, the count `min k 16` and the argument slots `argv1`. -/
theorem ParseLoop_CSI_args (wc : WriteEffect) (s : ANSI) (args : List (List Nat)) (fin : Nat)
    (hs : s.state = 1) (hbuf : s.nCharInBuffer = 0)
    (hne : args ≠ []) (hone : args ≠ [[]]) (hd : ∀ a ∈ args, allDigits a)
    (hfin : isdigit fin = false) (hfin2 : fin ≠ 59) :
    ∃ argv1 : Nat → Int,
      ParseLoop wc s (CSI args fin) =
        { InterpretEscSeq { s with state := 4, es_argc := min args.length 16, es_argv := argv1,
                                   suffix := fin } with state := 1 } ∧
      (List.range (min args.length 16)).map argv1 = expectedArgs (args.map (accum 0)) ∧
      (∀ j, 16 ≤ j → argv1 j = s.es_argv j) := by
  obtain ⟨a0, rest, rfl⟩ := List.exists_cons_of_ne_nil hne
  have hcsi : CSI (a0 :: rest) fin = [ESC, 91] ++ (a0 ++ (moreArgs rest ++ [fin])) := by
    simp [CSI, intercalate_cons]
  -- the state and slot list once the first argument (and, when it is empty, the second)
  -- has been read
  have hfirst : ∃ (S1 : ANSI) (tail : List (List Nat)),
      ParseLoop wc s (CSI (a0 :: rest) fin) = ParseLoop wc S1 (moreArgs tail ++ [fin]) ∧
      S1.state = 4 ∧ S1.es_argc ≤ 15 ∧ (∀ a ∈ tail, allDigits a) ∧
      (∃ c v, S1 = { s with state := 4, es_argc := c, es_argv := v }) ∧
      (tail.map (accum 0)).foldl pushArg ((List.range (S1.es_argc + 1)).map S1.es_argv)
        = expectedArgs ((a0 :: rest).map (accum 0)) ∧
      (∀ j, 16 ≤ j → S1.es_argv j = s.es_argv j) := by
    cases a0 with
    | cons d ds =>
      refine ⟨{ s with es_argc := 0, es_argv := store s.es_argv 0 (accum 0 (d :: ds)),
                       state := 4 }, rest, ?_, rfl, by simp, fun a ha => hd a (by simp [ha]),
        ⟨_, _, rfl⟩, ?_, ?_⟩
      · rw [hcsi, ParseLoop_append, ParseLoop_CSI wc s hs, FlushBuffer_empty wc s hbuf,
          ParseLoop_append, ParseLoop_firstArg wc _ d ds (by simp) (hd _ (by simp))]
      · simp only [List.map_cons]
        rw [← foldl_pushArg]
        simp [store, show List.range 1 = [0] from rfl]
      · intro j hj
        have : j ≠ 0 := by omega
        simp [store, this]
    | nil =>
      cases rest with
      | nil => exact absurd rfl hone
      | cons a1 rest1 =>
        refine ⟨{ s with es_argc := 1, es_argv := store (store s.es_argv 0 0) 1 (accum 0 a1),
                         state := 4 }, rest1, ?_, rfl, by simp,
          fun a ha => hd a (by simp [ha]), ⟨_, _, rfl⟩, ?_, ?_⟩
        · have h2 : CSI ([] :: a1 :: rest1) fin
              = [ESC, 91] ++ ((59 :: a1) ++ (moreArgs rest1 ++ [fin])) := by
            simp [CSI, intercalate_cons, moreArgs]
          rw [h2, ParseLoop_append, ParseLoop_CSI wc s hs, FlushBuffer_empty wc s hbuf,
            ParseLoop_append, ParseLoop_emptyFirstArg wc _ a1 (by simp) (hd _ (by simp))]
        · simp only [List.map_cons]
          rw [← foldl_pushArg]
          simp [store, show List.range 2 = [0, 1] from rfl, pushArg, MAX_ARG, accum]
        · intro j hj
          have h0 : j ≠ 0 := by omega
          have h1 : j ≠ 1 := by omega
          simp [store, h0, h1]
  obtain ⟨S1, tail, hparse, hst, hc, hdt, ⟨c0, v0, hS1⟩, hfold, hframe⟩ := hfirst
  obtain ⟨argc1, argv1, e1, _, hl1, hf1⟩ := slots_moreArgs wc tail S1 hst hc hdt
  have hcount : argc1 + 1 = min (a0 :: rest).length 16 := by
    have h := congrArg List.length hl1
    rw [hfold, expectedArgs_length] at h
    simpa using h
  refine ⟨argv1, ?_, ?_, ?_⟩
  · rw [hparse, ParseLoop_append, e1, ParseLoop_cons, ParseLoop_nil,
      ParseChar_final wc _ fin (by simpa using hst) hfin hfin2, hS1]
    simp only [hcount]
  · rw [← hcount, hl1, hfold]
  · intro j hj
    rw [hf1 j hj, hframe j hj]

/-! ## What `InterpretEscSeq` and the loop leave alone -/

theorem Frame_refl (s : ANSI) : Frame s s := ⟨rfl, rfl, rfl, rfl, rfl, fun _ _ => rfl⟩

theorem Frame_scp {s r : ANSI} (p : COORD) (h : Frame s r) :
    Frame s (SetConsoleCursorPosition r p) := h

theorem Frame_fill {s r : ANSI} (a l : Nat) (p : COORD) (h : Frame s r) :
    Frame s (FillConsoleOutput r a l p) := h

theorem Frame_scroll {s r : ANSI} (R : SMALL_RECT) (p : COORD) (a : Nat) (h : Frame s r) :
    Frame s (ScrollConsoleScreenBuffer r R p a) := h

theorem Frame_attr {s r : ANSI} (a : Nat) (h : Frame s r) :
    Frame s (SetConsoleTextAttribute r a) := h

theorem Frame_store0 {s r : ANSI} (v : Int) (h : Frame s r) :
    Frame s { r with es_argv := store r.es_argv 0 v } := by
  obtain ⟨h1, h2, h3, h4, h5, h6⟩ := h
  refine ⟨h1, h2, h3, h4, h5, ?_⟩
  intro j hj
  have h0 : j ≠ 0 := by omega
  simpa [store, h0] using h6 j hj

theorem Frame_default {s r : ANSI} (d : Int) (h : Frame s r) : Frame s (defaultArg r d) := by
  unfold defaultArg
  split_ifs with h0
  · obtain ⟨h1, h2, h3, h4, h5, h6⟩ := h
    refine ⟨h1, h2, h3, h4, h5, ?_⟩
    intro j hj
    have hj0 : j ≠ r.es_argc := by omega
    simpa [store, hj0] using h6 j hj
  · exact h

theorem Frame_second {s r : ANSI} (h : Frame s r) :
    Frame s (if r.es_argc = 1 then
               { r with es_argv := store r.es_argv r.es_argc 1, es_argc := r.es_argc + 1 }
             else r) := by
  split_ifs with h0
  · obtain ⟨h1, h2, h3, h4, h5, h6⟩ := h
    refine ⟨h1, h2, h3, h4, h5, ?_⟩
    intro j hj
    have hj0 : j ≠ r.es_argc := by omega
    simpa [store, hj0] using h6 j hj
  · exact h

theorem Frame_second1 {s r : ANSI} (h : Frame s r) (h0 : r.es_argc = 1) :
    Frame s { r with es_argv := store r.es_argv r.es_argc 1, es_argc := r.es_argc + 1 } := by
  obtain ⟨h1, h2, h3, h4, h5, h6⟩ := h
  refine ⟨h1, h2, h3, h4, h5, ?_⟩
  intro j hj
  have hj0 : j ≠ r.es_argc := by omega
  simpa [store, hj0] using h6 j hj

theorem Frame_savepos {s r : ANSI} (p : COORD) (h : Frame s r) :
    Frame s { r with SavePos := p } := h

theorem Frame_SGRArg {s r : ANSI} (v : Int) (h : Frame s r) : Frame s (SGRArg r v) := by
  have h1 : Frame s (SGRSwitch r v) := by
    unfold SGRSwitch
    split_ifs <;> exact h
  unfold SGRArg
  simp only
  split_ifs <;> exact h1

theorem Frame_SGRfold (s : ANSI) (l : List Nat) :
    ∀ r : ANSI, Frame s r → Frame s (l.foldl (fun st i => SGRArg st (st.es_argv i)) r) := by
  induction l with
  | nil => intro r h; exact h
  | cons i l ih => intro r h; exact ih _ (Frame_SGRArg _ h)

theorem SGRArg_trace (s : ANSI) (v : Int) : (SGRArg s v).trace = s.trace := by
  have h1 : (SGRSwitch s v).trace = s.trace := by
    unfold SGRSwitch
    split_ifs <;> rfl
  unfold SGRArg
  simp only
  split_ifs <;> exact h1

theorem SGRfold_frame_trace (l : List Nat) :
    ∀ s : ANSI, (l.foldl (fun st i => SGRArg st (st.es_argv i)) s).trace = s.trace := by
  induction l with
  | nil => intro s; rfl
  | cons i l ih => intro s; rw [List.foldl_cons, ih, SGRArg_trace]

set_option maxHeartbeats 4000000 in
theorem InterpretEscSeq_frame (s : ANSI) : Frame s (InterpretEscSeq s) := by
  have hc : s.suffix = 109 ∨ s.suffix = 74 ∨ s.suffix = 75 ∨ s.suffix = 76 ∨ s.suffix = 77 ∨
      s.suffix = 80 ∨ s.suffix = 64 ∨ s.suffix = 65 ∨ s.suffix = 66 ∨ s.suffix = 67 ∨
      s.suffix = 68 ∨ s.suffix = 69 ∨ s.suffix = 70 ∨ s.suffix = 71 ∨ s.suffix = 102 ∨
      s.suffix = 72 ∨ s.suffix = 115 ∨ s.suffix = 117 ∨
      (s.suffix ≠ 109 ∧ s.suffix ≠ 74 ∧ s.suffix ≠ 75 ∧ s.suffix ≠ 76 ∧ s.suffix ≠ 77 ∧
       s.suffix ≠ 80 ∧ s.suffix ≠ 64 ∧ s.suffix ≠ 65 ∧ s.suffix ≠ 66 ∧ s.suffix ≠ 67 ∧
       s.suffix ≠ 68 ∧ s.suffix ≠ 69 ∧ s.suffix ≠ 70 ∧ s.suffix ≠ 71 ∧ s.suffix ≠ 102 ∧
       s.suffix ≠ 72 ∧ s.suffix ≠ 115 ∧ s.suffix ≠ 117) := by omega
  rcases hc with h | h | h | h | h | h | h | h | h | h | h | h | h | h | h | h | h | h | h
  all_goals simp only [InterpretEscSeq, h, if_true, if_false, Nat.reduceEqDiff, or_true, true_or, or_false, false_or, not_false_eq_true]
  all_goals try split_ifs
  all_goals
    first
      | exact Frame_refl _
      | exact Frame_default _ (Frame_refl _)
      | exact Frame_attr _ (Frame_SGRfold _ _ _ (Frame_default _ (Frame_refl _)))
      | exact Frame_scp _ (Frame_default _ (Frame_refl _))
      | exact Frame_scp _ (Frame_refl _)
      | exact Frame_savepos _ (Frame_refl _)
      | exact Frame_fill _ _ _ (Frame_default _ (Frame_refl _))
      | exact Frame_scp _ (Frame_fill _ _ _ (Frame_default _ (Frame_refl _)))
      | exact Frame_scroll _ _ _ (Frame_default _ (Frame_refl _))
      | exact Frame_scroll _ _ _ (Frame_store0 _ (Frame_default _ (Frame_refl _)))
      | exact Frame_second (Frame_default _ (Frame_refl _))
      | exact Frame_scp _ (Frame_second (Frame_default _ (Frame_refl _)))
      | exact Frame_second1 (Frame_default _ (Frame_refl _)) (by assumption)
      | exact Frame_scp _ (Frame_second1 (Frame_default _ (Frame_refl _)) (by assumption))
      | exact ⟨rfl, rfl, rfl, rfl, h.symm, fun _ _ => rfl⟩

theorem FlushBuffer_frame (wc : WriteEffect) (s : ANSI) :
    (FlushBuffer wc s).hConOut = s.hConOut ∧ (FlushBuffer wc s).state = s.state ∧
    (FlushBuffer wc s).es_argc = s.es_argc ∧ (FlushBuffer wc s).es_argv = s.es_argv := by
  unfold FlushBuffer
  split_ifs <;> exact ⟨rfl, rfl, rfl, rfl⟩

theorem PushBuffer_frame (wc : WriteEffect) (s : ANSI) (c : Nat) :
    (PushBuffer wc s c).hConOut = s.hConOut ∧ (PushBuffer wc s c).state = s.state ∧
    (PushBuffer wc s c).es_argc = s.es_argc ∧ (PushBuffer wc s c).es_argv = s.es_argv := by
  unfold PushBuffer
  simp only
  split_ifs
  · exact FlushBuffer_frame wc _
  · exact ⟨rfl, rfl, rfl, rfl⟩

theorem ParseChar_hConOut (wc : WriteEffect) (s : ANSI) (c : Nat) :
    (ParseChar wc s c).hConOut = s.hConOut := by
  unfold ParseChar
  split_ifs
  any_goals rfl
  · exact (PushBuffer_frame wc s c).1
  · exact (FlushBuffer_frame wc s).1
  · exact (InterpretEscSeq_frame _).1
  · exact (InterpretEscSeq_frame _).1

theorem ParseLoop_hConOut (wc : WriteEffect) (input : List Nat) :
    ∀ s : ANSI, (ParseLoop wc s input).hConOut = s.hConOut := by
  induction input with
  | nil => intro s; rfl
  | cons c cs ih => intro s; rw [ParseLoop_cons, ih, ParseChar_hConOut]

theorem ParseChar_state1 (wc : WriteEffect) (s : ANSI) (c : Nat) (h : s.state = 1) :
    ParseChar wc s c = if c = ESC then { s with state := 2 } else PushBuffer wc s c := by
  simp [ParseChar, h]

theorem ParseChar_state2 (wc : WriteEffect) (s : ANSI) (c : Nat) (h : s.state = 2) :
    ParseChar wc s c =
      if c = ESC then s
      else if c = 91 then { FlushBuffer wc s with state := 3 }
      else { s with state := 1 } := by
  simp [ParseChar, h]

theorem ParseChar_state3 (wc : WriteEffect) (s : ANSI) (c : Nat) (h : s.state = 3) :
    ParseChar wc s c =
      if isdigit c then
        { s with es_argc := 0, es_argv := store s.es_argv 0 ((c : Int) - 48), state := 4 }
      else if c = 59 then
        { s with es_argc := 1, es_argv := store (store s.es_argv 0 0) 1 0, state := 4 }
      else
        { InterpretEscSeq { s with es_argc := 0, suffix := c } with state := 1 } := by
  simp [ParseChar, h]

theorem ParseChar_state4 (wc : WriteEffect) (s : ANSI) (c : Nat) (h : s.state = 4) :
    ParseChar wc s c =
      if isdigit c then
        { s with es_argv := store s.es_argv s.es_argc
                              (toInt32 (10 * s.es_argv s.es_argc + ((c : Int) - 48))) }
      else if c = 59 then
        { s with es_argc := if s.es_argc < 15 then s.es_argc + 1 else s.es_argc,
                 es_argv := store s.es_argv (if s.es_argc < 15 then s.es_argc + 1 else s.es_argc) 0 }
      else
        { InterpretEscSeq { s with es_argc := s.es_argc + 1, suffix := c } with state := 1 } := by
  by_cases hlt : s.es_argc < 15 <;> simp [ParseChar, h, MAX_ARG, hlt]

theorem ParseChar_idle (wc : WriteEffect) (s : ANSI) (c : Nat)
    (h1 : s.state ≠ 1) (h2 : s.state ≠ 2) (h3 : s.state ≠ 3) (h4 : s.state ≠ 4) :
    ParseChar wc s c = s := by
  simp [ParseChar, h1, h2, h3, h4]

/-- One step of the loop keeps `es_argc` at most 15 while arguments are collected and
writes no slot of index 16 or more. -/
theorem ParseChar_slots (wc : WriteEffect) (s : ANSI) (c : Nat)
    (hinv : s.state = 4 → s.es_argc ≤ 15) :
    ((ParseChar wc s c).state = 4 → (ParseChar wc s c).es_argc ≤ 15) ∧
    (∀ j, 16 ≤ j → (ParseChar wc s c).es_argv j = s.es_argv j) := by
  by_cases h1 : s.state = 1
  · rw [ParseChar_state1 wc s c h1]
    split_ifs
    · exact ⟨fun h => by simp at h, fun _ _ => rfl⟩
    · obtain ⟨-, a2, a3, a4⟩ := PushBuffer_frame wc s c
      exact ⟨fun h => by rw [a2, h1] at h; simp at h, fun _ _ => by rw [a4]⟩
  by_cases h2 : s.state = 2
  · rw [ParseChar_state2 wc s c h2]
    split_ifs
    · exact ⟨hinv, fun _ _ => rfl⟩
    · exact ⟨fun h => by simp at h, fun _ _ => by simp [(FlushBuffer_frame wc s).2.2.2]⟩
    · exact ⟨fun h => by simp at h, fun _ _ => rfl⟩
  by_cases h3 : s.state = 3
  · rw [ParseChar_state3 wc s c h3]
    split_ifs
    · refine ⟨fun _ => by simp, fun j hj => ?_⟩
      have : j ≠ 0 := by omega
      simp [store, this]
    · refine ⟨fun _ => by simp, fun j hj => ?_⟩
      have h0 : j ≠ 0 := by omega
      have h1 : j ≠ 1 := by omega
      simp [store, h0, h1]
    · refine ⟨fun h => by simp at h, fun j hj => ?_⟩
      simpa using (InterpretEscSeq_frame { s with es_argc := 0, suffix := c }).2.2.2.2.2 j
        (by omega)
  by_cases h4 : s.state = 4
  · have hb := hinv h4
    rw [ParseChar_state4 wc s c h4]
    split_ifs with hd hc hlt
    · refine ⟨fun _ => by simpa using hb, fun j hj => ?_⟩
      have h0 : j ≠ s.es_argc := by omega
      simp [store, h0]
    · refine ⟨fun _ => by simp only; omega, fun j hj => ?_⟩
      have h0 : j ≠ s.es_argc + 1 := by omega
      simp [store, h0]
    · refine ⟨fun _ => by simp only; omega, fun j hj => ?_⟩
      have h0 : j ≠ s.es_argc := by omega
      simp [store, h0]
    · refine ⟨fun h => by simp at h, fun j hj => ?_⟩
      simpa using (InterpretEscSeq_frame { s with es_argc := s.es_argc + 1, suffix := c }).2.2.2.2.2 j
        (by omega)
  · rw [ParseChar_idle wc s c h1 h2 h3 h4]
    exact ⟨hinv, fun _ _ => rfl⟩

theorem ParseLoop_slots (wc : WriteEffect) (input : List Nat) :
    ∀ s : ANSI, (s.state = 4 → s.es_argc ≤ 15) →
      ((ParseLoop wc s input).state = 4 → (ParseLoop wc s input).es_argc ≤ 15) ∧
      (∀ j, 16 ≤ j → (ParseLoop wc s input).es_argv j = s.es_argv j) := by
  induction input with
  | nil => intro s h; exact ⟨h, fun _ _ => rfl⟩
  | cons c cs ih =>
    intro s h
    rw [ParseLoop_cons]
    obtain ⟨a1, a2⟩ := ParseChar_slots wc s c h
    obtain ⟨b1, b2⟩ := ih _ a1
    exact ⟨b1, fun j hj => (b2 j hj).trans (a2 j hj)⟩

/-! ## C17: the argument list -/

theorem FlushBuffer_nCharInBuffer (wc : WriteEffect) (s : ANSI) :
    (FlushBuffer wc s).nCharInBuffer = 0 := by
  unfold FlushBuffer
  split_ifs with h
  · omega
  · rfl

theorem FlushBuffer_idem (wc : WriteEffect) (s : ANSI) :
    FlushBuffer wc (FlushBuffer wc s) = FlushBuffer wc s :=
  FlushBuffer_empty wc _ (FlushBuffer_nCharInBuffer wc s)

/-- A control sequence starts by flushing the print buffer. -/
theorem ParseLoop_CSI_flush (wc : WriteEffect) (s : ANSI) (args : List (List Nat)) (fin : Nat)
    (hs : s.state = 1) :
    ParseLoop wc s (CSI args fin) = ParseLoop wc (FlushBuffer wc s) (CSI args fin) := by
  have e : CSI args fin = [ESC, 91] ++ (List.intercalate [59] args ++ [fin]) := rfl
  have hs2 : (FlushBuffer wc s).state = 1 := by rw [(FlushBuffer_frame wc s).2.1, hs]
  rw [e, ParseLoop_append wc s, ParseLoop_append wc (FlushBuffer wc s), ParseLoop_CSI wc s hs,
    ParseLoop_CSI wc _ hs2, FlushBuffer_idem]

/-- C17: an escape sequence with k ≥ 1 arguments separated by `;` hands to
`InterpretEscSeq` an argument list of min(k, 16) values: the k argument values in order
when k ≤ 16, the first 15 followed by the last one when k > 16 (`expectedArgs`).  And
from a state where `es_argc` is at most 15 while arguments are collected, the loop keeps
it so and never changes a slot `es_argv[j]` with j ≥ 16, whatever the input. -/
theorem C17_argument_list (wc : WriteEffect) (s : ANSI) (args : List (List Nat)) (fin : Nat)
    (hs : s.state = 1) (hne : args ≠ []) (hone : args ≠ [[]])
    (hd : ∀ a ∈ args, allDigits a) (hfin : isdigit fin = false) (hfin2 : fin ≠ 59) :
    (∃ argv1 : Nat → Int,
      ParseLoop wc s (CSI args fin) =
        { InterpretEscSeq { FlushBuffer wc s with
                              state := 4, es_argc := min args.length 16, es_argv := argv1,
                              suffix := fin } with state := 1 } ∧
      handedArgs { FlushBuffer wc s with
                     state := 4, es_argc := min args.length 16, es_argv := argv1,
                     suffix := fin } = expectedArgs (args.map (accum 0)) ∧
      (expectedArgs (args.map (accum 0))).length = min args.length 16) ∧
    (∀ (s0 : ANSI) (input : List Nat), (s0.state = 4 → s0.es_argc ≤ 15) →
      ((ParseLoop wc s0 input).state = 4 → (ParseLoop wc s0 input).es_argc ≤ 15) ∧
      ∀ j, 16 ≤ j → (ParseLoop wc s0 input).es_argv j = s0.es_argv j) := by
  refine ⟨?_, fun s0 input h0 => ParseLoop_slots wc input s0 h0⟩
  have hs2 : (FlushBuffer wc s).state = 1 := by rw [(FlushBuffer_frame wc s).2.1, hs]
  obtain ⟨argv1, e1, e2, -⟩ := ParseLoop_CSI_args wc (FlushBuffer wc s) args fin hs2
    (FlushBuffer_nCharInBuffer wc s) hne hone hd hfin hfin2
  refine ⟨argv1, ?_, ?_, ?_⟩
  · rw [ParseLoop_CSI_flush wc s args fin hs, e1]
  · exact e2
  · rw [expectedArgs_length]; simp

/-- Witness of C17: seventeen arguments 1, ..., 9, 0, ..., 7 before `m` hand over sixteen
values, the first fifteen and the last. -/
theorem C17_argument_list_witness :
    ∃ argv1 : Nat → Int,
      ParseLoop quietConsole (sample 80 25 0 0 7) (CSI seventeenArgs 109) =
        { InterpretEscSeq { FlushBuffer quietConsole (sample 80 25 0 0 7) with
                              state := 4, es_argc := 16, es_argv := argv1, suffix := 109 }
          with state := 1 } ∧
      handedArgs { FlushBuffer quietConsole (sample 80 25 0 0 7) with
                     state := 4, es_argc := 16, es_argv := argv1, suffix := 109 }
        = [1, 2, 3, 4, 5, 6, 7, 8, 9, 0, 1, 2, 3, 4, 5, 7] := by
  obtain ⟨argv1, e1, e2, -⟩ :=
    (C17_argument_list quietConsole (sample 80 25 0 0 7) seventeenArgs 109 rfl (by decide)
      (by decide) (by decide) (by decide) (by decide)).1
  exact ⟨argv1, e1, e2.trans (by decide)⟩

/-! ## C11: malformed sequences -/

theorem InterpretEscSeq_unsupported (S : ANSI) (h : S.suffix ∉ supported) :
    InterpretEscSeq S = S := by
  simp only [supported, List.mem_cons, List.mem_singleton, not_or, List.mem_nil_iff,
    or_false] at h
  obtain ⟨h1, h2, h3, h4, h5, h6, h7, h8, h9, h10, h11, h12, h13, h14, h15, h16, h17, h18⟩ := h
  simp [InterpretEscSeq, h1, h2, h3, h4, h5, h6, h7, h8, h9, h10, h11, h12, h13, h14, h15,
    h16, h17, h18]

theorem InterpretEscSeq_wrongCount (S : ANSI) (h : wrongCount S.es_argc S.suffix) :
    InterpretEscSeq S = S := by
  rcases h with ⟨hX, hk⟩ | ⟨hX, hk⟩ | ⟨hX, hk⟩
  · have h0 : S.es_argc ≠ 0 := by omega
    have h1 : S.es_argc ≠ 1 := by omega
    simp only [List.mem_cons, List.mem_singleton, List.mem_nil_iff, or_false] at hX
    rcases hX with hX | hX | hX | hX | hX | hX | hX | hX | hX | hX | hX | hX | hX <;>
      simp [InterpretEscSeq, hX, defaultArg, h0, h1]
  · have h0 : S.es_argc ≠ 0 := by omega
    have h1 : S.es_argc ≠ 1 := by omega
    have h2 : 2 < S.es_argc := by omega
    simp only [List.mem_cons, List.mem_singleton, List.mem_nil_iff, or_false] at hX
    rcases hX with hX | hX <;> simp [InterpretEscSeq, hX, defaultArg, h0, h1, h2]
  · have h0 : S.es_argc ≠ 0 := by omega
    simp only [List.mem_cons, List.mem_singleton, List.mem_nil_iff, or_false] at hX
    rcases hX with hX | hX <;> simp [InterpretEscSeq, hX, h0]

theorem InterpretEscSeq_badErase (S : ANSI) (hX : S.suffix = 74 ∨ S.suffix = 75)
    (hargc : S.es_argc = 1) (h0 : S.es_argv 0 ≠ 0) (h1 : S.es_argv 0 ≠ 1)
    (h2 : S.es_argv 0 ≠ 2) : InterpretEscSeq S = S := by
  rcases hX with hX | hX <;> simp [InterpretEscSeq, hX, defaultArg, hargc, h0, h1, h2]

theorem sameButArgs_refl (s : ANSI) : sameButArgs s s := rfl

theorem PushBuffer_args (wc : WriteEffect) (s : ANSI) (c a x : Nat) (v : Nat → Int) :
    PushBuffer wc { s with es_argc := a, es_argv := v, suffix := x } c =
      { PushBuffer wc s c with es_argc := a, es_argv := v, suffix := x } := by
  unfold PushBuffer FlushBuffer WriteConsole
  simp only
  split_ifs <;> rfl

/-- Literal text is read the same way whatever the argument variables hold. -/
theorem ParseLoop_literal_args (wc : WriteEffect) (t : List Nat) :
    ∀ s r : ANSI, s.state = 1 → sameButArgs s r → ESC ∉ t →
      sameButArgs (ParseLoop wc s t) (ParseLoop wc r t) ∧ (ParseLoop wc r t).state = 1 := by
  induction t with
  | nil =>
    intro s r hs h _
    refine ⟨h, ?_⟩
    rw [ParseLoop_nil, h]
    exact hs
  | cons c cs ih =>
    intro s r hs h hesc
    have hc : c ≠ ESC := fun e => hesc (by simp [e])
    have hcs : ESC ∉ cs := fun e => hesc (by simp [e])
    have hr : r.state = 1 := by rw [h]; exact hs
    rw [ParseLoop_cons, ParseLoop_cons, ParseChar_state1 wc s c hs, ParseChar_state1 wc r c hr,
      if_neg hc, if_neg hc]
    refine ih _ _ ?_ ?_ hcs
    · rw [(PushBuffer_frame wc s c).2.1, hs]
    · unfold sameButArgs
      have e := PushBuffer_args wc s c r.es_argc r.suffix r.es_argv
      rw [← h] at e
      rw [e]

/-- Every control sequence read in state 1 ends in a call of `InterpretEscSeq` on the
flushed state with the argument variables set, and goes back to state 1. -/
theorem ParseLoop_CSI_any (wc : WriteEffect) (s : ANSI) (args : List (List Nat)) (fin : Nat)
    (hs : s.state = 1) (hd : ∀ a ∈ args, allDigits a)
    (hfin : isdigit fin = false) (hfin2 : fin ≠ 59) :
    ∃ S : ANSI,
      ParseLoop wc s (CSI args fin) = { InterpretEscSeq S with state := 1 } ∧
      sameButArgs (FlushBuffer wc s) { S with state := 1 } ∧
      S.suffix = fin ∧ S.es_argc = min (argCount args) 16 ∧
      (∀ v, v ≠ [] → args = [v] → S.es_argv 0 = accum 0 v) := by
  have hs2 : (FlushBuffer wc s).state = 1 := by rw [(FlushBuffer_frame wc s).2.1, hs]
  have hb2 := FlushBuffer_nCharInBuffer wc s
  have hsame : ∀ (st : Int) (a x : Nat) (v : Nat → Int),
      sameButArgs (FlushBuffer wc s)
        { ({ FlushBuffer wc s with state := st, es_argc := a, es_argv := v, suffix := x } : ANSI)
          with state := 1 } := by
    intro st a x v
    unfold sameButArgs
    simp only
    rw [← hs2]
  by_cases h0 : args = [] ∨ args = [[]]
  · have e : CSI args fin = CSI [] fin := by rcases h0 with rfl | rfl <;> rfl
    have ec : argCount args = 0 := by rcases h0 with rfl | rfl <;> rfl
    refine ⟨{ FlushBuffer wc s with state := 3, es_argc := 0, suffix := fin }, ?_, ?_, rfl,
      by simp [ec], ?_⟩
    · rw [ParseLoop_CSI_flush wc s args fin hs, e, ParseLoop_seq0 wc _ fin hs2 hb2 hfin hfin2]
    · exact hsame 3 0 fin _
    · intro v hne hv
      rcases h0 with h | h
      · rw [h] at hv; cases hv
      · rw [h] at hv
        cases hv
        exact absurd rfl hne
  · push_neg at h0
    obtain ⟨argv1, e1, e2, -⟩ := ParseLoop_CSI_args wc (FlushBuffer wc s) args fin hs2 hb2
      h0.1 h0.2 hd hfin hfin2
    have ec : argCount args = args.length := by simp [argCount, h0.2]
    refine ⟨{ FlushBuffer wc s with state := 4, es_argc := min args.length 16, es_argv := argv1,
                                    suffix := fin }, ?_, ?_, rfl, by simp [ec], ?_⟩
    · rw [ParseLoop_CSI_flush wc s args fin hs, e1]
    · exact hsame 4 _ fin _
    · intro v _ hv
      subst hv
      simpa [expectedArgs, MAX_ARG, show List.range 1 = [0] from rfl] using e2

theorem sameButArgs_fields (a b : ANSI) (h : sameButArgs a b) :
    b.con = a.con ∧ b.trace = a.trace ∧ attrState b = attrState a ∧ b.SavePos = a.SavePos ∧
    pending b = pending a ∧ b.state = a.state ∧ b.hConOut = a.hConOut := by
  unfold sameButArgs at h
  rw [h]
  exact ⟨rfl, rfl, rfl, rfl, rfl, rfl, rfl⟩

/-- C11: read in state 1 (Literal) and followed by any text `t` without ESC, each of these
is absorbed: (a) ESC and a unit `X` that is neither ESC nor `[` leaves exactly the state
that `t` alone gives; (b), (c) `ESC [ args X` where `X` has no `case` in `InterpretEscSeq`,
or has one and gets too many arguments (`wrongCount`), or is `J` or `K` with one argument
whose value is not 0, 1 or 2, leaves the state that `t` alone gives after the pending
print buffer has been flushed, apart from `es_argc`, `es_argv` and `suffix`; the automaton
is in state 1 at the end.  States that differ only so have the same console information,
the same console calls, the same attribute globals, saved position and pending text. -/
theorem C11_malformed_absorbed (wc : WriteEffect) (s : ANSI) (t : List Nat)
    (hs : s.state = 1) (ht : ESC ∉ t) :
    (∀ X, X ≠ ESC → X ≠ 91 →
      ParseLoop wc s (ESC :: X :: t) = ParseLoop wc s t ∧
      (ParseLoop wc s (ESC :: X :: t)).state = 1) ∧
    (∀ (args : List (List Nat)) (X : Nat),
      (∀ a ∈ args, allDigits a) → isdigit X = false → X ≠ 59 →
      (X ∉ supported ∨ wrongCount (argCount args) X ∨
        ((X = 74 ∨ X = 75) ∧
          ∃ v, v ≠ [] ∧ args = [v] ∧ accum 0 v ≠ 0 ∧ accum 0 v ≠ 1 ∧ accum 0 v ≠ 2)) →
      sameButArgs (ParseLoop wc (FlushBuffer wc s) t) (ParseLoop wc s (CSI args X ++ t)) ∧
      (ParseLoop wc s (CSI args X ++ t)).state = 1) ∧
    (∀ a b : ANSI, sameButArgs a b →
      b.con = a.con ∧ b.trace = a.trace ∧ attrState b = attrState a ∧ b.SavePos = a.SavePos ∧
      pending b = pending a) := by
  refine ⟨?_, ?_, ?_⟩
  · intro X h1 h2
    have e : ParseLoop wc s (ESC :: X :: t) = ParseLoop wc s t := by
      rw [ParseLoop_cons, ParseLoop_cons, ParseChar_state1 wc s ESC hs, if_pos rfl,
        ParseChar_state2 wc _ X rfl, if_neg h1, if_neg h2]
      have : ({ ({ s with state := 2 } : ANSI) with state := 1 } : ANSI) = s := by
        rw [← hs]
      rw [this]
    refine ⟨e, ?_⟩
    rw [e]
    exact (ParseLoop_literal_args wc t s s hs (sameButArgs_refl s) ht).2
  · intro args X hd hfin hfin2 hbad
    obtain ⟨S, e1, e2, e3, e4, e5⟩ := ParseLoop_CSI_any wc s args X hs hd hfin hfin2
    have hno : InterpretEscSeq S = S := by
      rcases hbad with h | h | ⟨hX, v, hv, hargs, h0, h1, h2⟩
      · exact InterpretEscSeq_unsupported S (by rw [e3]; exact h)
      · apply InterpretEscSeq_wrongCount
        rw [e3, e4]
        rcases h with ⟨a, b⟩ | ⟨a, b⟩ | ⟨a, b⟩
        · exact Or.inl ⟨a, by omega⟩
        · exact Or.inr (Or.inl ⟨a, by omega⟩)
        · exact Or.inr (Or.inr ⟨a, by omega⟩)
      · have hv0 := e5 v hv hargs
        have hc : S.es_argc = 1 := by
          rw [e4, hargs]
          simp [argCount, hv]
        exact InterpretEscSeq_badErase S (by rw [e3]; exact hX) hc (by rw [hv0]; exact h0)
          (by rw [hv0]; exact h1) (by rw [hv0]; exact h2)
    have hs2 : (FlushBuffer wc s).state = 1 := by rw [(FlushBuffer_frame wc s).2.1, hs]
    rw [ParseLoop_append, e1, hno]
    exact ParseLoop_literal_args wc t _ _ hs2 e2 ht
  · intro a b h
    obtain ⟨h1, h2, h3, h4, h5, -, -⟩ := sameButArgs_fields a b h
    exact ⟨h1, h2, h3, h4, h5⟩

/-- Witness of C11: `ESC c`, `ESC [ 1 ; 2 A`, `ESC [ 7 y` and `ESC [ 3 J`, each followed by
the text `AB`, on an 80x25 buffer. -/
theorem C11_malformed_absorbed_witness :
    ParseLoop quietConsole (sample 80 25 3 7 7) (ESC :: 99 :: [65, 66]) =
      ParseLoop quietConsole (sample 80 25 3 7 7) [65, 66] ∧
    sameButArgs (ParseLoop quietConsole (FlushBuffer quietConsole (sample 80 25 3 7 7)) [65, 66])
      (ParseLoop quietConsole (sample 80 25 3 7 7) (CSI [[49], [50]] 65 ++ [65, 66])) ∧
    sameButArgs (ParseLoop quietConsole (FlushBuffer quietConsole (sample 80 25 3 7 7)) [65, 66])
      (ParseLoop quietConsole (sample 80 25 3 7 7) (CSI [[55]] 121 ++ [65, 66])) ∧
    sameButArgs (ParseLoop quietConsole (FlushBuffer quietConsole (sample 80 25 3 7 7)) [65, 66])
      (ParseLoop quietConsole (sample 80 25 3 7 7) (CSI [[51]] 74 ++ [65, 66])) :=
  have h := C11_malformed_absorbed quietConsole (sample 80 25 3 7 7) [65, 66] rfl (by decide)
  ⟨(h.1 99 (by decide) (by decide)).1,
   (h.2.1 [[49], [50]] 65 (by decide) (by decide) (by decide) (Or.inr (Or.inl (by decide)))).1,
   (h.2.1 [[55]] 121 (by decide) (by decide) (by decide) (Or.inl (by decide))).1,
   (h.2.1 [[51]] 74 (by decide) (by decide) (by decide)
     (Or.inr (Or.inr ⟨Or.inl rfl, [51], by decide, rfl, by decide, by decide, by decide⟩))).1⟩

/-! ## C13: the device check -/

/-- C13: a call of `ParseAndPrintString` with a handle other than the recorded `hConOut`
gives, whatever the state of the automaton was, exactly what the call gives from the same
globals with the handle recorded and the automaton in state 1, and leaves the new handle
recorded; a call with the recorded handle runs the loop from the globals as they are, so
a second call with the same handle starts in the state in which the loop of the first call
ended. -/
theorem C13_device_check (wc : WriteEffect) (s : ANSI) (hDev : Nat) (input next : List Nat) :
    (hDev ≠ s.hConOut →
      ParseAndPrintString wc s hDev input =
        ParseAndPrintString wc { s with hConOut := hDev, state := 1 } hDev input) ∧
    (hDev = s.hConOut →
      (ParseAndPrintString wc s hDev input).1 = FlushBuffer wc (ParseLoop wc s input)) ∧
    (ParseAndPrintString wc s hDev input).1.hConOut = hDev ∧
    (ParseAndPrintString wc (ParseAndPrintString wc s hDev input).1 hDev next).1 =
      FlushBuffer wc (ParseLoop wc (ParseAndPrintString wc s hDev input).1 next) ∧
    (ParseAndPrintString wc s hDev input).1.state =
      (ParseLoop wc (if hDev ≠ s.hConOut then { s with hConOut := hDev, state := 1 } else s)
        input).state := by
  have hrec : (ParseAndPrintString wc s hDev input).1.hConOut = hDev := by
    simp only [ParseAndPrintString]
    rw [(FlushBuffer_frame wc _).1, ParseLoop_hConOut]
    split_ifs with h
    · rfl
    · exact (not_not.mp h).symm
  refine ⟨?_, ?_, hrec, ?_, ?_⟩
  · intro h
    simp [ParseAndPrintString, h]
  · intro h
    simp [ParseAndPrintString, h]
  · simp only [ParseAndPrintString]
    rw [if_neg]
    simp only [ParseAndPrintString] at hrec
    rw [hrec]
    simp
  · simp only [ParseAndPrintString]
    exact (FlushBuffer_frame wc _).2.1

/-- Witness of C13: `ESC [ 3` written to handle 1 leaves the automaton collecting an
argument (state 4); `1mA` then written to handle 2 is printed as text and handle 2 is
recorded, while written to handle 1 again it completes `ESC [ 31 m`. -/
theorem C13_device_check_witness :
    (ParseAndPrintString quietConsole (sample 80 25 0 0 7) 1 [ESC, 91, 51]).1.state = 4 ∧
    (ParseAndPrintString quietConsole
      (ParseAndPrintString quietConsole (sample 80 25 0 0 7) 1 [ESC, 91, 51]).1 2
      [49, 109, 65]).1.trace = [ConOp.WriteConsole [49, 109, 65]] ∧
    (ParseAndPrintString quietConsole
      (ParseAndPrintString quietConsole (sample 80 25 0 0 7) 1 [ESC, 91, 51]).1 2
      [49, 109, 65]).1.hConOut = 2 ∧
    (ParseAndPrintString quietConsole
      (ParseAndPrintString quietConsole (sample 80 25 0 0 7) 1 [ESC, 91, 51]).1 1
      [49, 109, 65]).1.trace =
      [ConOp.SetConsoleTextAttribute FOREGROUND_RED, ConOp.WriteConsole [65]] := by
  have h := C13_device_check quietConsole
    (ParseAndPrintString quietConsole (sample 80 25 0 0 7) 1 [ESC, 91, 51]).1 2 [49, 109, 65] []
  refine ⟨by decide, ?_, h.2.2.1, by decide⟩
  rw [h.1 (by decide)]
  decide

/-! ## C16: the argument 0 of `m` -/

theorem SGRArg_es_argc (s : ANSI) (v : Int) : (SGRArg s v).es_argc = s.es_argc := by
  have h1 : (SGRSwitch s v).es_argc = s.es_argc := by
    unfold SGRSwitch
    split_ifs <;> rfl
  unfold SGRArg
  simp only
  split_ifs <;> simp [h1]

theorem SGRfold_es_argc (vals : List Int) :
    ∀ s : ANSI, (vals.foldl SGRArg s).es_argc = s.es_argc := by
  induction vals with
  | nil => intro s; rfl
  | cons v vs ih => intro s; rw [List.foldl_cons, ih, SGRArg_es_argc]

theorem SGRfold_values (argv : Nat → Int) (l : List Nat) :
    ∀ s : ANSI, s.es_argv = argv →
      l.foldl (fun st i => SGRArg st (st.es_argv i)) s = (l.map argv).foldl SGRArg s := by
  induction l with
  | nil => intro s _; rfl
  | cons i l ih =>
    intro s h
    simp only [List.foldl_cons, List.map_cons]
    rw [ih _ (by rw [SGRArg_es_argv, h]), h]

/-- Case `m` with at least one argument: the loop body `SGRArg` is run on the handed
values in order, then the attribute is set. -/
theorem InterpretEscSeq_SGR_fold (S : ANSI) (hsuf : S.suffix = 109) (hargc : 1 ≤ S.es_argc) :
    InterpretEscSeq S =
      SetConsoleTextAttribute ((handedArgs S).foldl SGRArg S)
        (attribut ((handedArgs S).foldl SGRArg S)) := by
  have h0 : S.es_argc ≠ 0 := by omega
  have e : InterpretEscSeq S = InterpretSGR S := by simp [InterpretEscSeq, hsuf]
  have d : defaultArg S 0 = S := by simp [defaultArg, h0]
  rw [e]
  unfold InterpretSGR
  simp only [d]
  rw [SGRfold_values S.es_argv _ S rfl]
  rfl

theorem SGRfold_org (l : List Int) :
    ∀ st : ANSI,
      (l.foldl SGRArg st).org_fg = st.org_fg ∧ (l.foldl SGRArg st).org_bg = st.org_bg ∧
      (l.foldl SGRArg st).org_bold = st.org_bold ∧ (l.foldl SGRArg st).org_ul = st.org_ul := by
  induction l with
  | nil => intro st; exact ⟨rfl, rfl, rfl, rfl⟩
  | cons v vs ih =>
    intro st
    have h1 : (SGRArg st v).org_fg = st.org_fg ∧ (SGRArg st v).org_bg = st.org_bg ∧
        (SGRArg st v).org_bold = st.org_bold ∧ (SGRArg st v).org_ul = st.org_ul := by
      have h2 : (SGRSwitch st v).org_fg = st.org_fg ∧ (SGRSwitch st v).org_bg = st.org_bg ∧
          (SGRSwitch st v).org_bold = st.org_bold ∧ (SGRSwitch st v).org_ul = st.org_ul := by
        unfold SGRSwitch
        split_ifs <;> exact ⟨rfl, rfl, rfl, rfl⟩
      unfold SGRArg
      simp only
      split_ifs <;> exact h2
    obtain ⟨a1, a2, a3, a4⟩ := ih (SGRArg st v)
    exact ⟨a1.trans h1.1, a2.trans h1.2.1, a3.trans h1.2.2.1, a4.trans h1.2.2.2⟩

theorem FlushBuffer_org (wc : WriteEffect) (s : ANSI) :
    (FlushBuffer wc s).org_fg = s.org_fg ∧ (FlushBuffer wc s).org_bg = s.org_bg ∧
    (FlushBuffer wc s).org_bold = s.org_bold ∧ (FlushBuffer wc s).org_ul = s.org_ul := by
  unfold FlushBuffer
  split_ifs <;> exact ⟨rfl, rfl, rfl, rfl⟩

/-- The argument 0 processed after the arguments `before`. -/
theorem SGRArg_zero_in_fold (S : ANSI) (before : List Int) :
    SGRArg (before.foldl SGRArg S) 0 =
      { before.foldl SGRArg S with
          foreground := S.org_fg, background := S.org_bg,
          bold := if S.es_argc = 1 then S.org_bold else 0,
          underline := if S.es_argc = 1 then S.org_ul else 0,
          rvideo := 0, concealed := 0 } := by
  obtain ⟨o1, o2, o3, o4⟩ := SGRfold_org before S
  rw [SGRArg_zero]
  simp only [o1, o2, o3, o4, SGRfold_es_argc]

/-- C16 (amended): an `m` sequence with k ≥ 1 arguments runs the loop body `SGRArg` on the
handed values in order and then sets the attribute; at whatever place of the list an
argument 0 stands, processing it sets the foreground and background indices to the
captured originals and clears `rvideo` and `concealed`, and it sets bold and underline to
0 when the sequence has two or more arguments, to their captured original values when 0
is the sole argument. -/
theorem C16_reset_argument (wc : WriteEffect) (s : ANSI) (args : List (List Nat))
    (hs : s.state = 1) (hne : args ≠ []) (hone : args ≠ [[]])
    (hd : ∀ a ∈ args, allDigits a) :
    ∃ S : ANSI,
      sameButArgs (FlushBuffer wc s) { S with state := 1 } ∧
      handedArgs S = expectedArgs (args.map (accum 0)) ∧
      ParseLoop wc s (CSI args 109) =
        { SetConsoleTextAttribute ((handedArgs S).foldl SGRArg S)
            (attribut ((handedArgs S).foldl SGRArg S)) with state := 1 } ∧
      ∀ (before after : List Int), handedArgs S = before ++ 0 :: after →
        SGRArg (before.foldl SGRArg S) 0 =
          { before.foldl SGRArg S with
              foreground := s.org_fg, background := s.org_bg,
              bold := if args.length = 1 then s.org_bold else 0,
              underline := if args.length = 1 then s.org_ul else 0,
              rvideo := 0, concealed := 0 } := by
  have hs2 : (FlushBuffer wc s).state = 1 := by rw [(FlushBuffer_frame wc s).2.1, hs]
  obtain ⟨argv1, e1, e2, -⟩ := ParseLoop_CSI_args wc (FlushBuffer wc s) args 109 hs2
    (FlushBuffer_nCharInBuffer wc s) hne hone hd (by decide) (by decide)
  have hlen : 1 ≤ args.length := by
    cases args with
    | nil => exact absurd rfl hne
    | cons a l => simp
  refine ⟨{ FlushBuffer wc s with state := 4, es_argc := min args.length 16, es_argv := argv1,
                                  suffix := 109 }, ?_, e2, ?_, ?_⟩
  · unfold sameButArgs
    simp only
    rw [← hs2]
  · rw [ParseLoop_CSI_flush wc s args 109 hs, e1,
      InterpretEscSeq_SGR_fold _ rfl (by simp only; omega)]
  · intro before after _
    obtain ⟨o1, o2, o3, o4⟩ := FlushBuffer_org wc s
    have hiff : (min args.length 16 = 1) = (args.length = 1) := by
      apply propext
      constructor <;> intro h <;> omega
    rw [SGRArg_zero_in_fold]
    simp only [o1, o2, o3, o4, hiff]

/-- Witness of C16: with bold set, `ESC [ 0 ; 31 m` processes the argument 0 with two
arguments handed over. -/
theorem C16_reset_argument_witness :
    ∃ S : ANSI,
      handedArgs S = [0, 31] ∧
      ParseLoop quietConsole { sample 80 25 0 0 7 with bold := FOREGROUND_INTENSITY }
          (CSI [[48], [51, 49]] 109) =
        { SetConsoleTextAttribute ((handedArgs S).foldl SGRArg S)
            (attribut ((handedArgs S).foldl SGRArg S)) with state := 1 } := by
  obtain ⟨S, -, h2, h3, -⟩ := C16_reset_argument quietConsole
    { sample 80 25 0 0 7 with bold := FOREGROUND_INTENSITY } [[48], [51, 49]] rfl (by decide)
    (by decide) (by decide)
  exact ⟨S, h2.trans (by decide), h3⟩

/-- Counterexample to C16 as stated: from a state with bold set, `ESC [ 0 ; 31 m` leaves
bold clear (and the applied attribute is plain red), not set. -/
theorem C16_counterexample :
    ({ sample 80 25 0 0 7 with bold := FOREGROUND_INTENSITY } : ANSI).bold = FOREGROUND_INTENSITY ∧
    (ParseAndPrintString quietConsole { sample 80 25 0 0 7 with bold := FOREGROUND_INTENSITY } 1
      (CSI [[48], [51, 49]] 109)).1.bold = 0 ∧
    (ParseAndPrintString quietConsole { sample 80 25 0 0 7 with bold := FOREGROUND_INTENSITY } 1
      (CSI [[48], [51, 49]] 109)).1.trace = [ConOp.SetConsoleTextAttribute FOREGROUND_RED] := by
  decide

/-! ## C12: the count of units written -/

/-- The count `ParseAndPrintString` stores is the length of its input, and it returns
`TRUE`. -/
theorem ParseAndPrintString_count (wc : WriteEffect) (s : ANSI) (hDev : Nat)
    (lpBuffer : List Nat) :
    (ParseAndPrintString wc s hDev lpBuffer).2 = (lpBuffer.length, true) := by
  simp [ParseAndPrintString]

/-- With processed output enabled `MyWriteConsoleW` stores the number of code units it was
given and returns `TRUE`. -/
theorem MyWriteConsoleW_count (wc : WriteEffect) (Mode : Option Nat) (s : ANSI) (hCon : Nat)
    (lpBuffer : List Nat) (hm : processedOutput Mode = true) :
    ∃ r : ANSI, MyWriteConsoleW wc Mode s hCon lpBuffer = some (r, lpBuffer.length, true) := by
  refine ⟨(ParseAndPrintString wc s hCon lpBuffer).1, ?_⟩
  simp [MyWriteConsoleW, hm, ParseAndPrintString]

/-- With processed output enabled and the wide buffer allocated, `MyWriteConsoleA` and
`MyWriteFile` store the length of the converted text. -/
theorem MyWriteConsoleA_count (wc : WriteEffect) (Mode : Option Nat)
    (conv : List Nat → List Nat) (s : ANSI) (h : Nat) (lpBuffer : List Nat)
    (hm : processedOutput Mode = true) :
    (∃ r : ANSI, MyWriteConsoleA wc Mode conv true s h lpBuffer =
      some (r, (conv lpBuffer).length, true)) ∧
    MyWriteFile wc Mode conv true s h lpBuffer = MyWriteConsoleA wc Mode conv true s h lpBuffer := by
  refine ⟨⟨(ParseAndPrintString wc s h (conv lpBuffer)).1, ?_⟩, ?_⟩
  · simp [MyWriteConsoleA, hm, ParseAndPrintString]
  · simp [MyWriteFile, hm]

/-- C12 fails on the code: with processed output enabled, the two bytes `C3 A9` (one
character in UTF-8) written through `MyWriteConsoleA` or `MyWriteFile` are converted to
one wide character, and the count stored is 1, not the 2 bytes the caller passed; the
same text written through `MyWriteConsoleW` as one code unit stores 1, the number passed.
When the wide buffer cannot be allocated, `MyWriteConsoleA` stores 0 and returns
`FALSE`. -/
theorem C12_failing_input :
    (MyWriteConsoleA quietConsole (some 3) sampleUtf8 true (sample 80 25 0 0 7) 1 [195, 169]).map
        Prod.snd = some (1, true) ∧
    (MyWriteFile quietConsole (some 3) sampleUtf8 true (sample 80 25 0 0 7) 1 [195, 169]).map
        Prod.snd = some (1, true) ∧
    (MyWriteConsoleW quietConsole (some 3) (sample 80 25 0 0 7) 1 [233]).map
        Prod.snd = some (1, true) ∧
    (MyWriteConsoleA quietConsole (some 3) sampleUtf8 false (sample 80 25 0 0 7) 1
        [195, 169]).map Prod.snd = some (0, false) := by
  decide

/-! ## C14: Erase in Display -/

theorem toDWORD_small (v : Int) (h0 : 0 ≤ v) (h1 : v < 4294967296) : toDWORD v = v.toNat := by
  unfold toDWORD
  rw [Int.emod_eq_of_lt h0 h1]

theorem erased_fill (W H : Int) (a : Nat) (s : ANSI) (len : Nat) (pos : COORD) (i : Int)
    (ht : s.trace = []) :
    erased W H a (FillConsoleOutput s a len pos).trace i = covers W H len pos i := by
  simp [FillConsoleOutput, ht, erased, setsChar, setsAttr]

/-- Case `J` with one argument, on a buffer of `W` columns and `H` rows with the cursor at
column `x`, row `y` inside it: the cells filled with a space and the current attribute
are, for the argument 0, those from the cursor cell to the last but one cell of the
buffer; for 1, those from the first cell to the cursor cell; for 2, all cells. -/
theorem erase_display_cells (s : ANSI) (i : Int)
    (hsuf : s.suffix = 74) (hargc : s.es_argc = 1) (ht : s.trace = [])
    (hW : s.con.dwSize.X ≤ 32767) (hH : s.con.dwSize.Y ≤ 32767)
    (hx : 0 ≤ s.con.dwCursorPosition.X ∧ s.con.dwCursorPosition.X < s.con.dwSize.X)
    (hy : 0 ≤ s.con.dwCursorPosition.Y ∧ s.con.dwCursorPosition.Y < s.con.dwSize.Y) :
    (s.es_argv 0 = 0 →
      (erased s.con.dwSize.X s.con.dwSize.Y s.con.wAttributes (InterpretEscSeq s).trace i = true ↔
        cellIndex s.con.dwSize.X s.con.dwCursorPosition ≤ i ∧
          i < s.con.dwSize.X * s.con.dwSize.Y - 1)) ∧
    (s.es_argv 0 = 1 →
      (erased s.con.dwSize.X s.con.dwSize.Y s.con.wAttributes (InterpretEscSeq s).trace i = true ↔
        0 ≤ i ∧ i ≤ cellIndex s.con.dwSize.X s.con.dwCursorPosition)) ∧
    (s.es_argv 0 = 2 →
      (erased s.con.dwSize.X s.con.dwSize.Y s.con.wAttributes (InterpretEscSeq s).trace i = true ↔
        0 ≤ i ∧ i < s.con.dwSize.X * s.con.dwSize.Y)) := by
  obtain ⟨hx0, hx1⟩ := hx
  obtain ⟨hy0, hy1⟩ := hy
  generalize hWd : s.con.dwSize.X = W at *
  generalize hHd : s.con.dwSize.Y = H at *
  generalize hxd : s.con.dwCursorPosition.X = x at *
  generalize hyd : s.con.dwCursorPosition.Y = y at *
  have hyW : y * W ≤ (H - 1) * W := by nlinarith
  have hyW0 : 0 ≤ y * W := by nlinarith
  have hWH : W * H ≤ 32767 * 32767 := by nlinarith
  have hHW : (H - 1) * W = W * H - W := by ring
  refine ⟨?_, ?_, ?_⟩
  · intro h0
    have e : InterpretEscSeq s =
        FillConsoleOutput s s.con.wAttributes (toDWORD ((H - y - 1) * W + W - x - 1))
          s.con.dwCursorPosition := by
      simp [InterpretEscSeq, hsuf, defaultArg, hargc, h0, hWd, hHd, hxd, hyd]
    have hv : (H - y - 1) * W + W - x - 1 = W * H - (y * W + x) - 1 := by ring
    rw [e, erased_fill _ _ _ _ _ _ _ ht, hv, toDWORD_small _ (by omega) (by omega)]
    simp only [covers, cellIndex, decide_eq_true_eq, hxd, hyd]
    have : ((W * H - (y * W + x) - 1).toNat : Int) = W * H - (y * W + x) - 1 :=
      Int.toNat_of_nonneg (by omega)
    rw [this]
    constructor <;> intro h <;> omega
  · intro h1
    have e : InterpretEscSeq s =
        FillConsoleOutput s s.con.wAttributes (toDWORD (y * W + x + 1)) { X := 0, Y := 0 } := by
      simp [InterpretEscSeq, hsuf, defaultArg, hargc, h1, hWd, hHd, hxd, hyd]
    rw [e, erased_fill _ _ _ _ _ _ _ ht, toDWORD_small _ (by omega) (by omega)]
    simp only [covers, cellIndex, decide_eq_true_eq, hxd, hyd]
    have : ((y * W + x + 1).toNat : Int) = y * W + x + 1 := Int.toNat_of_nonneg (by omega)
    rw [this]
    constructor <;> intro h <;> omega
  · intro h2
    have e : InterpretEscSeq s =
        SetConsoleCursorPosition
          (FillConsoleOutput s s.con.wAttributes (toDWORD (W * H)) { X := 0, Y := 0 })
          { X := 0, Y := 0 } := by
      simp [InterpretEscSeq, hsuf, defaultArg, hargc, h2, hWd, hHd, hxd, hyd]
    have hpos : 0 ≤ W * H := by nlinarith
    rw [e]
    simp only [SetConsoleCursorPosition, FillConsoleOutput, ht, erased, setsChar, setsAttr,
      List.nil_append, List.cons_append, List.any_cons, List.any_nil, Bool.or_false, beq_self_eq_true,
      Bool.true_and, Bool.and_self, Bool.false_or, Bool.or_self]
    rw [toDWORD_small _ hpos (by omega)]
    simp only [covers, cellIndex, decide_eq_true_eq]
    have : ((W * H).toNat : Int) = W * H := Int.toNat_of_nonneg hpos
    rw [this]
    constructor <;> intro h <;> omega

/-- C14 fails on the code: on an 80x25 buffer with the cursor at column 3, row 5, both
`ESC [ 0 J` and `ESC [ J` fill 1596 cells from the cursor cell on, while 1597 cells lie
from the cursor cell (index 403) through the last cell (index 1999): the last cell of the
buffer is not erased. -/
theorem C14_failing_input :
    (ParseAndPrintString quietConsole (sample 80 25 3 5 7) 1 (CSI [[48]] 74)).1.trace =
      [ConOp.FillConsoleOutputCharacter 32 1596 { X := 3, Y := 5 },
       ConOp.FillConsoleOutputAttribute 7 1596 { X := 3, Y := 5 }] ∧
    (ParseAndPrintString quietConsole (sample 80 25 3 5 7) 1 (CSI [] 74)).1.trace =
      (ParseAndPrintString quietConsole (sample 80 25 3 5 7) 1 (CSI [[48]] 74)).1.trace ∧
    erased 80 25 7
      (ParseAndPrintString quietConsole (sample 80 25 3 5 7) 1 (CSI [[48]] 74)).1.trace 1998
      = true ∧
    erased 80 25 7
      (ParseAndPrintString quietConsole (sample 80 25 3 5 7) 1 (CSI [[48]] 74)).1.trace 1999
      = false ∧
    cellIndex 80 { X := 79, Y := 24 } = 1999 := by
  decide

/-! ## C15: Erase in Line -/

/-- Case `K` with one argument, on a buffer of `W` columns and `H` rows with the cursor at
column `x`, row `y` inside it and the right edge `R` of the window between `x - 1` and
`W - 1`: the cells filled with a space and the current attribute are, for the argument 0,
columns `x` to `R` of row `y`; for 1, columns 0 to `x`; for 2, columns 0 to `W - 1`; the
reported console information, the cursor with it, stays as it is. -/
theorem erase_line_cells (s : ANSI) (i : Int)
    (hsuf : s.suffix = 75) (hargc : s.es_argc = 1) (ht : s.trace = [])
    (hW : s.con.dwSize.X ≤ 32767) (hH : s.con.dwSize.Y ≤ 32767)
    (hx : 0 ≤ s.con.dwCursorPosition.X ∧ s.con.dwCursorPosition.X < s.con.dwSize.X)
    (hy : 0 ≤ s.con.dwCursorPosition.Y ∧ s.con.dwCursorPosition.Y < s.con.dwSize.Y)
    (hR : s.con.dwCursorPosition.X - 1 ≤ s.con.srWindow.Right ∧
      s.con.srWindow.Right < s.con.dwSize.X) :
    (s.es_argv 0 = 0 →
      (InterpretEscSeq s).con = s.con ∧
      (erased s.con.dwSize.X s.con.dwSize.Y s.con.wAttributes (InterpretEscSeq s).trace i = true ↔
        cellIndex s.con.dwSize.X s.con.dwCursorPosition ≤ i ∧
          i ≤ cellIndex s.con.dwSize.X
                { X := s.con.srWindow.Right, Y := s.con.dwCursorPosition.Y })) ∧
    (s.es_argv 0 = 1 →
      (InterpretEscSeq s).con = s.con ∧
      (erased s.con.dwSize.X s.con.dwSize.Y s.con.wAttributes (InterpretEscSeq s).trace i = true ↔
        cellIndex s.con.dwSize.X { X := 0, Y := s.con.dwCursorPosition.Y } ≤ i ∧
          i ≤ cellIndex s.con.dwSize.X s.con.dwCursorPosition)) ∧
    (s.es_argv 0 = 2 →
      (InterpretEscSeq s).con = s.con ∧
      (erased s.con.dwSize.X s.con.dwSize.Y s.con.wAttributes (InterpretEscSeq s).trace i = true ↔
        cellIndex s.con.dwSize.X { X := 0, Y := s.con.dwCursorPosition.Y } ≤ i ∧
          i ≤ cellIndex s.con.dwSize.X
                { X := s.con.dwSize.X - 1, Y := s.con.dwCursorPosition.Y })) := by
  obtain ⟨hx0, hx1⟩ := hx
  obtain ⟨hy0, hy1⟩ := hy
  obtain ⟨hR0, hR1⟩ := hR
  generalize hWd : s.con.dwSize.X = W at *
  generalize hHd : s.con.dwSize.Y = H at *
  generalize hxd : s.con.dwCursorPosition.X = x at *
  generalize hyd : s.con.dwCursorPosition.Y = y at *
  generalize hRd : s.con.srWindow.Right = R at *
  have hyW : y * W ≤ (H - 1) * W := by nlinarith
  have hyW0 : 0 ≤ y * W := by nlinarith
  have hWH : W * H ≤ 32767 * 32767 := by nlinarith
  have hHW : (H - 1) * W = W * H - W := by ring
  refine ⟨?_, ?_, ?_⟩
  · intro h0
    have e : InterpretEscSeq s =
        FillConsoleOutput s s.con.wAttributes (toDWORD (R - x + 1)) s.con.dwCursorPosition := by
      simp [InterpretEscSeq, hsuf, defaultArg, hargc, h0, hWd, hHd, hxd, hyd, hRd]
    rw [e, erased_fill _ _ _ _ _ _ _ ht, toDWORD_small _ (by omega) (by omega)]
    refine ⟨rfl, ?_⟩
    simp only [covers, cellIndex, decide_eq_true_eq, hxd, hyd]
    have : ((R - x + 1).toNat : Int) = R - x + 1 := Int.toNat_of_nonneg (by omega)
    rw [this]
    constructor <;> intro h <;> omega
  · intro h1
    have e : InterpretEscSeq s =
        FillConsoleOutput s s.con.wAttributes (toDWORD (x + 1)) { X := 0, Y := y } := by
      simp [InterpretEscSeq, hsuf, defaultArg, hargc, h1, hWd, hHd, hxd, hyd, hRd]
    rw [e, erased_fill _ _ _ _ _ _ _ ht, toDWORD_small _ (by omega) (by omega)]
    refine ⟨rfl, ?_⟩
    simp only [covers, cellIndex, decide_eq_true_eq, hxd, hyd]
    have : ((x + 1).toNat : Int) = x + 1 := Int.toNat_of_nonneg (by omega)
    rw [this]
    constructor <;> intro h <;> omega
  · intro h2
    have e : InterpretEscSeq s =
        FillConsoleOutput s s.con.wAttributes (toDWORD W) { X := 0, Y := y } := by
      simp [InterpretEscSeq, hsuf, defaultArg, hargc, h2, hWd, hHd, hxd, hyd, hRd]
    rw [e, erased_fill _ _ _ _ _ _ _ ht, toDWORD_small _ (by omega) (by omega)]
    refine ⟨rfl, ?_⟩
    simp only [covers, cellIndex, decide_eq_true_eq, hxd, hyd]
    have : ((W).toNat : Int) = W := Int.toNat_of_nonneg (by omega)
    rw [this]
    constructor <;> intro h <;> omega

/-- C15 fails on the code: on a buffer of 120 columns and 50 rows seen through a window of
80 columns, with the cursor at column 10, row 5, `ESC [ 0 K` (and `ESC [ K`) fills 70
cells, columns 10 to 79 of row 5; column 100 of row 5 (index 700) is not erased, though
`ESC [ 2 K` erases it and `ESC [ 1 K` does not. -/
theorem C15_failing_input :
    (ParseAndPrintString quietConsole
        (windowed (sample 120 50 10 5 7) { Left := 0, Top := 0, Right := 79, Bottom := 24 }) 1
        (CSI [[48]] 75)).1.trace =
      [ConOp.FillConsoleOutputCharacter 32 70 { X := 10, Y := 5 },
       ConOp.FillConsoleOutputAttribute 7 70 { X := 10, Y := 5 }] ∧
    (ParseAndPrintString quietConsole
        (windowed (sample 120 50 10 5 7) { Left := 0, Top := 0, Right := 79, Bottom := 24 }) 1
        (CSI [] 75)).1.trace =
      [ConOp.FillConsoleOutputCharacter 32 70 { X := 10, Y := 5 },
       ConOp.FillConsoleOutputAttribute 7 70 { X := 10, Y := 5 }] ∧
    cellIndex 120 { X := 100, Y := 5 } = 700 ∧
    erased 120 50 7
      (ParseAndPrintString quietConsole
        (windowed (sample 120 50 10 5 7) { Left := 0, Top := 0, Right := 79, Bottom := 24 }) 1
        (CSI [[48]] 75)).1.trace 700 = false ∧
    erased 120 50 7
      (ParseAndPrintString quietConsole
        (windowed (sample 120 50 10 5 7) { Left := 0, Top := 0, Right := 79, Bottom := 24 }) 1
        (CSI [[49]] 75)).1.trace 700 = false ∧
    erased 120 50 7
      (ParseAndPrintString quietConsole
        (windowed (sample 120 50 10 5 7) { Left := 0, Top := 0, Right := 79, Bottom := 24 }) 1
        (CSI [[50]] 75)).1.trace 700 = true := by
  decide

/-! ## C18: the scroll of `L`, `M`, `P` and `@` -/

/-- Case `L` with one argument. -/
theorem InterpretEscSeq_L (s : ANSI) (hsuf : s.suffix = 76) (hargc : s.es_argc = 1) :
    (InterpretEscSeq s).trace = s.trace ++
      [ConOp.ScrollConsoleScreenBuffer
        { Left := 0, Top := s.con.dwCursorPosition.Y,
          Right := toSHORT (s.con.dwSize.X - 1), Bottom := toSHORT (s.con.dwSize.Y - 1) }
        { X := 0, Y := toSHORT (toInt32 (s.con.dwCursorPosition.Y + s.es_argv 0)) }
        32 s.con.wAttributes] := by
  simp [InterpretEscSeq, hsuf, defaultArg, hargc, ScrollConsoleScreenBuffer]

/-- Case `M` with one argument. -/
theorem InterpretEscSeq_M (s : ANSI) (hsuf : s.suffix = 77) (hargc : s.es_argc = 1) :
    (InterpretEscSeq s).trace = s.trace ++
      [ConOp.ScrollConsoleScreenBuffer
        { Left := 0,
          Top := toSHORT (toInt32 (s.con.dwCursorPosition.Y +
            (if s.es_argv 0 > s.con.dwSize.Y - s.con.dwCursorPosition.Y
             then s.con.dwSize.Y - s.con.dwCursorPosition.Y else s.es_argv 0))),
          Right := toSHORT (s.con.dwSize.X - 1), Bottom := toSHORT (s.con.dwSize.Y - 1) }
        { X := 0, Y := s.con.dwCursorPosition.Y } 32 s.con.wAttributes] := by
  by_cases h : s.es_argv 0 > s.con.dwSize.Y - s.con.dwCursorPosition.Y <;>
    simp [InterpretEscSeq, hsuf, defaultArg, hargc, h, ScrollConsoleScreenBuffer, store]

/-- Case `P` with one argument. -/
theorem InterpretEscSeq_P (s : ANSI) (hsuf : s.suffix = 80) (hargc : s.es_argc = 1) :
    (InterpretEscSeq s).trace = s.trace ++
      [ConOp.ScrollConsoleScreenBuffer
        { Left := toSHORT (toInt32 (s.con.dwCursorPosition.X +
            (if toInt32 (s.con.dwCursorPosition.X + s.es_argv 0) > s.con.dwSize.X - 1
             then s.con.dwSize.X - s.con.dwCursorPosition.X else s.es_argv 0))),
          Top := s.con.dwCursorPosition.Y,
          Right := toSHORT (s.con.dwSize.X - 1), Bottom := s.con.dwCursorPosition.Y }
        s.con.dwCursorPosition 32 s.con.wAttributes] := by
  by_cases h : toInt32 (s.con.dwCursorPosition.X + s.es_argv 0) > s.con.dwSize.X - 1 <;>
    simp [InterpretEscSeq, hsuf, defaultArg, hargc, h, ScrollConsoleScreenBuffer, store]

/-- Case `@` with one argument. -/
theorem InterpretEscSeq_at (s : ANSI) (hsuf : s.suffix = 64) (hargc : s.es_argc = 1) :
    (InterpretEscSeq s).trace = s.trace ++
      [ConOp.ScrollConsoleScreenBuffer
        { Left := s.con.dwCursorPosition.X, Top := s.con.dwCursorPosition.Y,
          Right := toSHORT (toInt32 (s.con.dwSize.X - 1 -
            (if toInt32 (s.con.dwCursorPosition.X + s.es_argv 0) > s.con.dwSize.X - 1
             then s.con.dwSize.X - s.con.dwCursorPosition.X else s.es_argv 0))),
          Bottom := s.con.dwCursorPosition.Y }
        { X := toSHORT (toInt32 (s.con.dwCursorPosition.X +
            (if toInt32 (s.con.dwCursorPosition.X + s.es_argv 0) > s.con.dwSize.X - 1
             then s.con.dwSize.X - s.con.dwCursorPosition.X else s.es_argv 0))),
          Y := s.con.dwCursorPosition.Y } 32 s.con.wAttributes] := by
  by_cases h : toInt32 (s.con.dwCursorPosition.X + s.es_argv 0) > s.con.dwSize.X - 1 <;>
    simp [InterpretEscSeq, hsuf, defaultArg, hargc, h, ScrollConsoleScreenBuffer, store]

/-- C18 (amended): on a buffer of `W` columns and `H` rows (at most 32767 each) with the
cursor at column `x`, row `y` inside it, and for one argument `n ≥ 0`.  `L` scrolls the rows
from `y` to `H - 1`, a rectangle inside the buffer, down by `n` lines without a clamp: the
destination is row `y + n`, a row of the buffer when `n < H - y` (and, as long as `y + n`
is a 16-bit value, only then).  `M` scrolls up by min(n, H - y) lines, with the source
rectangle inside the buffer (possibly empty) and the cursor row as destination.  When
`x + n` is in the range of `int`, `P` scrolls left by min(n, W - x) characters, with the
source rectangle inside the buffer (possibly empty) and the cursor position as destination,
and `@` scrolls right by min(n, W - x) characters, with the source rectangle inside the
buffer (possibly empty) and the destination in column x + min(n, W - x) of the cursor row,
which is a column of the buffer exactly when n < W - x. -/
theorem C18_scroll_clamped (s : ANSI) (n : Int)
    (hargc : s.es_argc = 1) (harg : s.es_argv 0 = n) (hn : 0 ≤ n)
    (hW : s.con.dwSize.X ≤ 32767) (hH : s.con.dwSize.Y ≤ 32767)
    (hx : 0 ≤ s.con.dwCursorPosition.X ∧ s.con.dwCursorPosition.X < s.con.dwSize.X)
    (hy : 0 ≤ s.con.dwCursorPosition.Y ∧ s.con.dwCursorPosition.Y < s.con.dwSize.Y) :
    (s.suffix = 76 →
      (InterpretEscSeq s).trace = s.trace ++
        [ConOp.ScrollConsoleScreenBuffer
          { Left := 0, Top := s.con.dwCursorPosition.Y,
            Right := s.con.dwSize.X - 1, Bottom := s.con.dwSize.Y - 1 }
          { X := 0, Y := toSHORT (toInt32 (s.con.dwCursorPosition.Y + n)) }
          32 s.con.wAttributes] ∧
      rectInside s.con.dwSize.X s.con.dwSize.Y
        { Left := 0, Top := s.con.dwCursorPosition.Y,
          Right := s.con.dwSize.X - 1, Bottom := s.con.dwSize.Y - 1 } ∧
      (n < s.con.dwSize.Y - s.con.dwCursorPosition.Y →
        toSHORT (toInt32 (s.con.dwCursorPosition.Y + n)) = s.con.dwCursorPosition.Y + n ∧
        originInside s.con.dwSize.X s.con.dwSize.Y
          { X := 0, Y := s.con.dwCursorPosition.Y + n }) ∧
      (s.con.dwCursorPosition.Y + n ≤ 32767 →
        (originInside s.con.dwSize.X s.con.dwSize.Y
            { X := 0, Y := toSHORT (toInt32 (s.con.dwCursorPosition.Y + n)) } ↔
          n < s.con.dwSize.Y - s.con.dwCursorPosition.Y))) ∧
    (s.suffix = 77 →
      (InterpretEscSeq s).trace = s.trace ++
        [ConOp.ScrollConsoleScreenBuffer
          { Left := 0,
            Top := s.con.dwCursorPosition.Y + min n (s.con.dwSize.Y - s.con.dwCursorPosition.Y),
            Right := s.con.dwSize.X - 1, Bottom := s.con.dwSize.Y - 1 }
          { X := 0, Y := s.con.dwCursorPosition.Y } 32 s.con.wAttributes] ∧
      rectInside s.con.dwSize.X s.con.dwSize.Y
        { Left := 0,
          Top := s.con.dwCursorPosition.Y + min n (s.con.dwSize.Y - s.con.dwCursorPosition.Y),
          Right := s.con.dwSize.X - 1, Bottom := s.con.dwSize.Y - 1 } ∧
      originInside s.con.dwSize.X s.con.dwSize.Y { X := 0, Y := s.con.dwCursorPosition.Y }) ∧
    (s.suffix = 80 → s.con.dwCursorPosition.X + n ≤ 2147483647 →
      (InterpretEscSeq s).trace = s.trace ++
        [ConOp.ScrollConsoleScreenBuffer
          { Left := s.con.dwCursorPosition.X + min n (s.con.dwSize.X - s.con.dwCursorPosition.X),
            Top := s.con.dwCursorPosition.Y,
            Right := s.con.dwSize.X - 1, Bottom := s.con.dwCursorPosition.Y }
          s.con.dwCursorPosition 32 s.con.wAttributes] ∧
      rectInside s.con.dwSize.X s.con.dwSize.Y
        { Left := s.con.dwCursorPosition.X + min n (s.con.dwSize.X - s.con.dwCursorPosition.X),
          Top := s.con.dwCursorPosition.Y,
          Right := s.con.dwSize.X - 1, Bottom := s.con.dwCursorPosition.Y } ∧
      originInside s.con.dwSize.X s.con.dwSize.Y s.con.dwCursorPosition) ∧
    (s.suffix = 64 → s.con.dwCursorPosition.X + n ≤ 2147483647 →
      (InterpretEscSeq s).trace = s.trace ++
        [ConOp.ScrollConsoleScreenBuffer
          { Left := s.con.dwCursorPosition.X, Top := s.con.dwCursorPosition.Y,
            Right := s.con.dwSize.X - 1 - min n (s.con.dwSize.X - s.con.dwCursorPosition.X),
            Bottom := s.con.dwCursorPosition.Y }
          { X := s.con.dwCursorPosition.X + min n (s.con.dwSize.X - s.con.dwCursorPosition.X),
            Y := s.con.dwCursorPosition.Y } 32 s.con.wAttributes] ∧
      rectInside s.con.dwSize.X s.con.dwSize.Y
        { Left := s.con.dwCursorPosition.X, Top := s.con.dwCursorPosition.Y,
          Right := s.con.dwSize.X - 1 - min n (s.con.dwSize.X - s.con.dwCursorPosition.X),
          Bottom := s.con.dwCursorPosition.Y } ∧
      s.con.dwCursorPosition.X + min n (s.con.dwSize.X - s.con.dwCursorPosition.X)
        ≤ s.con.dwSize.X ∧
      (originInside s.con.dwSize.X s.con.dwSize.Y
          { X := s.con.dwCursorPosition.X + min n (s.con.dwSize.X - s.con.dwCursorPosition.X),
            Y := s.con.dwCursorPosition.Y } ↔
        n < s.con.dwSize.X - s.con.dwCursorPosition.X)) := by
  obtain ⟨hx0, hx1⟩ := hx
  obtain ⟨hy0, hy1⟩ := hy
  have eW : toSHORT (s.con.dwSize.X - 1) = s.con.dwSize.X - 1 := toSHORT_small _ (by omega) (by omega)
  have eH : toSHORT (s.con.dwSize.Y - 1) = s.con.dwSize.Y - 1 := toSHORT_small _ (by omega) (by omega)
  refine ⟨?_, ?_, ?_, ?_⟩
  · intro h
    refine ⟨?_, ?_, ?_, ?_⟩
    · rw [InterpretEscSeq_L s h hargc, harg, eW, eH]
    · unfold rectInside; simp only; omega
    · intro hlt
      refine ⟨toSHORT_toInt32_small _ (by omega) (by omega), ?_⟩
      unfold originInside; simp only; omega
    · intro hle
      rw [toSHORT_toInt32_small _ (by omega) (by omega)]
      unfold originInside; simp only
      constructor
      · intro ho; omega
      · intro hlt; omega
  · intro h
    have e : (if n > s.con.dwSize.Y - s.con.dwCursorPosition.Y
        then s.con.dwSize.Y - s.con.dwCursorPosition.Y else n)
        = min n (s.con.dwSize.Y - s.con.dwCursorPosition.Y) := by
      split_ifs <;> omega
    refine ⟨?_, ?_, ?_⟩
    · rw [InterpretEscSeq_M s h hargc, harg, e, eW, eH,
        toSHORT_toInt32_small _ (by omega) (by omega)]
    · unfold rectInside; simp only; omega
    · unfold originInside; simp only; omega
  · intro h hn2
    have eS : toInt32 (s.con.dwCursorPosition.X + n) = s.con.dwCursorPosition.X + n := by
      unfold toInt32; omega
    have e : (if s.con.dwCursorPosition.X + n > s.con.dwSize.X - 1
        then s.con.dwSize.X - s.con.dwCursorPosition.X else n)
        = min n (s.con.dwSize.X - s.con.dwCursorPosition.X) := by
      split_ifs <;> omega
    refine ⟨?_, ?_, ?_⟩
    · rw [InterpretEscSeq_P s h hargc, harg, eS, e, eW,
        toSHORT_toInt32_small _ (by omega) (by omega)]
    · unfold rectInside; simp only; omega
    · unfold originInside; omega
  · intro h hn2
    have eS : toInt32 (s.con.dwCursorPosition.X + n) = s.con.dwCursorPosition.X + n := by
      unfold toInt32; omega
    have e : (if s.con.dwCursorPosition.X + n > s.con.dwSize.X - 1
        then s.con.dwSize.X - s.con.dwCursorPosition.X else n)
        = min n (s.con.dwSize.X - s.con.dwCursorPosition.X) := by
      split_ifs <;> omega
    refine ⟨?_, ?_, ?_, ?_⟩
    · rw [InterpretEscSeq_at s h hargc, harg, eS, e,
        toSHORT_toInt32_small _ (by omega) (by omega),
        toSHORT_toInt32_small _ (by omega) (by omega)]
    · unfold rectInside; simp only; omega
    · omega
    · unfold originInside; simp only; omega

/-- Witness of C18 (amended): on an 80x25 buffer with the cursor at column 3, row 5, `M`
with the argument 2147483647 scrolls an empty rectangle whose top is row 25, and `P` with
the argument 200 scrolls an empty rectangle whose left edge is column 80. -/
theorem C18_scroll_clamped_witness :
    (InterpretEscSeq { sample 80 25 3 5 7 with suffix := 77, es_argc := 1,
                                               es_argv := fun _ => 2147483647 }).trace =
      [ConOp.ScrollConsoleScreenBuffer { Left := 0, Top := 25, Right := 79, Bottom := 24 }
        { X := 0, Y := 5 } 32 7] ∧
    (InterpretEscSeq { sample 80 25 3 5 7 with suffix := 80, es_argc := 1,
                                               es_argv := fun _ => 200 }).trace =
      [ConOp.ScrollConsoleScreenBuffer { Left := 80, Top := 5, Right := 79, Bottom := 5 }
        { X := 3, Y := 5 } 32 7] :=
  ⟨((C18_scroll_clamped
      { sample 80 25 3 5 7 with suffix := 77, es_argc := 1, es_argv := fun _ => 2147483647 }
      2147483647 rfl rfl (by decide) (by decide) (by decide) (by decide) (by decide)).2.1
      rfl).1,
   ((C18_scroll_clamped
      { sample 80 25 3 5 7 with suffix := 80, es_argc := 1, es_argv := fun _ => 200 } 200
      rfl rfl (by decide) (by decide) (by decide) (by decide) (by decide)).2.2.1 rfl
      (by decide)).1⟩

/-- Counterexample to C18 as stated: on an 80x25 buffer with the cursor at column 3,
row 5, `ESC [ 200 @` passes the destination column 80, which is no column of the buffer,
and `ESC [ 30 L` passes the destination row 35, a shift of 30 lines where 20 lines lie
from the cursor row to the end of the buffer. -/
theorem C18_counterexample :
    (ParseAndPrintString quietConsole (sample 80 25 3 5 7) 1 (CSI [[50, 48, 48]] 64)).1.trace =
      [ConOp.ScrollConsoleScreenBuffer { Left := 3, Top := 5, Right := 2, Bottom := 5 }
        { X := 80, Y := 5 } 32 7] ∧
    ¬ originInside 80 25 { X := 80, Y := 5 } ∧
    (ParseAndPrintString quietConsole (sample 80 25 3 5 7) 1 (CSI [[51, 48]] 76)).1.trace =
      [ConOp.ScrollConsoleScreenBuffer { Left := 0, Top := 5, Right := 79, Bottom := 24 }
        { X := 0, Y := 35 } 32 7] ∧
    ¬ originInside 80 25 { X := 0, Y := 35 } := by
  decide

/-! ## C19: process creation -/

/-- The calls of `Inject`: at most one injection, made when the scan finds a console
image; then the copy of the process information; then `ResumeThread`, made when
`dwCreationFlags` does not hold `CREATE_SUSPENDED`. -/
theorem Inject_shape (win64 : Bool) (regions : List REGION) (lpi : Bool) (f : Nat) :
    ∃ inj rest : List ProcOp,
      Inject win64 regions lpi f =
        inj ++ rest ++ (if f &&& CREATE_SUSPENDED = 0 then [ProcOp.ResumeThread] else []) ∧
      (∀ op ∈ inj, isInject op) ∧ (inj ≠ [] ↔ (scanRegions win64 regions).1 = true) ∧
      (∀ op ∈ rest, op = ProcOp.memcpy) := by
  refine ⟨if (scanRegions win64 regions).1 then
             (if win64 then
                (if (scanRegions win64 regions).2 then [ProcOp.InjectDLL32]
                 else [ProcOp.InjectDLL64])
              else [ProcOp.InjectDLL32])
           else [],
          if lpi then [ProcOp.memcpy] else [], ?_, ?_, ?_, ?_⟩
  · unfold Inject
    rcases scanRegions win64 regions with ⟨con, x86⟩
    cases con <;> cases win64 <;> cases x86 <;> cases lpi <;>
      by_cases hf : f &&& CREATE_SUSPENDED = 0 <;> simp [hf]
  · intro op hop
    unfold isInject
    split_ifs at hop <;> simp at hop <;> simp [hop]
  · rcases scanRegions win64 regions with ⟨con, x86⟩
    cases con <;> cases win64 <;> cases x86 <;> simp
  · intro op hop
    split_ifs at hop <;> simp at hop
    exact hop

/-- The scan of `Inject` classifies the image header of the child. -/
theorem scanRegions_childImage (win64 : Bool) (regions : List REGION) :
    scanRegions win64 regions =
      match childImage regions with
      | none => (false, false)
      | some nt_header =>
        if nt_header.Subsystem = IMAGE_SUBSYSTEM_WINDOWS_CUI then
          if nt_header.Machine = IMAGE_FILE_MACHINE_I386 then (true, true)
          else if win64 = true ∧ nt_header.Machine = IMAGE_FILE_MACHINE_AMD64 then (true, false)
          else (false, false)
        else (false, false) := by
  induction regions with
  | nil => rfl
  | cons r rest ih =>
    obtain ⟨d, n⟩ := r
    cases d with
    | none => simpa [scanRegions, childImage, imageHeader, List.findSome?] using ih
    | some e =>
      cases n with
      | none =>
        by_cases he : e = IMAGE_DOS_SIGNATURE <;>
          simpa [scanRegions, childImage, imageHeader, List.findSome?, he] using ih
      | some nt =>
        by_cases he : e = IMAGE_DOS_SIGNATURE
        · by_cases hs : nt.Signature = IMAGE_NT_SIGNATURE
          · simp [scanRegions, childImage, imageHeader, List.findSome?, he, hs]
          · simpa [scanRegions, childImage, imageHeader, List.findSome?, he, hs] using ih
        · simpa [scanRegions, childImage, imageHeader, List.findSome?, he] using ih

/-- The scan finds a console image exactly when the child qualifies. -/
theorem scanRegions_qualifies (win64 : Bool) (regions : List REGION) :
    (scanRegions win64 regions).1 = true ↔ qualifies win64 regions := by
  rw [scanRegions_childImage]
  unfold qualifies
  cases h : childImage regions with
  | none => simp
  | some nt =>
    simp only [Option.some.injEq, exists_eq_left']
    by_cases h1 : nt.Subsystem = IMAGE_SUBSYSTEM_WINDOWS_CUI
    · by_cases h2 : nt.Machine = IMAGE_FILE_MACHINE_I386
      · simp [h1, h2]
      · by_cases h3 : win64 = true ∧ nt.Machine = IMAGE_FILE_MACHINE_AMD64
        · have hne : IMAGE_FILE_MACHINE_AMD64 ≠ IMAGE_FILE_MACHINE_I386 := by decide
          simp [h1, h3.1, h3.2, hne]
        · simp [h1, h2, h3]
    · simp [h1]

/-- The calls of `Inject` for a child that qualifies: the DLL of the width of the child's
image is injected first, and no DLL is injected again. -/
theorem Inject_qualifying (win64 : Bool) (regions : List REGION) (lpi : Bool) (f : Nat)
    (nt_header : IMAGE_NT_HEADERS) (himg : childImage regions = some nt_header)
    (hcui : nt_header.Subsystem = IMAGE_SUBSYSTEM_WINDOWS_CUI) :
    (nt_header.Machine = IMAGE_FILE_MACHINE_I386 →
      ∃ post, Inject win64 regions lpi f = ProcOp.InjectDLL32 :: post ∧
        ∀ op ∈ post, ¬ isInject op) ∧
    (win64 = true → nt_header.Machine = IMAGE_FILE_MACHINE_AMD64 →
      ∃ post, Inject win64 regions lpi f = ProcOp.InjectDLL64 :: post ∧
        ∀ op ∈ post, ¬ isInject op) := by
  have hne : IMAGE_FILE_MACHINE_AMD64 ≠ IMAGE_FILE_MACHINE_I386 := by decide
  refine ⟨fun hm => ?_, fun hw hm => ?_⟩
  · refine ⟨(if lpi then [ProcOp.memcpy] else []) ++
      (if f &&& CREATE_SUSPENDED = 0 then [ProcOp.ResumeThread] else []), ?_, ?_⟩
    · unfold Inject
      rw [scanRegions_childImage, himg]
      cases win64 <;> cases lpi <;> by_cases hf : f &&& CREATE_SUSPENDED = 0 <;>
        simp [hcui, hm, hf]
    · intro op hop
      rcases List.mem_append.mp hop with h | h <;> split_ifs at h <;> simp at h <;>
        simp [h, isInject]
  · refine ⟨(if lpi then [ProcOp.memcpy] else []) ++
      (if f &&& CREATE_SUSPENDED = 0 then [ProcOp.ResumeThread] else []), ?_, ?_⟩
    · unfold Inject
      rw [scanRegions_childImage, himg]
      cases lpi <;> by_cases hf : f &&& CREATE_SUSPENDED = 0 <;>
        simp [hcui, hm, hw, hf, hne]
    · intro op hop
      rcases List.mem_append.mp hop with h | h <;> split_ifs at h <;> simp at h <;>
        simp [h, isInject]

/-- C19: for every flags word `f`, `MyCreateProcessA` first calls `CreateProcessA` with
`f | CREATE_SUSPENDED` and makes no other creation call.  When the creation fails it
returns `FALSE` and makes no further call.  When it succeeds it returns `TRUE`.  A child
whose image is of the console subsystem is then injected at once, before any other call:
with the 32-bit DLL when the image is for i386, with the 64-bit DLL when it is for AMD64
and the code is compiled with `_WIN64`; and a DLL is injected only into a child that
qualifies in this way.  `ResumeThread` is called exactly when `f` does not hold
`CREATE_SUSPENDED`, and then it is the last call, so after every injection.
`MyCreateProcessW` does the same with `CreateProcessW`. -/
theorem C19_create_process (win64 : Bool) (created : Option (List REGION)) (f : Nat)
    (lpi : Bool) :
    (∃ tail : List ProcOp,
      (MyCreateProcessA win64 created f lpi).2 =
        ProcOp.CreateProcessA (f ||| CREATE_SUSPENDED) :: tail ∧
      (∀ op ∈ tail, ∀ g, op ≠ ProcOp.CreateProcessA g ∧ op ≠ ProcOp.CreateProcessW g) ∧
      (created = none → (MyCreateProcessA win64 created f lpi).1 = false ∧ tail = []) ∧
      (∀ regions, created = some regions →
        (MyCreateProcessA win64 created f lpi).1 = true ∧
        (∀ nt_header, childImage regions = some nt_header →
          nt_header.Subsystem = IMAGE_SUBSYSTEM_WINDOWS_CUI →
          (nt_header.Machine = IMAGE_FILE_MACHINE_I386 →
            ∃ post, tail = ProcOp.InjectDLL32 :: post ∧ ∀ op ∈ post, ¬ isInject op) ∧
          (win64 = true → nt_header.Machine = IMAGE_FILE_MACHINE_AMD64 →
            ∃ post, tail = ProcOp.InjectDLL64 :: post ∧ ∀ op ∈ post, ¬ isInject op)) ∧
        ((∃ op ∈ tail, isInject op) ↔ qualifies win64 regions) ∧
        (ProcOp.ResumeThread ∈ tail ↔ f &&& CREATE_SUSPENDED = 0) ∧
        (∀ pre post, tail = pre ++ ProcOp.ResumeThread :: post → post = []))) ∧
    (MyCreateProcessW win64 created f lpi).1 = (MyCreateProcessA win64 created f lpi).1 ∧
    (MyCreateProcessW win64 created f lpi).2.head? =
      some (ProcOp.CreateProcessW (f ||| CREATE_SUSPENDED)) ∧
    (MyCreateProcessW win64 created f lpi).2.tail =
      (MyCreateProcessA win64 created f lpi).2.tail := by
  cases created with
  | none =>
    refine ⟨⟨[], rfl, by simp, fun _ => ⟨rfl, rfl⟩, fun regions h => by cases h⟩, rfl, rfl, rfl⟩
  | some regions =>
    refine ⟨⟨Inject win64 regions lpi f, rfl, ?_, (fun h => by cases h), ?_⟩, rfl, rfl, rfl⟩
    · obtain ⟨inj, rest, e, hinj, -, hrest⟩ := Inject_shape win64 regions lpi f
      intro op hop g
      rw [e] at hop
      simp only [List.mem_append] at hop
      rcases hop with (h | h) | h
      · rcases hinj op h with h1 | h1 <;> simp [h1]
      · simp [hrest op h]
      · split_ifs at h <;> simp at h
        simp [h]
    · intro regions1 h
      cases h
      obtain ⟨inj, rest, e, hinj, hne, hrest⟩ := Inject_shape win64 regions lpi f
      refine ⟨rfl, fun nt himg hcui => Inject_qualifying win64 regions lpi f nt himg hcui,
        ?_, ?_, ?_⟩
      · rw [← scanRegions_qualifies, ← hne]
        constructor
        · rintro ⟨op, hop, hi⟩ h0
          rw [e, h0] at hop
          simp only [List.nil_append, List.mem_append] at hop
          rcases hop with h | h
          · rw [hrest op h] at hi
            rcases hi with hi | hi <;> cases hi
          · split_ifs at h <;> simp at h
            rw [h] at hi
            rcases hi with hi | hi <;> cases hi
        · intro h0
          obtain ⟨op, l, hl⟩ := List.exists_cons_of_ne_nil h0
          refine ⟨op, ?_, hinj op (by simp [hl])⟩
          rw [e, hl]
          simp
      · rw [e]
        constructor
        · intro hop
          by_contra hf
          simp only [hf, if_false, List.append_nil, List.mem_append] at hop
          rcases hop with h | h
          · rcases hinj _ h with h1 | h1 <;> cases h1
          · cases hrest _ h
        · intro hf
          simp [hf]
      · intro pre post hsplit
        rw [e] at hsplit
        by_cases hf : f &&& CREATE_SUSPENDED = 0
        · simp only [hf, if_true] at hsplit
          have hnot : ProcOp.ResumeThread ∉ inj ++ rest := by
            intro hm
            rcases List.mem_append.mp hm with h | h
            · rcases hinj _ h with h1 | h1 <;> cases h1
            · cases hrest _ h
          rcases List.append_eq_append_iff.mp hsplit with ⟨a', h1, h2⟩ | ⟨c', h1, h2⟩
          · cases a' with
            | nil =>
              simp only [List.nil_append, List.cons.injEq, true_and] at h2
              exact h2.symm
            | cons x xs =>
              simp only [List.cons_append, List.cons.injEq] at h2
              have := congrArg List.length h2.2
              simp at this
              omega
          · cases c' with
            | nil =>
              simpa using h2
            | cons x xs =>
              exfalso
              apply hnot
              simp only [List.cons_append, List.cons.injEq] at h2
              rw [h1, ← h2.1]
              simp
        · exfalso
          simp only [hf, if_false, List.append_nil] at hsplit
          have hm : ProcOp.ResumeThread ∈ inj ++ rest := by rw [hsplit]; simp
          rcases List.mem_append.mp hm with h | h
          · rcases hinj _ h with h1 | h1 <;> cases h1
          · cases hrest _ h

/-- Evaluation: a 32-bit console child created with flags 0 is created suspended,
injected, and resumed; created with `CREATE_SUSPENDED` it is left suspended; a failed
creation makes no further call. -/
theorem create_process_example :
    MyCreateProcessA false (some consoleChild) 0 true =
      (true, [ProcOp.CreateProcessA 4, ProcOp.InjectDLL32, ProcOp.memcpy,
              ProcOp.ResumeThread]) ∧
    MyCreateProcessW true (some consoleChild) 4 true =
      (true, [ProcOp.CreateProcessW 4, ProcOp.InjectDLL32, ProcOp.memcpy]) ∧
    MyCreateProcessA false none 16 true = (false, [ProcOp.CreateProcessA 20]) := by
  decide

/-- Evaluation: which children qualify. -/
theorem qualifies_example :
    qualifies false consoleChild ∧ qualifies true consoleChild ∧
    ¬ qualifies false consoleChild64 ∧ qualifies true consoleChild64 ∧
    ¬ qualifies false windowsChild ∧ ¬ qualifies true windowsChild ∧
    ¬ qualifies true [] := by
  decide

/-- Evaluation: a 64-bit console child is injected with the 64-bit DLL by the 64-bit build
and is left alone by the 32-bit build; a child of the GUI subsystem is left alone. -/
theorem create_process_example64 :
    MyCreateProcessW true (some consoleChild64) 0 false =
      (true, [ProcOp.CreateProcessW 4, ProcOp.InjectDLL64, ProcOp.ResumeThread]) ∧
    MyCreateProcessW false (some consoleChild64) 0 false =
      (true, [ProcOp.CreateProcessW 4, ProcOp.ResumeThread]) ∧
    MyCreateProcessA false (some windowsChild) 0 true =
      (true, [ProcOp.CreateProcessA 4, ProcOp.memcpy, ProcOp.ResumeThread]) := by
  decide

/-! ## C20: module loads -/

/-- Each replacement returns the handle of the loader, and calls `HookAPIOneMod` exactly
when the handle is neither `NULL` nor `hKernel` and, for the `Ex` functions, `dwFlags`
does not hold `LOAD_LIBRARY_AS_DATAFILE`; `hDllInstance` plays no part. -/
theorem MyLoadLibrary_hooks (hKernel : Nat) (Hooks : List HookFn) (dwFlags hMod : Nat)
    (image : MODULE) :
    ((MyLoadLibraryA hKernel Hooks hMod image).1 = hMod ∧
      ((MyLoadLibraryA hKernel Hooks hMod image).2.isSome = true ↔ hMod ≠ 0 ∧ hMod ≠ hKernel)) ∧
    MyLoadLibraryW hKernel Hooks hMod image = MyLoadLibraryA hKernel Hooks hMod image ∧
    ((MyLoadLibraryExA hKernel Hooks dwFlags hMod image).1 = hMod ∧
      ((MyLoadLibraryExA hKernel Hooks dwFlags hMod image).2.isSome = true ↔
        hMod ≠ 0 ∧ hMod ≠ hKernel ∧ dwFlags &&& LOAD_LIBRARY_AS_DATAFILE = 0)) ∧
    MyLoadLibraryExW hKernel Hooks dwFlags hMod image =
      MyLoadLibraryExA hKernel Hooks dwFlags hMod image := by
  refine ⟨⟨?_, ?_⟩, rfl, ⟨?_, ?_⟩, rfl⟩
  · unfold MyLoadLibraryA; split_ifs <;> rfl
  · unfold MyLoadLibraryA; split_ifs with h <;> simp [h]
  · unfold MyLoadLibraryExA; split_ifs <;> rfl
  · unfold MyLoadLibraryExA; split_ifs with h
    · simp [h]
    · simp only [Option.isSome_none, Bool.false_eq_true, false_iff]
      exact h

/-- C20 fails on the code: with `hDllInstance` = 268435456 and `hKernel` = 2088763392, a
load that returns the engine's own handle (the DLL is loaded already) makes
`MyLoadLibraryA` and `MyLoadLibraryExW` run `HookAPIOneMod` on the engine's own module,
whose import slot of `WriteConsoleA` (2000) is then replaced by `MyWriteConsoleA` (1000);
`HookAPIAllMod` on the same module skips it. -/
theorem C20_failing_input :
    (MyLoadLibraryA 2088763392 sampleHooks 268435456 (sampleModule [2000] [] [])).1 = 268435456 ∧
    (MyLoadLibraryA 2088763392 sampleHooks 268435456 (sampleModule [2000] [] [])).2.map
      (fun p => (p.ok, slotValues p.mem)) = some (true, [[1000], [], []]) ∧
    (MyLoadLibraryExW 2088763392 sampleHooks 0 268435456 (sampleModule [2000] [] [])).2.map
      (fun p => (p.ok, slotValues p.mem)) = some (true, [[1000], [], []]) ∧
    HookAPIAllMod 268435456 2088763392 (some [(268435456, sampleModule [2000] [] [])])
      sampleHooks false = (true, []) := by
  decide

/-! ## C21: the protection flags of a patched slot -/

/-- The loop over the hooks on one slot leaves the protection flags of the slot as they
were, unless a write fails: then it returns `FALSE` at once and the flags are those set
for the write. -/
theorem hookLoop_protect (restore kernel : Bool) (HS : List HookFn) :
    ∀ t : IMAGE_THUNK_DATA,
      (hookLoop restore kernel HS t).mem.writable = t.writable ∧
      (((hookLoop restore kernel HS t).ok = true ∧
          (hookLoop restore kernel HS t).mem.Protect = t.Protect) ∨
        ((hookLoop restore kernel HS t).ok = false ∧ t.writable = false ∧
          (hookLoop restore kernel HS t).mem.Protect = flNewProtect t.Protect)) := by
  induction HS with
  | nil => intro t; exact ⟨rfl, Or.inl ⟨rfl, rfl⟩⟩
  | cons h rest ih =>
    intro t
    have hwrite : ∀ p : Nat, t.writable = true →
        (hookLoop restore kernel rest { t with Function := p }).mem.writable = t.writable ∧
        (hookLoop restore kernel rest { t with Function := p }).ok = true ∧
        (hookLoop restore kernel rest { t with Function := p }).mem.Protect = t.Protect := by
      intro p hw
      obtain ⟨a, b⟩ := ih { t with Function := p }
      refine ⟨a, ?_⟩
      rcases b with ⟨b1, b2⟩ | ⟨_, b2, _⟩
      · exact ⟨b1, b2⟩
      · simp only at b2
        rw [hw] at b2
        cases b2
    cases restore with
    | false =>
      by_cases hm : hookMatch t.Function h ∧ h.newfunc ≠ 0
      · by_cases hw : t.writable = true
        · rw [hookLoop_hook_write kernel h rest t hm.1 hm.2 hw]
          obtain ⟨a, b, c⟩ := hwrite h.newfunc hw
          exact ⟨a, Or.inl ⟨b, c⟩⟩
        · have hw' : t.writable = false := by simpa using hw
          rw [hookLoop_hook_fail kernel h rest t hm.1 hm.2 hw']
          exact ⟨rfl, Or.inr ⟨rfl, hw', rfl⟩⟩
      · rw [hookLoop_hook_skip kernel h rest t (by tauto)]
        exact ih t
    | true =>
      by_cases hm : t.Function = h.newfunc ∧ restoreTarget kernel h ≠ 0
      · by_cases hw : t.writable = true
        · rw [hookLoop_restore_write kernel h rest t hm.1 hm.2 hw]
          obtain ⟨a, b, c⟩ := hwrite (restoreTarget kernel h) hw
          exact ⟨a, Or.inl ⟨b, c⟩⟩
        · have hw' : t.writable = false := by simpa using hw
          have e : hookLoop true kernel (h :: rest) t =
              { ok := false, mem := { t with Protect := flNewProtect t.Protect },
                writes := [] } := by
            simp [hookLoop, hm.1, hm.2, hw']
          rw [e]
          exact ⟨rfl, Or.inr ⟨rfl, hw', rfl⟩⟩
      · rw [hookLoop_restore_skip kernel h rest t (by tauto)]
        exact ih t

theorem thunkLoop_protect (HS : List HookFn) (restore kernel : Bool) :
    ∀ ts : List IMAGE_THUNK_DATA, (∀ t ∈ ts, t.writable = true) →
      (thunkLoop HS restore kernel ts).ok = true ∧
      (thunkLoop HS restore kernel ts).mem.map (fun t => t.Protect) =
        ts.map (fun t => t.Protect) := by
  intro ts
  induction ts with
  | nil => intro _; exact ⟨rfl, rfl⟩
  | cons t rest ih =>
    intro hw
    have hwt : t.writable = true := hw t (by simp)
    obtain ⟨i1, i2⟩ := ih (fun u hu => hw u (by simp [hu]))
    have hk : (hookLoop restore kernel HS t).ok = true ∧
        (hookLoop restore kernel HS t).mem.Protect = t.Protect := by
      rcases (hookLoop_protect restore kernel HS t).2 with h | ⟨_, b, _⟩
      · exact h
      · rw [hwt] at b; cases b
    unfold thunkLoop
    by_cases h0 : t.Function = 0
    · simp [h0]
    · simp only [h0, if_false, hk.1, Bool.not_true, Bool.false_eq_true, i1, List.map_cons,
        hk.2, i2, and_self]

theorem descLoop_protect (HS : List HookFn) (restore : Bool) :
    ∀ ds : List IMAGE_IMPORT_DESCRIPTOR, (∀ d ∈ ds, ∀ t ∈ d.FirstThunk, t.writable = true) →
      (descLoop HS restore ds).ok = true ∧
      (descLoop HS restore ds).mem.map (fun d => d.FirstThunk.map (fun t => t.Protect)) =
        ds.map (fun d => d.FirstThunk.map (fun t => t.Protect)) := by
  intro ds
  induction ds with
  | nil => intro _; exact ⟨rfl, rfl⟩
  | cons d rest ih =>
    intro hw
    obtain ⟨i1, i2⟩ := ih (fun u hu => hw u (by simp [hu]))
    unfold descLoop
    cases hl : findLib d.Name with
    | none => exact ⟨i1, by simp [i2]⟩
    | some lib =>
      obtain ⟨a, b⟩ := thunkLoop_protect HS restore (decide (lib = 0)) d.FirstThunk
        (hw d (by simp))
      simp only [a, Bool.not_true, Bool.false_eq_true, if_false]
      exact ⟨i1, by simp [b, i2]⟩

/-- When every write succeeds, `HookAPIOneMod` leaves the protection flags of
every import slot as they were, in a hook pass and in a restore pass. -/
theorem HookAPIOneMod_protect (m : MODULE) (HS : List HookFn) (restore : Bool)
    (hw : ∀ d ∈ m.ImportDesc, ∀ t ∈ d.FirstThunk, t.writable = true) :
    slotProtects (HookAPIOneMod m HS restore).mem = slotProtects m := by
  unfold HookAPIOneMod slotProtects
  split_ifs
  · rfl
  · rfl
  · rfl
  · exact (descLoop_protect HS restore m.ImportDesc hw).2

/-- C21 fails on the code: a hook pass over a module whose `kernel32.dll` slot holds the
original entry point 2000 of a hook, lies on a read-only page and cannot be written,
returns `FALSE` with the slot unchanged and its protection flags left at
`PAGE_READWRITE`, not at `PAGE_READONLY` as before the call; the same happens in a
restore pass on a slot holding the replacement 1000. -/
theorem C21_failing_input :
    slotProtects (lockedModule 2000) = [[PAGE_READONLY]] ∧
    (HookAPIOneMod (lockedModule 2000) sampleHooks false).ok = false ∧
    slotValues (HookAPIOneMod (lockedModule 2000) sampleHooks false).mem = [[2000]] ∧
    slotProtects (HookAPIOneMod (lockedModule 2000) sampleHooks false).mem
      = [[PAGE_READWRITE]] ∧
    (HookAPIOneMod (lockedModule 1000) sampleHooks true).ok = false ∧
    slotProtects (HookAPIOneMod (lockedModule 1000) sampleHooks true).mem
      = [[PAGE_READWRITE]] := by
  decide

/-! ## C22, C23: concealed and reverse video -/

/-- The attribute word as a function of the six attribute globals it reads. -/
theorem attribut_congr (s r : ANSI) (h1 : s.foreground = r.foreground)
    (h2 : s.background = r.background) (h3 : s.bold = r.bold) (h4 : s.underline = r.underline)
    (h5 : s.rvideo = r.rvideo) (h6 : s.concealed = r.concealed) :
    attribut s = attribut r := by
  unfold attribut
  rw [h1, h2, h3, h4, h5, h6]

theorem palette_nibbles (i : Nat) (hi : i < 8) :
    foregroundcolor i < 8 ∧ backgroundcolor i = foregroundcolor i <<< 4 := by
  interval_cases i <;> decide

/-- C22: when `concealed` is set (and the colour indices are in 0..7), the attribute word
computed by case `m` has equal nibbles and fits in 8 bits: with `rvideo` set both nibbles
are the colour of the foreground index, with the intensity bit when `bold` is set; with
`rvideo` clear both are the colour of the background index, with the intensity bit when
`underline` is set. -/
theorem C22_concealed_nibbles (s : ANSI) (hc : s.concealed ≠ 0)
    (hf : s.foreground < 8) (hb : s.background < 8) :
    attribut s &&& 15 = (attribut s >>> 4) &&& 15 ∧
    attribut s < 256 ∧
    (s.rvideo ≠ 0 →
      attribut s &&& 15 =
        foregroundcolor s.foreground ||| (if s.bold ≠ 0 then FOREGROUND_INTENSITY else 0)) ∧
    (s.rvideo = 0 →
      attribut s &&& 15 =
        foregroundcolor s.background |||
          (if s.underline ≠ 0 then FOREGROUND_INTENSITY else 0)) := by
  have key : ∀ i, i < 8 →
      ((foregroundcolor i ||| backgroundcolor i) &&& 15 =
          ((foregroundcolor i ||| backgroundcolor i) >>> 4) &&& 15 ∧
        foregroundcolor i ||| backgroundcolor i < 256 ∧
        (foregroundcolor i ||| backgroundcolor i) &&& 15 = foregroundcolor i ||| 0) ∧
      ((foregroundcolor i ||| backgroundcolor i |||
            (FOREGROUND_INTENSITY ||| BACKGROUND_INTENSITY)) &&& 15 =
          ((foregroundcolor i ||| backgroundcolor i |||
            (FOREGROUND_INTENSITY ||| BACKGROUND_INTENSITY)) >>> 4) &&& 15 ∧
        foregroundcolor i ||| backgroundcolor i |||
            (FOREGROUND_INTENSITY ||| BACKGROUND_INTENSITY) < 256 ∧
        (foregroundcolor i ||| backgroundcolor i |||
            (FOREGROUND_INTENSITY ||| BACKGROUND_INTENSITY)) &&& 15 =
          foregroundcolor i ||| FOREGROUND_INTENSITY) := by
    intro i hi
    interval_cases i <;> decide
  by_cases hr : s.rvideo = 0
  · obtain ⟨⟨k1, k2, k3⟩, ⟨k4, k5, k6⟩⟩ := key s.background hb
    by_cases hu : s.underline = 0
    · have e : attribut s = foregroundcolor s.background ||| backgroundcolor s.background := by
        simp [attribut, hc, hr, hu]
      rw [e]
      exact ⟨k1, k2, fun h => absurd hr h, fun _ => by simpa [hu] using k3⟩
    · have e : attribut s = foregroundcolor s.background ||| backgroundcolor s.background |||
          (FOREGROUND_INTENSITY ||| BACKGROUND_INTENSITY) := by
        simp [attribut, hc, hr, hu]
      rw [e]
      exact ⟨k4, k5, fun h => absurd hr h, fun _ => by simpa [hu] using k6⟩
  · obtain ⟨⟨k1, k2, k3⟩, ⟨k4, k5, k6⟩⟩ := key s.foreground hf
    by_cases hu : s.bold = 0
    · have e : attribut s = foregroundcolor s.foreground ||| backgroundcolor s.foreground := by
        simp [attribut, hc, hr, hu]
      rw [e]
      exact ⟨k1, k2, fun _ => by simpa [hu] using k3, fun h => absurd h hr⟩
    · have e : attribut s = foregroundcolor s.foreground ||| backgroundcolor s.foreground |||
          (FOREGROUND_INTENSITY ||| BACKGROUND_INTENSITY) := by
        simp [attribut, hc, hr, hu]
      rw [e]
      exact ⟨k4, k5, fun _ => by simpa [hu] using k6, fun h => absurd h hr⟩

/-- Witness of C22: concealed text on a red foreground and blue background, with bold and
reverse video set, has the attribute word `CC` (bright red on bright red). -/
theorem C22_concealed_nibbles_witness :
    attribut { sample 80 25 0 0 7 with concealed := 1, rvideo := 1, foreground := 1,
                                       background := 4, bold := FOREGROUND_INTENSITY } = 204 ∧
    attribut { sample 80 25 0 0 7 with concealed := 1, rvideo := 1, foreground := 1,
                                       background := 4, bold := FOREGROUND_INTENSITY } &&& 15 =
      (attribut { sample 80 25 0 0 7 with concealed := 1, rvideo := 1, foreground := 1,
                                          background := 4, bold := FOREGROUND_INTENSITY }
        >>> 4) &&& 15 :=
  ⟨by decide,
   (C22_concealed_nibbles
     { sample 80 25 0 0 7 with concealed := 1, rvideo := 1, foreground := 1, background := 4,
                               bold := FOREGROUND_INTENSITY }
     (by decide) (by decide) (by decide)).1⟩

theorem reverse_key (f b bo ul : Nat) (hf : f < 8) (hb : b < 8)
    (hbo : bo = 0 ∨ bo = FOREGROUND_INTENSITY) (hul : ul = 0 ∨ ul = BACKGROUND_INTENSITY) :
    (let a := foregroundcolor b ||| backgroundcolor f
     let a1 := if bo ≠ 0 then a ||| BACKGROUND_INTENSITY else a
     if ul ≠ 0 then a1 ||| FOREGROUND_INTENSITY else a1) =
      swapNibbles (foregroundcolor f ||| backgroundcolor b ||| bo ||| ul) ∧
    foregroundcolor f ||| backgroundcolor b ||| bo ||| ul < 256 := by
  rcases hbo with rfl | rfl <;> rcases hul with rfl | rfl <;>
    interval_cases f <;> interval_cases b <;> decide

/-- C23: for an attribute state that is not concealed, with colour indices in 0..7, `bold`
0 or `FOREGROUND_INTENSITY` and `underline` 0 or `BACKGROUND_INTENSITY`, the attribute
word computed with `rvideo` set is the word computed with `rvideo` clear with its two
nibbles exchanged: its foreground nibble is the colour of the background index with the
intensity bit when `underline` is set, its background nibble the colour of the
foreground index with the intensity bit when `bold` is set. -/
theorem C23_reverse_swaps_nibbles (s : ANSI) (hc : s.concealed = 0) (hr : s.rvideo ≠ 0)
    (hf : s.foreground < 8) (hb : s.background < 8)
    (hbo : s.bold = 0 ∨ s.bold = FOREGROUND_INTENSITY)
    (hul : s.underline = 0 ∨ s.underline = BACKGROUND_INTENSITY) :
    attribut s = swapNibbles (attribut { s with rvideo := 0 }) ∧
    attribut s &&& 15 =
      foregroundcolor s.background ||| (if s.underline ≠ 0 then FOREGROUND_INTENSITY else 0) ∧
    (attribut s >>> 4) &&& 15 =
      foregroundcolor s.foreground ||| (if s.bold ≠ 0 then FOREGROUND_INTENSITY else 0) := by
  have e0 : attribut { s with rvideo := 0 } =
      foregroundcolor s.foreground ||| backgroundcolor s.background ||| s.bold ||| s.underline := by
    simp [attribut, hc]
  have e1 : attribut s =
      (let a := foregroundcolor s.background ||| backgroundcolor s.foreground
       let a1 := if s.bold ≠ 0 then a ||| BACKGROUND_INTENSITY else a
       if s.underline ≠ 0 then a1 ||| FOREGROUND_INTENSITY else a1) := by
    simp [attribut, hc, hr]
  have k := (reverse_key s.foreground s.background s.bold s.underline hf hb hbo hul).1
  refine ⟨by rw [e0, e1]; exact k, ?_, ?_⟩
  · rw [e1]
    generalize s.foreground = f at hf
    generalize s.background = b at hb
    rcases hbo with h1 | h1 <;> rcases hul with h2 | h2 <;> rw [h1, h2] <;>
      interval_cases f <;> interval_cases b <;> decide
  · rw [e1]
    generalize s.foreground = f at hf
    generalize s.background = b at hb
    rcases hbo with h1 | h1 <;> rcases hul with h2 | h2 <;> rw [h1, h2] <;>
      interval_cases f <;> interval_cases b <;> decide

/-- Witness of C23: bold red on blue gives `1C` plain and `C1` in reverse video. -/
theorem C23_reverse_swaps_nibbles_witness :
    attribut { sample 80 25 0 0 7 with rvideo := 1, foreground := 1, background := 4,
                                       bold := FOREGROUND_INTENSITY } = 193 ∧
    attribut { sample 80 25 0 0 7 with rvideo := 0, foreground := 1, background := 4,
                                       bold := FOREGROUND_INTENSITY } = 28 ∧
    attribut { sample 80 25 0 0 7 with rvideo := 1, foreground := 1, background := 4,
                                       bold := FOREGROUND_INTENSITY } =
      swapNibbles (attribut { sample 80 25 0 0 7 with rvideo := 0, foreground := 1,
                                                      background := 4,
                                                      bold := FOREGROUND_INTENSITY }) :=
  ⟨by decide, by decide,
   (C23_reverse_swaps_nibbles
     { sample 80 25 0 0 7 with rvideo := 1, foreground := 1, background := 4,
                               bold := FOREGROUND_INTENSITY }
     (by decide) (by decide) (by decide) (by decide) (by decide) (by decide)).1⟩

/-! ## C26: the value of an argument -/

theorem FlushBuffer_ChBuffer (wc : WriteEffect) (s : ANSI) :
    (FlushBuffer wc s).ChBuffer = s.ChBuffer := by
  unfold FlushBuffer
  split_ifs <;> rfl

/-- Function `PushBuffer` on a buffer holding fewer than 256 units writes the slot of index
`nCharInBuffer`, so no slot of index 256 or more, and leaves fewer than 256 units in the
buffer. -/
theorem PushBuffer_bound (wc : WriteEffect) (s : ANSI) (c : Nat)
    (h : s.nCharInBuffer < BUFFER_SIZE) :
    (PushBuffer wc s c).nCharInBuffer < BUFFER_SIZE ∧
    (∀ j, BUFFER_SIZE ≤ j → (PushBuffer wc s c).ChBuffer j = s.ChBuffer j) := by
  have hne : ∀ j, BUFFER_SIZE ≤ j → j ≠ s.nCharInBuffer := by
    intro j hj; omega
  unfold PushBuffer
  simp only
  split_ifs with hfull
  · refine ⟨?_, ?_⟩
    · rw [FlushBuffer_nCharInBuffer]; decide
    · intro j hj
      rw [FlushBuffer_ChBuffer]
      simp [store, hne j hj]
  · refine ⟨?_, ?_⟩
    · simp only [ge_iff_le, not_le] at hfull
      exact hfull
    · intro j hj
      simp [store, hne j hj]

/-- The buffer invariant of the loop: fewer than 256 units are buffered, none while a
control sequence is being read (states 3 and 4), and no slot of index 256 or more is
written. -/
theorem ParseChar_buffer (wc : WriteEffect) (s : ANSI) (c : Nat)
    (hn : s.nCharInBuffer < BUFFER_SIZE)
    (he : s.state = 3 ∨ s.state = 4 → s.nCharInBuffer = 0) :
    (ParseChar wc s c).nCharInBuffer < BUFFER_SIZE ∧
    ((ParseChar wc s c).state = 3 ∨ (ParseChar wc s c).state = 4 →
      (ParseChar wc s c).nCharInBuffer = 0) ∧
    (∀ j, BUFFER_SIZE ≤ j → (ParseChar wc s c).ChBuffer j = s.ChBuffer j) := by
  by_cases h1 : s.state = 1
  · rw [ParseChar_state1 wc s c h1]
    split_ifs
    · exact ⟨hn, fun h => by simp at h, fun _ _ => rfl⟩
    · obtain ⟨b1, b2⟩ := PushBuffer_bound wc s c hn
      refine ⟨b1, fun h => ?_, b2⟩
      rw [(PushBuffer_frame wc s c).2.1, h1] at h
      simp at h
  by_cases h2 : s.state = 2
  · rw [ParseChar_state2 wc s c h2]
    split_ifs
    · exact ⟨hn, he, fun _ _ => rfl⟩
    · refine ⟨?_, fun _ => FlushBuffer_nCharInBuffer wc s, fun _ _ => ?_⟩
      · simp only [FlushBuffer_nCharInBuffer]; decide
      · simp only [FlushBuffer_ChBuffer]
    · exact ⟨hn, fun h => by simp at h, fun _ _ => rfl⟩
  by_cases h3 : s.state = 3
  · have h0 := he (Or.inl h3)
    rw [ParseChar_state3 wc s c h3]
    split_ifs
    · exact ⟨hn, fun _ => h0, fun _ _ => rfl⟩
    · exact ⟨hn, fun _ => h0, fun _ _ => rfl⟩
    · obtain ⟨-, -, f3, f4, -, -⟩ := InterpretEscSeq_frame { s with es_argc := 0, suffix := c }
      refine ⟨?_, fun _ => ?_, fun _ _ => ?_⟩
      · simp only [f3]; exact hn
      · simp only [f3]; exact h0
      · simp only [f4]
  by_cases h4 : s.state = 4
  · have h0 := he (Or.inr h4)
    rw [ParseChar_state4 wc s c h4]
    split_ifs
    · exact ⟨hn, fun _ => h0, fun _ _ => rfl⟩
    · exact ⟨hn, fun _ => h0, fun _ _ => rfl⟩
    · exact ⟨hn, fun _ => h0, fun _ _ => rfl⟩
    · obtain ⟨-, -, f3, f4, -, -⟩ :=
        InterpretEscSeq_frame { s with es_argc := s.es_argc + 1, suffix := c }
      refine ⟨?_, fun _ => ?_, fun _ _ => ?_⟩
      · simp only [f3]; exact hn
      · simp only [f3]; exact h0
      · simp only [f4]
  · rw [ParseChar_idle wc s c h1 h2 h3 h4]
    exact ⟨hn, he, fun _ _ => rfl⟩

theorem ParseLoop_buffer (wc : WriteEffect) (input : List Nat) :
    ∀ s : ANSI, s.nCharInBuffer < BUFFER_SIZE →
      (s.state = 3 ∨ s.state = 4 → s.nCharInBuffer = 0) →
      (ParseLoop wc s input).nCharInBuffer < BUFFER_SIZE ∧
      ((ParseLoop wc s input).state = 3 ∨ (ParseLoop wc s input).state = 4 →
        (ParseLoop wc s input).nCharInBuffer = 0) ∧
      (∀ j, BUFFER_SIZE ≤ j → (ParseLoop wc s input).ChBuffer j = s.ChBuffer j) := by
  induction input with
  | nil => intro s hn he; exact ⟨hn, he, fun _ _ => rfl⟩
  | cons c cs ih =>
    intro s hn he
    obtain ⟨a1, a2, a3⟩ := ParseChar_buffer wc s c hn he
    obtain ⟨b1, b2, b3⟩ := ih _ a1 a2
    rw [ParseLoop_cons]
    exact ⟨b1, b2, fun j hj => (b3 j hj).trans (a3 j hj)⟩

theorem written_append (a b : List ConOp) : written (a ++ b) = written a ++ written b := by
  induction a with
  | nil => rfl
  | cons op a ih => cases op <;> simp [written, ih]

theorem Quiet_refl (s : ANSI) : Quiet s s := ⟨[], by simp, rfl⟩

theorem Quiet_scp {s r : ANSI} (p : COORD) (h : Quiet s r) :
    Quiet s (SetConsoleCursorPosition r p) := by
  obtain ⟨ops, e, w⟩ := h
  exact ⟨ops ++ [ConOp.SetConsoleCursorPosition p],
    by simp [SetConsoleCursorPosition, e], by simp [written_append, w, written]⟩

theorem Quiet_fill {s r : ANSI} (a l : Nat) (p : COORD) (h : Quiet s r) :
    Quiet s (FillConsoleOutput r a l p) := by
  obtain ⟨ops, e, w⟩ := h
  exact ⟨ops ++ [ConOp.FillConsoleOutputCharacter 32 l p, ConOp.FillConsoleOutputAttribute a l p],
    by simp [FillConsoleOutput, e], by simp [written_append, w, written]⟩

theorem Quiet_scroll {s r : ANSI} (R : SMALL_RECT) (p : COORD) (a : Nat) (h : Quiet s r) :
    Quiet s (ScrollConsoleScreenBuffer r R p a) := by
  obtain ⟨ops, e, w⟩ := h
  exact ⟨ops ++ [ConOp.ScrollConsoleScreenBuffer R p 32 a],
    by simp [ScrollConsoleScreenBuffer, e], by simp [written_append, w, written]⟩

theorem Quiet_attr {s r : ANSI} (a : Nat) (h : Quiet s r) :
    Quiet s (SetConsoleTextAttribute r a) := by
  obtain ⟨ops, e, w⟩ := h
  exact ⟨ops ++ [ConOp.SetConsoleTextAttribute a],
    by simp [SetConsoleTextAttribute, e], by simp [written_append, w, written]⟩

theorem Quiet_default {s r : ANSI} (d : Int) (h : Quiet s r) : Quiet s (defaultArg r d) := by
  unfold defaultArg
  split_ifs <;> exact h

theorem Quiet_savepos {s r : ANSI} (p : COORD) (h : Quiet s r) :
    Quiet s { r with SavePos := p } := h

theorem Quiet_SGRfold (s : ANSI) (l : List Nat) (r : ANSI) (h : Quiet s r) :
    Quiet s (l.foldl (fun st i => SGRArg st (st.es_argv i)) r) := by
  obtain ⟨ops, e, w⟩ := h
  exact ⟨ops, by rw [SGRfold_frame_trace, e], w⟩

set_option maxHeartbeats 4000000 in
/-- Function `InterpretEscSeq` makes console calls after those already made, and never a
`WriteConsole`. -/
theorem InterpretEscSeq_quiet (s : ANSI) : Quiet s (InterpretEscSeq s) := by
  have hc : s.suffix = 109 ∨ s.suffix = 74 ∨ s.suffix = 75 ∨ s.suffix = 76 ∨ s.suffix = 77 ∨
      s.suffix = 80 ∨ s.suffix = 64 ∨ s.suffix = 65 ∨ s.suffix = 66 ∨ s.suffix = 67 ∨
      s.suffix = 68 ∨ s.suffix = 69 ∨ s.suffix = 70 ∨ s.suffix = 71 ∨ s.suffix = 102 ∨
      s.suffix = 72 ∨ s.suffix = 115 ∨ s.suffix = 117 ∨
      (s.suffix ≠ 109 ∧ s.suffix ≠ 74 ∧ s.suffix ≠ 75 ∧ s.suffix ≠ 76 ∧ s.suffix ≠ 77 ∧
       s.suffix ≠ 80 ∧ s.suffix ≠ 64 ∧ s.suffix ≠ 65 ∧ s.suffix ≠ 66 ∧ s.suffix ≠ 67 ∧
       s.suffix ≠ 68 ∧ s.suffix ≠ 69 ∧ s.suffix ≠ 70 ∧ s.suffix ≠ 71 ∧ s.suffix ≠ 102 ∧
       s.suffix ≠ 72 ∧ s.suffix ≠ 115 ∧ s.suffix ≠ 117) := by omega
  rcases hc with h | h | h | h | h | h | h | h | h | h | h | h | h | h | h | h | h | h | h
  all_goals simp only [InterpretEscSeq, InterpretSGR, h, if_true, if_false, Nat.reduceEqDiff, or_true, true_or, or_false, false_or, not_false_eq_true]
  all_goals try split_ifs
  all_goals
    first
      | exact Quiet_refl _
      | exact Quiet_default _ (Quiet_refl _)
      | exact Quiet_attr _ (Quiet_SGRfold _ _ _ (Quiet_default _ (Quiet_refl _)))
      | exact Quiet_scp _ (Quiet_default _ (Quiet_refl _))
      | exact Quiet_scp _ (Quiet_refl _)
      | exact Quiet_savepos _ (Quiet_refl _)
      | exact Quiet_fill _ _ _ (Quiet_default _ (Quiet_refl _))
      | exact Quiet_scp _ (Quiet_fill _ _ _ (Quiet_default _ (Quiet_refl _)))
      | exact Quiet_scroll _ _ _ (Quiet_default _ (Quiet_refl _))

/-- Function `FlushBuffer` writes the buffered text in one call when there is some, and
makes no call otherwise. -/
theorem FlushBuffer_writes (wc : WriteEffect) (s : ANSI) :
    (FlushBuffer wc s).trace =
      (if s.nCharInBuffer = 0 then s.trace else s.trace ++ [ConOp.WriteConsole (pending s)]) ∧
    (FlushBuffer wc s).con = (if s.nCharInBuffer = 0 then s.con else wc s.con (pending s)) := by
  by_cases h : s.nCharInBuffer = 0
  · simp [FlushBuffer, h]
  · simp [FlushBuffer, h, WriteConsole, pending]

/-- Function `PushBuffer` on a buffer with room for more than one unit only stores the
unit; on a buffer with room for one unit it writes the 256 units in one call. -/
theorem PushBuffer_writes (wc : WriteEffect) (s : ANSI) (c : Nat) :
    (s.nCharInBuffer + 1 < BUFFER_SIZE →
      (PushBuffer wc s c).trace = s.trace ∧ (PushBuffer wc s c).con = s.con ∧
      pending (PushBuffer wc s c) = pending s ++ [c]) ∧
    (s.nCharInBuffer + 1 = BUFFER_SIZE →
      (PushBuffer wc s c).trace = s.trace ++ [ConOp.WriteConsole (pending s ++ [c])] ∧
      (PushBuffer wc s c).con = wc s.con (pending s ++ [c]) ∧
      (PushBuffer wc s c).nCharInBuffer = 0) := by
  refine ⟨fun h => ?_, fun h => ?_⟩
  · have hfull : ¬ (s.nCharInBuffer + 1 ≥ BUFFER_SIZE) := by omega
    have hpush : PushBuffer wc s c =
        { s with nCharInBuffer := s.nCharInBuffer + 1,
                 ChBuffer := store s.ChBuffer s.nCharInBuffer c } := by
      simp [PushBuffer, hfull]
    rw [hpush]
    exact ⟨rfl, rfl, by simp [pending, map_range_store]⟩
  · have hfull : s.nCharInBuffer + 1 ≥ BUFFER_SIZE := by omega
    have hpush : PushBuffer wc s c =
        { s with con := wc s.con (pending s ++ [c]),
                 trace := s.trace ++ [ConOp.WriteConsole (pending s ++ [c])],
                 nCharInBuffer := 0,
                 ChBuffer := store s.ChBuffer s.nCharInBuffer c } := by
      simp [PushBuffer, hfull, FlushBuffer, WriteConsole, map_range_store, pending]
    rw [hpush]
    exact ⟨rfl, rfl, rfl⟩

theorem FlushBuffer_text (wc : WriteEffect) (s : ANSI) :
    written (FlushBuffer wc s).trace ++ pending (FlushBuffer wc s) =
      written s.trace ++ pending s := by
  by_cases h : s.nCharInBuffer = 0
  · rw [FlushBuffer_empty wc s h]
  · simp [FlushBuffer, h, WriteConsole, pending, written_append, written]

theorem PushBuffer_text (wc : WriteEffect) (s : ANSI) (c : Nat)
    (hn : s.nCharInBuffer < BUFFER_SIZE) :
    written (PushBuffer wc s c).trace ++ pending (PushBuffer wc s c) =
      written s.trace ++ pending s ++ [c] := by
  obtain ⟨h1, h2⟩ := PushBuffer_writes wc s c
  by_cases h : s.nCharInBuffer + 1 < BUFFER_SIZE
  · obtain ⟨a, -, b⟩ := h1 h
    rw [a, b, List.append_assoc]
  · obtain ⟨a, -, b⟩ := h2 (by omega)
    rw [a]
    simp [pending, b, written_append, written]

theorem pending_congr (s r : ANSI) (h1 : r.nCharInBuffer = s.nCharInBuffer)
    (h2 : r.ChBuffer = s.ChBuffer) : pending r = pending s := by
  unfold pending
  rw [h1, h2]

theorem InterpretEscSeq_text (s : ANSI) :
    written (InterpretEscSeq s).trace = written s.trace ∧
    pending (InterpretEscSeq s) = pending s := by
  obtain ⟨ops, e, w⟩ := InterpretEscSeq_quiet s
  obtain ⟨-, -, f3, f4, -, -⟩ := InterpretEscSeq_frame s
  exact ⟨by rw [e, written_append, w, List.append_nil], pending_congr _ _ f3 f4⟩

/-- One step of the loop neither loses nor invents text: what has been written and what
waits in the buffer grow by the unit read when it is literal, and not at all otherwise. -/
theorem ParseChar_text (wc : WriteEffect) (s : ANSI) (c : Nat)
    (hn : s.nCharInBuffer < BUFFER_SIZE) :
    written (ParseChar wc s c).trace ++ pending (ParseChar wc s c) =
      written s.trace ++ pending s ++ (if s.state = 1 ∧ c ≠ ESC then [c] else []) := by
  by_cases h1 : s.state = 1
  · rw [ParseChar_state1 wc s c h1]
    by_cases hc : c = ESC
    · simp [hc, h1, pending]
    · simp only [hc, if_false, h1, ne_eq, not_false_eq_true, and_self, if_true]
      exact PushBuffer_text wc s c hn
  have hl : (if s.state = 1 ∧ c ≠ ESC then [c] else []) = [] := by simp [h1]
  rw [hl, List.append_nil]
  by_cases h2 : s.state = 2
  · rw [ParseChar_state2 wc s c h2]
    split_ifs
    · rfl
    · exact FlushBuffer_text wc s
    · rfl
  by_cases h3 : s.state = 3
  · rw [ParseChar_state3 wc s c h3]
    split_ifs
    · rfl
    · rfl
    · obtain ⟨a, b⟩ := InterpretEscSeq_text { s with es_argc := 0, suffix := c }
      exact congrArg₂ (· ++ ·) a b
  by_cases h4 : s.state = 4
  · rw [ParseChar_state4 wc s c h4]
    split_ifs
    · rfl
    · rfl
    · rfl
    · obtain ⟨a, b⟩ := InterpretEscSeq_text { s with es_argc := s.es_argc + 1, suffix := c }
      exact congrArg₂ (· ++ ·) a b
  · rw [ParseChar_idle wc s c h1 h2 h3 h4]

theorem ParseLoop_text (wc : WriteEffect) (input : List Nat) :
    ∀ s : ANSI, s.nCharInBuffer < BUFFER_SIZE →
      (s.state = 3 ∨ s.state = 4 → s.nCharInBuffer = 0) →
      written (ParseLoop wc s input).trace ++ pending (ParseLoop wc s input) =
        written s.trace ++ pending s ++ literalUnits wc s input := by
  induction input with
  | nil => intro s _ _; simp [literalUnits, ParseLoop_nil]
  | cons c cs ih =>
    intro s hn he
    obtain ⟨a1, a2, -⟩ := ParseChar_buffer wc s c hn he
    rw [ParseLoop_cons, ih _ a1 a2, ParseChar_text wc s c hn]
    simp [literalUnits]

/-- C24: from globals with an empty print buffer, after any part `pre` of any input.
Fewer than 256 units are buffered, and `PushBuffer` then stores below index 256 and again
leaves fewer than 256 units: it only stores the unit while there is room for more than one,
and when the unit is the 256th it writes the 256 units in one `WriteConsole` call at once
and leaves the buffer empty.  `FlushBuffer` writes the buffered units in one call.  No slot
of index 256 or more has been written.  No text is lost or invented: the text written so
far followed by the buffered units is the text written before followed by the literal units
of `pre`.  In states 3 and 4 the buffer is empty, so that the call of `InterpretEscSeq`,
made from these states on a unit that is neither a digit nor `;`, finds it empty with all
literal units of `pre` written, makes its console calls after them, none a `WriteConsole`,
and leaves the buffer empty.  And on return from every call of `ParseAndPrintString` the
buffer is empty, with all literal units of the input written. -/
theorem C24_buffer_discipline (wc : WriteEffect) (s0 : ANSI) (pre : List Nat)
    (hbuf : s0.nCharInBuffer = 0) :
    (ParseLoop wc s0 pre).nCharInBuffer < BUFFER_SIZE ∧
    (∀ c, (PushBuffer wc (ParseLoop wc s0 pre) c).nCharInBuffer < BUFFER_SIZE ∧
      ∀ j, BUFFER_SIZE ≤ j →
        (PushBuffer wc (ParseLoop wc s0 pre) c).ChBuffer j = (ParseLoop wc s0 pre).ChBuffer j) ∧
    (∀ c,
      ((ParseLoop wc s0 pre).nCharInBuffer + 1 < BUFFER_SIZE →
        (PushBuffer wc (ParseLoop wc s0 pre) c).trace = (ParseLoop wc s0 pre).trace ∧
        pending (PushBuffer wc (ParseLoop wc s0 pre) c) = pending (ParseLoop wc s0 pre) ++ [c]) ∧
      ((ParseLoop wc s0 pre).nCharInBuffer + 1 = BUFFER_SIZE →
        (PushBuffer wc (ParseLoop wc s0 pre) c).trace =
          (ParseLoop wc s0 pre).trace ++
            [ConOp.WriteConsole (pending (ParseLoop wc s0 pre) ++ [c])] ∧
        (PushBuffer wc (ParseLoop wc s0 pre) c).nCharInBuffer = 0)) ∧
    (FlushBuffer wc (ParseLoop wc s0 pre)).trace =
      (if (ParseLoop wc s0 pre).nCharInBuffer = 0 then (ParseLoop wc s0 pre).trace
       else (ParseLoop wc s0 pre).trace ++
         [ConOp.WriteConsole (pending (ParseLoop wc s0 pre))]) ∧
    (∀ j, BUFFER_SIZE ≤ j → (ParseLoop wc s0 pre).ChBuffer j = s0.ChBuffer j) ∧
    written (ParseLoop wc s0 pre).trace ++ pending (ParseLoop wc s0 pre) =
      written s0.trace ++ literalUnits wc s0 pre ∧
    (∀ c, ((ParseLoop wc s0 pre).state = 3 ∨ (ParseLoop wc s0 pre).state = 4) →
      isdigit c = false → c ≠ 59 →
      ∃ S : ANSI,
        ParseChar wc (ParseLoop wc s0 pre) c = { InterpretEscSeq S with state := 1 } ∧
        S.nCharInBuffer = 0 ∧ S.trace = (ParseLoop wc s0 pre).trace ∧
        written S.trace = written s0.trace ++ literalUnits wc s0 pre ∧
        (∃ ops, (InterpretEscSeq S).trace = S.trace ++ ops ∧ written ops = []) ∧
        (InterpretEscSeq S).nCharInBuffer = 0) ∧
    (∀ (s : ANSI) (hDev : Nat) (input : List Nat),
      (ParseAndPrintString wc s hDev input).1.nCharInBuffer = 0) ∧
    (∀ hDev : Nat,
      written (ParseAndPrintString wc s0 hDev pre).1.trace =
        written s0.trace ++
          literalUnits wc
            (if hDev ≠ s0.hConOut then { s0 with hConOut := hDev, state := 1 } else s0) pre) := by
  obtain ⟨i1, i2, i3⟩ := ParseLoop_buffer wc pre s0 (by rw [hbuf]; decide) (fun _ => hbuf)
  have hp0 : pending s0 = [] := by simp [pending, hbuf]
  have htext := ParseLoop_text wc pre s0 (by rw [hbuf]; decide) (fun _ => hbuf)
  rw [hp0, List.append_nil] at htext
  have hwr : ∀ h0 : (ParseLoop wc s0 pre).nCharInBuffer = 0,
      written (ParseLoop wc s0 pre).trace = written s0.trace ++ literalUnits wc s0 pre := by
    intro h0
    have hp : pending (ParseLoop wc s0 pre) = [] := by simp [pending, h0]
    rw [hp, List.append_nil] at htext
    exact htext
  refine ⟨i1, fun c => PushBuffer_bound wc _ c i1, fun c => ?_, (FlushBuffer_writes wc _).1, i3,
    htext, ?_, ?_, ?_⟩
  · obtain ⟨p1, p2⟩ := PushBuffer_writes wc (ParseLoop wc s0 pre) c
    exact ⟨fun h => ⟨(p1 h).1, (p1 h).2.2⟩, fun h => ⟨(p2 h).1, (p2 h).2.2⟩⟩
  · intro c hst hd h59
    have h0 := i2 hst
    rcases hst with h3 | h4
    · refine ⟨{ ParseLoop wc s0 pre with es_argc := 0, suffix := c }, ?_, h0, rfl, hwr h0,
        InterpretEscSeq_quiet _, ?_⟩
      · rw [ParseChar_final0 wc _ c h3 hd h59]
      · rw [(InterpretEscSeq_frame _).2.2.1]; exact h0
    · refine ⟨{ ParseLoop wc s0 pre with
                  es_argc := (ParseLoop wc s0 pre).es_argc + 1, suffix := c }, ?_, h0, rfl,
        hwr h0, InterpretEscSeq_quiet _, ?_⟩
      · rw [ParseChar_final wc _ c h4 hd h59]
      · rw [(InterpretEscSeq_frame _).2.2.1]; exact h0
  · intro s hDev input
    simp only [ParseAndPrintString]
    exact FlushBuffer_nCharInBuffer wc _
  · intro hDev
    have hb1 : (if hDev ≠ s0.hConOut then { s0 with hConOut := hDev, state := 1 } else s0).nCharInBuffer
        = 0 := by
      split_ifs <;> exact hbuf
    have ht1 : (if hDev ≠ s0.hConOut then { s0 with hConOut := hDev, state := 1 } else s0).trace
        = s0.trace := by
      split_ifs <;> rfl
    have key : ∀ s1 : ANSI, s1.nCharInBuffer = 0 → s1.trace = s0.trace →
        written (FlushBuffer wc (ParseLoop wc s1 pre)).trace =
          written s0.trace ++ literalUnits wc s1 pre := by
      intro s1 hb ht
      have hp1 : pending s1 = [] := by simp [pending, hb]
      have h := ParseLoop_text wc pre s1 (by rw [hb]; decide) (fun _ => hb)
      rw [hp1, List.append_nil, ht] at h
      have hf := FlushBuffer_text wc (ParseLoop wc s1 pre)
      have hp2 : pending (FlushBuffer wc (ParseLoop wc s1 pre)) = [] := by
        simp [pending, FlushBuffer_nCharInBuffer]
      rw [hp2, List.append_nil, h] at hf
      exact hf
    simp only [ParseAndPrintString]
    exact key _ hb1 ht1

set_option maxRecDepth 1000000 in
theorem buffer_example :
    (ParseLoop quietConsole (sample 80 25 0 0 7)
      (List.replicate 300 65 ++ [ESC, 91, 51])).state = 4 ∧
    (ParseLoop quietConsole (sample 80 25 0 0 7)
      (List.replicate 300 65 ++ [ESC, 91, 51])).trace =
      [ConOp.WriteConsole (List.replicate 256 65), ConOp.WriteConsole (List.replicate 44 65)] ∧
    literalUnits quietConsole (sample 80 25 0 0 7) (List.replicate 300 65 ++ [ESC, 91, 51]) =
      List.replicate 300 65 ∧
    literalUnits quietConsole (sample 80 25 0 0 7)
      ([65, 66] ++ CSI [[51, 49]] 109 ++ [67, ESC, 88, 68]) = [65, 66, 67, 68] :=
  ⟨by decide, by decide, by decide, by decide⟩

/-- Witness of C24: after 300 units `A` and `ESC [ 3` the buffer is empty (state 4), and
the 300 units, all of them literal, have been written in two calls. -/
theorem C24_buffer_discipline_witness :
    (ParseLoop quietConsole (sample 80 25 0 0 7)
      (List.replicate 300 65 ++ [ESC, 91, 51])).nCharInBuffer < BUFFER_SIZE ∧
    written (ParseLoop quietConsole (sample 80 25 0 0 7)
        (List.replicate 300 65 ++ [ESC, 91, 51])).trace ++
      pending (ParseLoop quietConsole (sample 80 25 0 0 7)
        (List.replicate 300 65 ++ [ESC, 91, 51])) =
      written (sample 80 25 0 0 7).trace ++
        literalUnits quietConsole (sample 80 25 0 0 7)
          (List.replicate 300 65 ++ [ESC, 91, 51]) ∧
    ((ParseLoop quietConsole (sample 80 25 0 0 7)
        (List.replicate 300 65 ++ [ESC, 91, 51])).state = 4 ∧
      (ParseLoop quietConsole (sample 80 25 0 0 7)
        (List.replicate 300 65 ++ [ESC, 91, 51])).trace =
        [ConOp.WriteConsole (List.replicate 256 65),
         ConOp.WriteConsole (List.replicate 44 65)] ∧
      literalUnits quietConsole (sample 80 25 0 0 7)
        (List.replicate 300 65 ++ [ESC, 91, 51]) = List.replicate 300 65 ∧
      literalUnits quietConsole (sample 80 25 0 0 7)
        ([65, 66] ++ CSI [[51, 49]] 109 ++ [67, ESC, 88, 68]) = [65, 66, 67, 68]) :=
  ⟨(C24_buffer_discipline quietConsole (sample 80 25 0 0 7)
      (List.replicate 300 65 ++ [ESC, 91, 51]) rfl).1,
   (C24_buffer_discipline quietConsole (sample 80 25 0 0 7)
      (List.replicate 300 65 ++ [ESC, 91, 51]) rfl).2.2.2.2.2.1, buffer_example⟩

/-! ## C25: the invariant of the attribute globals -/

theorem defaultArg_attrState (s : ANSI) (d : Int) : attrState (defaultArg s d) = attrState s := by
  unfold defaultArg
  split_ifs <;> rfl

set_option maxHeartbeats 4000000 in
/-- The cases of `InterpretEscSeq` other than `m` leave the attribute globals alone. -/
theorem InterpretEscSeq_attrState (s : ANSI) (hm : s.suffix ≠ 109) :
    attrState (InterpretEscSeq s) = attrState s := by
  have hc : s.suffix = 74 ∨ s.suffix = 75 ∨ s.suffix = 76 ∨ s.suffix = 77 ∨
      s.suffix = 80 ∨ s.suffix = 64 ∨ s.suffix = 65 ∨ s.suffix = 66 ∨ s.suffix = 67 ∨
      s.suffix = 68 ∨ s.suffix = 69 ∨ s.suffix = 70 ∨ s.suffix = 71 ∨ s.suffix = 102 ∨
      s.suffix = 72 ∨ s.suffix = 115 ∨ s.suffix = 117 ∨
      (s.suffix ≠ 109 ∧ s.suffix ≠ 74 ∧ s.suffix ≠ 75 ∧ s.suffix ≠ 76 ∧ s.suffix ≠ 77 ∧
       s.suffix ≠ 80 ∧ s.suffix ≠ 64 ∧ s.suffix ≠ 65 ∧ s.suffix ≠ 66 ∧ s.suffix ≠ 67 ∧
       s.suffix ≠ 68 ∧ s.suffix ≠ 69 ∧ s.suffix ≠ 70 ∧ s.suffix ≠ 71 ∧ s.suffix ≠ 102 ∧
       s.suffix ≠ 72 ∧ s.suffix ≠ 115 ∧ s.suffix ≠ 117) := by omega
  have hd : ∀ d : Int, attrState (defaultArg s d) = attrState s := defaultArg_attrState s
  rcases hc with h | h | h | h | h | h | h | h | h | h | h | h | h | h | h | h | h | h
  all_goals simp only [InterpretEscSeq, h, if_true, if_false, Nat.reduceEqDiff, or_true, true_or, or_false, false_or, not_false_eq_true]
  all_goals try split_ifs
  all_goals
    first
      | rfl
      | exact hd _

theorem attrInv_of_attrState (s r : ANSI) (h : attrState r = attrState s) (hi : attrInv s) :
    attrInv r := by
  simp only [attrState, List.cons.injEq, and_true] at h
  obtain ⟨h1, h2, h3, h4, h5, h6, h7, h8, h9, h10⟩ := h
  unfold attrInv at *
  rw [h1, h2, h3, h4, h5, h6, h7, h8, h9, h10]
  exact hi

theorem SGRSwitch_attrInv (s : ANSI) (v : Int) (hi : attrInv s) : attrInv (SGRSwitch s v) := by
  obtain ⟨h1, h2, h3, h4, h5, h6, h7, h8, h9, h10⟩ := hi
  unfold SGRSwitch
  split_ifs <;> unfold attrInv <;>
    refine ⟨?_, ?_, ?_, ?_, ?_, ?_, ?_, ?_, ?_, ?_⟩ <;>
    first
      | assumption
      | exact Or.inl rfl
      | exact Or.inr rfl
      | exact Nat.zero_le _
      | exact le_refl _

/-- The loop body of case `m` keeps the invariant, whatever the argument value. -/
theorem SGRArg_attrInv (s : ANSI) (v : Int) (hi : attrInv s) : attrInv (SGRArg s v) := by
  obtain ⟨h1, h2, h3, h4, h5, h6, h7, h8, h9, h10⟩ := SGRSwitch_attrInv s v hi
  by_cases hf : 30 ≤ v ∧ v ≤ 37
  · have hb : ¬ (40 ≤ v ∧ v ≤ 47) := by omega
    have e : SGRArg s v = { SGRSwitch s v with foreground := (v - 30).toNat } := by
      simp [SGRArg, hf, hb]
    rw [e]
    exact ⟨by simp only; omega, h2, h3, h4, h5, h6, h7, h8, h9, h10⟩
  · by_cases hb : 40 ≤ v ∧ v ≤ 47
    · have e : SGRArg s v = { SGRSwitch s v with background := (v - 40).toNat } := by
        simp [SGRArg, hf, hb]
      rw [e]
      exact ⟨h1, by simp only; omega, h3, h4, h5, h6, h7, h8, h9, h10⟩
    · have e : SGRArg s v = SGRSwitch s v := by
        simp [SGRArg, hf, hb]
      rw [e]
      exact ⟨h1, h2, h3, h4, h5, h6, h7, h8, h9, h10⟩

theorem SGRfold_attrInv (l : List Nat) :
    ∀ s : ANSI, attrInv s → attrInv (l.foldl (fun st i => SGRArg st (st.es_argv i)) s) := by
  induction l with
  | nil => intro s h; exact h
  | cons i l ih => intro s h; exact ih _ (SGRArg_attrInv _ _ h)

theorem or_lt_256 (x y : Nat) (hx : x < 256) (hy : y < 256) : x ||| y < 256 :=
  @Nat.or_lt_two_pow x y 8 hx hy

theorem palette_lt (i : Nat) (hi : i < 8) :
    foregroundcolor i < 256 ∧ backgroundcolor i < 256 := by
  interval_cases i <;> decide

/-- Under the invariant the attribute word fits in 8 bits. -/
theorem attribut_lt (s : ANSI) (hi : attrInv s) : attribut s < 256 := by
  obtain ⟨h1, h2, h3, h4, -⟩ := hi
  obtain ⟨f1, f2⟩ := palette_lt s.foreground h1
  obtain ⟨b1, b2⟩ := palette_lt s.background h2
  have hbo : s.bold < 256 := by
    rcases h3 with h | h <;> rw [h] <;> decide
  have hul : s.underline < 256 := by
    rcases h4 with h | h <;> rw [h] <;> decide
  have hFI : FOREGROUND_INTENSITY < 256 := by decide
  have hBI : BACKGROUND_INTENSITY < 256 := by decide
  unfold attribut
  simp only
  split_ifs <;> repeat (first | assumption | apply or_lt_256)

theorem FlushBuffer_attrState (wc : WriteEffect) (s : ANSI) :
    attrState (FlushBuffer wc s) = attrState s := by
  unfold FlushBuffer
  split_ifs <;> rfl

theorem PushBuffer_attrState (wc : WriteEffect) (s : ANSI) (c : Nat) :
    attrState (PushBuffer wc s c) = attrState s := by
  unfold PushBuffer
  simp only
  split_ifs
  · rw [FlushBuffer_attrState]; rfl
  · rfl

/-- Case `m` under the invariant: the invariant holds afterwards and the word applied, the
one call made, fits in 8 bits. -/
theorem InterpretEscSeq_SGR_attrInv (S : ANSI) (hi : attrInv S) (hm : S.suffix = 109) :
    attrInv (InterpretEscSeq S) ∧
    ∃ a, a < 256 ∧
      (InterpretEscSeq S).trace = S.trace ++ [ConOp.SetConsoleTextAttribute a] ∧
      (InterpretEscSeq S).con.wAttributes = a := by
  have e : InterpretEscSeq S = InterpretSGR S := by simp [InterpretEscSeq, hm]
  have h0 : attrInv (defaultArg S 0) :=
    attrInv_of_attrState S _ (defaultArg_attrState S 0) hi
  have h1 := SGRfold_attrInv (List.range (defaultArg S 0).es_argc) _ h0
  have ht : ((List.range (defaultArg S 0).es_argc).foldl
      (fun st i => SGRArg st (st.es_argv i)) (defaultArg S 0)).trace = S.trace := by
    have hf := (SGRfold_frame_trace (List.range (defaultArg S 0).es_argc) (defaultArg S 0))
    rw [hf]
    unfold defaultArg
    split_ifs <;> rfl
  rw [e]
  unfold InterpretSGR
  simp only
  refine ⟨attrInv_of_attrState _ _ rfl h1, _, attribut_lt _ h1, ?_, rfl⟩
  simp only [SetConsoleTextAttribute, ht]

theorem InterpretEscSeq_attrInv (S : ANSI) (hi : attrInv S) : attrInv (InterpretEscSeq S) := by
  by_cases hm : S.suffix = 109
  · exact (InterpretEscSeq_SGR_attrInv S hi hm).1
  · exact attrInv_of_attrState S _ (InterpretEscSeq_attrState S hm) hi

theorem ParseChar_attrInv (wc : WriteEffect) (s : ANSI) (c : Nat) (hi : attrInv s) :
    attrInv (ParseChar wc s c) := by
  by_cases h1 : s.state = 1
  · rw [ParseChar_state1 wc s c h1]
    split_ifs
    · exact hi
    · exact attrInv_of_attrState s _ (PushBuffer_attrState wc s c) hi
  by_cases h2 : s.state = 2
  · rw [ParseChar_state2 wc s c h2]
    split_ifs
    · exact hi
    · exact attrInv_of_attrState s _ (FlushBuffer_attrState wc s) hi
    · exact hi
  by_cases h3 : s.state = 3
  · rw [ParseChar_state3 wc s c h3]
    split_ifs
    · exact hi
    · exact hi
    · exact attrInv_of_attrState _ _ rfl
        (InterpretEscSeq_attrInv _
          (attrInv_of_attrState s { s with es_argc := 0, suffix := c } rfl hi))
  by_cases h4 : s.state = 4
  · rw [ParseChar_state4 wc s c h4]
    split_ifs
    · exact hi
    · exact hi
    · exact hi
    · exact attrInv_of_attrState _ _ rfl
        (InterpretEscSeq_attrInv _
          (attrInv_of_attrState s { s with es_argc := s.es_argc + 1, suffix := c } rfl hi))
  · rw [ParseChar_idle wc s c h1 h2 h3 h4]
    exact hi

theorem ParseLoop_attrInv (wc : WriteEffect) (input : List Nat) :
    ∀ s : ANSI, attrInv s → attrInv (ParseLoop wc s input) := by
  induction input with
  | nil => intro s h; exact h
  | cons c cs ih => intro s h; rw [ParseLoop_cons]; exact ih _ (ParseChar_attrInv wc s c h)

set_option maxRecDepth 100000 in
theorem original_byte : ∀ r : Nat, r < 256 →
    attr2ansi (r &&& 7) < 8 ∧ attr2ansi ((r >>> 4) &&& 7) < 8 ∧
    (r &&& FOREGROUND_INTENSITY = 0 ∨ r &&& FOREGROUND_INTENSITY = FOREGROUND_INTENSITY) ∧
    (r &&& BACKGROUND_INTENSITY = 0 ∨ r &&& BACKGROUND_INTENSITY = BACKGROUND_INTENSITY) := by
  decide

/-- Function `OriginalAttr` sets up the invariant, whatever the attribute word of the
console, when `rvideo` and `concealed` are 0 or 1 (they are initialised to 0). -/
theorem OriginalAttr_attrInv (queryOk : Bool) (s : ANSI)
    (hr : s.rvideo ≤ 1) (hc : s.concealed ≤ 1) : attrInv (OriginalAttr queryOk s) := by
  unfold OriginalAttr
  simp only
  generalize (if queryOk = true then s.con.wAttributes else 7) = a
  have h := original_byte (a % 256) (Nat.mod_lt _ (by decide))
  rw [← and_low_byte a 7 (by decide), ← shift_low_byte a,
    ← and_low_byte a FOREGROUND_INTENSITY (by decide),
    ← and_low_byte a BACKGROUND_INTENSITY (by decide)] at h
  obtain ⟨h1, h2, h3, h4⟩ := h
  exact ⟨h1, h2, h3, h4, hr, hc, h1, h2, h3, h4⟩

/-- C25: after `OriginalAttr` - whatever attribute word the console reports, or with the
fallback 7 - and after any input read by the loop, with any argument values, the colour
indices are in 0..7, `bold` is 0 or `FOREGROUND_INTENSITY`, `underline` is 0 or
`BACKGROUND_INTENSITY`, `rvideo` and `concealed` are 0 or 1 (`attrInv`); so every palette
index is below 8, the attribute word computed from the globals is below 256, and every
call of case `m` applies a word below 256.  The globals `rvideo` and `concealed`, which
`OriginalAttr` does not set, are taken to be 0 or 1 before it (they are initialised to
0). -/
theorem C25_attribute_invariant (wc : WriteEffect) (queryOk : Bool) (s0 : ANSI)
    (input : List Nat) (hr : s0.rvideo ≤ 1) (hc : s0.concealed ≤ 1) :
    attrInv (OriginalAttr queryOk s0) ∧
    attrInv (ParseLoop wc (OriginalAttr queryOk s0) input) ∧
    (ParseLoop wc (OriginalAttr queryOk s0) input).foreground < 8 ∧
    (ParseLoop wc (OriginalAttr queryOk s0) input).background < 8 ∧
    attribut (ParseLoop wc (OriginalAttr queryOk s0) input) < 256 ∧
    (∀ S : ANSI, attrInv S → S.suffix = 109 →
      attrInv (InterpretEscSeq S) ∧
      ∃ a, a < 256 ∧
        (InterpretEscSeq S).trace = S.trace ++ [ConOp.SetConsoleTextAttribute a] ∧
        (InterpretEscSeq S).con.wAttributes = a) := by
  have h0 := OriginalAttr_attrInv queryOk s0 hr hc
  have h1 := ParseLoop_attrInv wc input _ h0
  exact ⟨h0, h1, h1.1, h1.2.1, attribut_lt _ h1,
    fun S hi hm => InterpretEscSeq_SGR_attrInv S hi hm⟩

/-- Witness of C25: on a console with the attribute word `1FF`, after `OriginalAttr` and
`ESC [ 1 ; 99 ; 37 ; 45 ; 7 ; 8 m` the globals satisfy the invariant and the word applied
is `FF`. -/
theorem C25_attribute_invariant_witness :
    attrInv (ParseLoop quietConsole (OriginalAttr true (sample 80 25 0 0 511))
      (CSI [[49], [57, 57], [51, 55], [52, 53], [55], [56]] 109)) ∧
    (ParseLoop quietConsole (OriginalAttr true (sample 80 25 0 0 511))
      (CSI [[49], [57, 57], [51, 55], [52, 53], [55], [56]] 109)).trace =
      [ConOp.SetConsoleTextAttribute 255] :=
  ⟨(C25_attribute_invariant quietConsole true (sample 80 25 0 0 511)
      (CSI [[49], [57, 57], [51, 55], [52, 53], [55], [56]] 109) (by decide) (by decide)).2.1,
   by decide⟩

/-! ## C27: chunking -/

theorem addOp_write_write (acc : List ConOp) (a b : List Nat) :
    addOp (addOp acc (ConOp.WriteConsole a)) (ConOp.WriteConsole b) =
      addOp acc (ConOp.WriteConsole (a ++ b)) := by
  cases acc with
  | nil => rfl
  | cons op rest =>
    cases op <;> simp [addOp]

theorem foldl_addOp_snoc (tr : List ConOp) (op : ConOp) :
    (tr ++ [op]).foldl addOp [] = addOp (tr.foldl addOp []) op := by
  simp [List.foldl_append]

/-- The print buffer flushed after one more unit has been pushed. -/
theorem FlushBuffer_PushBuffer (wc : WriteEffect) (x : ANSI) (c : Nat) :
    FlushBuffer wc (PushBuffer wc x c) =
      { x with ChBuffer := store x.ChBuffer x.nCharInBuffer c, nCharInBuffer := 0,
               con := wc x.con (pending x ++ [c]),
               trace := x.trace ++ [ConOp.WriteConsole (pending x ++ [c])] } := by
  have hp : (List.range (x.nCharInBuffer + 1)).map (store x.ChBuffer x.nCharInBuffer c)
      = pending x ++ [c] := map_range_store x.ChBuffer x.nCharInBuffer c
  have h1 : FlushBuffer wc { x with ChBuffer := store x.ChBuffer x.nCharInBuffer c,
                                    nCharInBuffer := x.nCharInBuffer + 1 } =
      { x with ChBuffer := store x.ChBuffer x.nCharInBuffer c, nCharInBuffer := 0,
               con := wc x.con (pending x ++ [c]),
               trace := x.trace ++ [ConOp.WriteConsole (pending x ++ [c])] } := by
    simp [FlushBuffer, WriteConsole, hp]
  unfold PushBuffer
  simp only
  split_ifs
  · rw [FlushBuffer_idem, h1]
  · exact h1

theorem defaultArg_transport (pre : List ConOp) (b : Nat → Nat) (s : ANSI) (d : Int) :
    defaultArg (transport pre b s) d = transport pre b (defaultArg s d) := by
  unfold defaultArg transport
  split_ifs <;> rfl

theorem SGRArg_transport (pre : List ConOp) (b : Nat → Nat) (s : ANSI) (v : Int) :
    SGRArg (transport pre b s) v = transport pre b (SGRArg s v) := by
  have h1 : SGRSwitch (transport pre b s) v = transport pre b (SGRSwitch s v) := by
    unfold SGRSwitch
    simp only [apply_ite (transport pre b)]
    rfl
  unfold SGRArg
  simp only [h1]
  split_ifs <;> rfl

theorem SGRfold_transport (pre : List ConOp) (b : Nat → Nat) (l : List Nat) :
    ∀ s : ANSI,
      l.foldl (fun st i => SGRArg st (st.es_argv i)) (transport pre b s) =
        transport pre b (l.foldl (fun st i => SGRArg st (st.es_argv i)) s) := by
  induction l with
  | nil => intro s; rfl
  | cons i l ih =>
    intro s
    simp only [List.foldl_cons]
    have e : (transport pre b s).es_argv i = s.es_argv i := rfl
    rw [e, SGRArg_transport, ih]

theorem InterpretSGR_transport (pre : List ConOp) (b : Nat → Nat) (s : ANSI) :
    InterpretSGR (transport pre b s) = transport pre b (InterpretSGR s) := by
  unfold InterpretSGR
  simp only [defaultArg_transport]
  have e : (transport pre b (defaultArg s 0)).es_argc = (defaultArg s 0).es_argc := rfl
  rw [e, SGRfold_transport]
  generalize (List.range (defaultArg s 0).es_argc).foldl
    (fun st i => SGRArg st (st.es_argv i)) (defaultArg s 0) = X
  have ha : attribut (transport pre b X) = attribut X := rfl
  rw [ha]
  simp [transport, SetConsoleTextAttribute]

set_option maxHeartbeats 4000000 in
/-- Function `InterpretEscSeq` does not look at the trace or at the print buffer array. -/
theorem InterpretEscSeq_transport (pre : List ConOp) (b : Nat → Nat) (s : ANSI) :
    InterpretEscSeq (transport pre b s) = transport pre b (InterpretEscSeq s) := by
  have hc : s.suffix = 109 ∨ s.suffix = 102 ∨ s.suffix = 72 ∨ s.suffix = 74 ∨ s.suffix = 75 ∨
      s.suffix = 76 ∨ s.suffix = 77 ∨
      s.suffix = 80 ∨ s.suffix = 64 ∨ s.suffix = 65 ∨ s.suffix = 66 ∨ s.suffix = 67 ∨
      s.suffix = 68 ∨ s.suffix = 69 ∨ s.suffix = 70 ∨ s.suffix = 71 ∨
      s.suffix = 115 ∨ s.suffix = 117 ∨
      (s.suffix ≠ 109 ∧ s.suffix ≠ 74 ∧ s.suffix ≠ 75 ∧ s.suffix ≠ 76 ∧ s.suffix ≠ 77 ∧
       s.suffix ≠ 80 ∧ s.suffix ≠ 64 ∧ s.suffix ≠ 65 ∧ s.suffix ≠ 66 ∧ s.suffix ≠ 67 ∧
       s.suffix ≠ 68 ∧ s.suffix ≠ 69 ∧ s.suffix ≠ 70 ∧ s.suffix ≠ 71 ∧ s.suffix ≠ 102 ∧
       s.suffix ≠ 72 ∧ s.suffix ≠ 115 ∧ s.suffix ≠ 117) := by omega
  have e1 : ∀ X : ANSI, (transport pre b X).suffix = X.suffix := fun _ => rfl
  have e2 : ∀ X : ANSI, (transport pre b X).con = X.con := fun _ => rfl
  have e3 : ∀ X : ANSI, (transport pre b X).es_argc = X.es_argc := fun _ => rfl
  have e4 : ∀ X : ANSI, (transport pre b X).es_argv = X.es_argv := fun _ => rfl
  have e5 : ∀ X : ANSI, (transport pre b X).SavePos = X.SavePos := fun _ => rfl
  rcases hc with h | h | h | h | h | h | h | h | h | h | h | h | h | h | h | h | h | h | h
  · have a1 : InterpretEscSeq (transport pre b s) = InterpretSGR (transport pre b s) := by
      simp [InterpretEscSeq, e1, h]
    have a2 : InterpretEscSeq s = InterpretSGR s := by simp [InterpretEscSeq, h]
    rw [a1, a2, InterpretSGR_transport]
  · by_cases hk : (defaultArg s 1).es_argc = 1
    · simp only [InterpretEscSeq, e1, e2, e3, e4, e5, h, hk, if_true, if_false, Nat.reduceEqDiff,
        or_true, true_or, or_false, false_or, not_false_eq_true, defaultArg_transport]
      split_ifs <;>
        simp [transport, SetConsoleCursorPosition]
    · simp only [InterpretEscSeq, e1, e2, e3, e4, e5, h, hk, if_true, if_false, Nat.reduceEqDiff,
        or_true, true_or, or_false, false_or, not_false_eq_true, defaultArg_transport]
      split_ifs <;>
        first
          | rfl
          | simp [transport, SetConsoleCursorPosition]
  · by_cases hk : (defaultArg s 1).es_argc = 1
    · simp only [InterpretEscSeq, e1, e2, e3, e4, e5, h, hk, if_true, if_false, Nat.reduceEqDiff,
        or_true, true_or, or_false, false_or, not_false_eq_true, defaultArg_transport]
      split_ifs <;>
        simp [transport, SetConsoleCursorPosition]
    · simp only [InterpretEscSeq, e1, e2, e3, e4, e5, h, hk, if_true, if_false, Nat.reduceEqDiff,
        or_true, true_or, or_false, false_or, not_false_eq_true, defaultArg_transport]
      split_ifs <;>
        first
          | rfl
          | simp [transport, SetConsoleCursorPosition]
  all_goals simp only [InterpretEscSeq, e1, e2, e3, e4, e5, h, if_true, if_false, Nat.reduceEqDiff, or_true, true_or, or_false, false_or, not_false_eq_true, defaultArg_transport]
  all_goals try split_ifs
  all_goals
    first
      | rfl
      | simp [transport, FillConsoleOutput, SetConsoleCursorPosition, ScrollConsoleScreenBuffer]

theorem ParseChar_transport (wc : WriteEffect) (pre : List ConOp) (b : Nat → Nat) (K : ANSI)
    (c : Nat) (hst : K.state = 3 ∨ K.state = 4) :
    ParseChar wc (transport pre b K) c = transport pre b (ParseChar wc K c) := by
  rcases hst with h3 | h4
  · rw [ParseChar_state3 wc (transport pre b K) c h3, ParseChar_state3 wc K c h3]
    by_cases hd : isdigit c = true
    · rw [if_pos hd, if_pos hd]; rfl
    · rw [if_neg hd, if_neg hd]
      by_cases hc : c = 59
      · rw [if_pos hc, if_pos hc]; rfl
      · rw [if_neg hc, if_neg hc]
        have e : ({ transport pre b K with es_argc := 0, suffix := c } : ANSI) =
            transport pre b { K with es_argc := 0, suffix := c } := rfl
        rw [e, InterpretEscSeq_transport]
        rfl
  · rw [ParseChar_state4 wc (transport pre b K) c h4, ParseChar_state4 wc K c h4]
    by_cases hd : isdigit c = true
    · rw [if_pos hd, if_pos hd]; rfl
    · rw [if_neg hd, if_neg hd]
      by_cases hc : c = 59
      · rw [if_pos hc, if_pos hc]; rfl
      · rw [if_neg hc, if_neg hc]
        have e : ({ transport pre b K with es_argc := (transport pre b K).es_argc + 1,
                                            suffix := c } : ANSI) =
            transport pre b { K with es_argc := K.es_argc + 1, suffix := c } := rfl
        rw [e, InterpretEscSeq_transport]
        rfl

theorem FlushBuffer_state (wc : WriteEffect) (x : ANSI) (k : Int) :
    FlushBuffer wc { x with state := k } = { FlushBuffer wc x with state := k } := by
  by_cases h : x.nCharInBuffer ≤ 0 <;> simp [FlushBuffer, h, WriteConsole]

theorem skeleton_empty (wc : WriteEffect) (x : ANSI) (h : x.nCharInBuffer = 0) :
    skeleton wc x = { x with trace := [], ChBuffer := fun _ => 0 } := by
  unfold skeleton
  rw [FlushBuffer_empty wc x h]

theorem transport_skeleton (wc : WriteEffect) (x : ANSI) (h : x.nCharInBuffer = 0) :
    transport x.trace x.ChBuffer (skeleton wc x) = x := by
  rw [skeleton_empty wc x h]
  simp [transport]

theorem skeleton_fields (wc : WriteEffect) (x : ANSI) :
    (skeleton wc x).state = x.state ∧ (skeleton wc x).nCharInBuffer = 0 ∧
    (skeleton wc x).con = (FlushBuffer wc x).con ∧ (skeleton wc x).hConOut = x.hConOut ∧
    (skeleton wc x).suffix = x.suffix ∧ (skeleton wc x).es_argc = x.es_argc ∧
    (skeleton wc x).es_argv = x.es_argv ∧ attrState (skeleton wc x) = attrState x ∧
    (skeleton wc x).SavePos = x.SavePos := by
  unfold skeleton FlushBuffer
  split_ifs with h
  · exact ⟨rfl, by simp only; omega, rfl, rfl, rfl, rfl, rfl, rfl, rfl⟩
  · exact ⟨rfl, rfl, rfl, rfl, rfl, rfl, rfl, rfl, rfl⟩

/-- The flushed view after a push, on a console host on which two writes in a row act as
one write of the joined text. -/
theorem skeleton_push (wc : WriteEffect) (hwc : ∀ i a b, wc (wc i a) b = wc i (a ++ b))
    (x : ANSI) (c : Nat) :
    skeleton wc (PushBuffer wc x c) = { skeleton wc x with con := wc (skeleton wc x).con [c] } ∧
    (FlushBuffer wc (PushBuffer wc x c)).trace.foldl addOp [] =
      addOp ((FlushBuffer wc x).trace.foldl addOp []) (ConOp.WriteConsole [c]) := by
  unfold skeleton
  rw [FlushBuffer_PushBuffer]
  by_cases h : x.nCharInBuffer = 0
  · have hp : pending x = [] := by simp [pending, h]
    rw [FlushBuffer_empty wc x h, hp]
    refine ⟨?_, ?_⟩
    · simp [h]
    · simp only [List.nil_append]
      exact foldl_addOp_snoc _ _
  · have hf : FlushBuffer wc x =
        { WriteConsole wc x (pending x) with nCharInBuffer := 0 } := by
      have : ¬ x.nCharInBuffer ≤ 0 := by omega
      simp [FlushBuffer, this, pending]
    rw [hf]
    refine ⟨?_, ?_⟩
    · simp [WriteConsole, hwc]
    · simp only [WriteConsole]
      rw [foldl_addOp_snoc, foldl_addOp_snoc, addOp_write_write]

theorem ParseChar_args_buffer (wc : WriteEffect) (s : ANSI) (c : Nat)
    (hst : s.state = 3 ∨ s.state = 4) :
    (ParseChar wc s c).nCharInBuffer = s.nCharInBuffer := by
  rcases hst with h3 | h4
  · rw [ParseChar_state3 wc s c h3]
    split_ifs
    · rfl
    · rfl
    · exact (InterpretEscSeq_frame { s with es_argc := 0, suffix := c }).2.2.1
  · rw [ParseChar_state4 wc s c h4]
    split_ifs
    · rfl
    · rfl
    · rfl
    · exact (InterpretEscSeq_frame { s with es_argc := s.es_argc + 1, suffix := c }).2.2.1

theorem foldl_addOp_append (a b : List ConOp) :
    (a ++ b).foldl addOp [] = b.foldl addOp (a.foldl addOp []) := by
  rw [List.foldl_append]

theorem Sim_state (wc : WriteEffect) (x y : ANSI) (k : Int) (h : Sim wc x y)
    (h3 : k ≠ 3) (h4 : k ≠ 4) : Sim wc { x with state := k } { y with state := k } := by
  obtain ⟨hs, ht, _⟩ := h
  refine ⟨?_, ?_, ?_⟩
  · have e : ∀ z : ANSI, skeleton wc { z with state := k } = { skeleton wc z with state := k } := by
      intro z
      unfold skeleton
      rw [FlushBuffer_state wc z k]
    rw [e x, e y, hs]
  · rw [FlushBuffer_state wc x k, FlushBuffer_state wc y k]
    exact ht
  · intro hk
    simp only at hk
    rcases hk with hk | hk
    · exact absurd hk h3
    · exact absurd hk h4

/-- One step of the loop keeps two runs together. -/
theorem Sim_ParseChar (wc : WriteEffect) (hwc : ∀ i a b, wc (wc i a) b = wc i (a ++ b))
    (x y : ANSI) (c : Nat) (h : Sim wc x y) : Sim wc (ParseChar wc x c) (ParseChar wc y c) := by
  have hxy : x.state = y.state := by
    have := congrArg ANSI.state h.1
    rw [(skeleton_fields wc x).1, (skeleton_fields wc y).1] at this
    exact this
  by_cases h1 : x.state = 1
  · have h1y : y.state = 1 := by rw [← hxy]; exact h1
    rw [ParseChar_state1 wc x c h1, ParseChar_state1 wc y c h1y]
    by_cases hc : c = ESC
    · rw [if_pos hc, if_pos hc]
      exact Sim_state wc x y 2 h (by decide) (by decide)
    · rw [if_neg hc, if_neg hc]
      obtain ⟨px1, px2⟩ := skeleton_push wc hwc x c
      obtain ⟨py1, py2⟩ := skeleton_push wc hwc y c
      refine ⟨by rw [px1, py1, h.1], by rw [px2, py2, h.2.1], ?_⟩
      intro hk
      rw [(PushBuffer_frame wc x c).2.1, h1] at hk
      rcases hk with hk | hk <;> simp at hk
  by_cases h2 : x.state = 2
  · have h2y : y.state = 2 := by rw [← hxy]; exact h2
    rw [ParseChar_state2 wc x c h2, ParseChar_state2 wc y c h2y]
    by_cases hc : c = ESC
    · rw [if_pos hc, if_pos hc]
      exact h
    · rw [if_neg hc, if_neg hc]
      by_cases hb : c = 91
      · rw [if_pos hb, if_pos hb]
        have e : ∀ z : ANSI, ({ FlushBuffer wc z with state := 3 } : ANSI) =
            FlushBuffer wc { z with state := 3 } := fun z => (FlushBuffer_state wc z 3).symm
        have ef : ∀ z : ANSI, FlushBuffer wc (FlushBuffer wc { z with state := 3 }) =
            { FlushBuffer wc z with state := 3 } := by
          intro z
          rw [FlushBuffer_idem, FlushBuffer_state wc z 3]
        have es : ∀ z : ANSI, skeleton wc (FlushBuffer wc { z with state := 3 }) =
            { skeleton wc z with state := 3 } := by
          intro z
          unfold skeleton
          rw [ef]
        rw [e x, e y]
        refine ⟨by rw [es x, es y, h.1], by rw [ef x, ef y]; exact h.2.1, ?_⟩
        intro _
        exact ⟨FlushBuffer_nCharInBuffer wc _, FlushBuffer_nCharInBuffer wc _⟩
      · rw [if_neg hb, if_neg hb]
        exact Sim_state wc x y 1 h (by decide) (by decide)
  by_cases h34 : x.state = 3 ∨ x.state = 4
  · have h34y : y.state = 3 ∨ y.state = 4 := by rw [← hxy]; exact h34
    obtain ⟨hx0, hy0⟩ := h.2.2 h34
    have hK : (skeleton wc x).state = 3 ∨ (skeleton wc x).state = 4 := by
      rw [(skeleton_fields wc x).1]; exact h34
    have ex : ParseChar wc x c =
        transport x.trace x.ChBuffer (ParseChar wc (skeleton wc x) c) := by
      rw [← ParseChar_transport wc _ _ _ c hK, transport_skeleton wc x hx0]
    have ey : ParseChar wc y c =
        transport y.trace y.ChBuffer (ParseChar wc (skeleton wc x) c) := by
      rw [h.1, ← ParseChar_transport wc _ _ _ c (by rw [← h.1]; exact hK),
        transport_skeleton wc y hy0]
    have hn : (ParseChar wc (skeleton wc x) c).nCharInBuffer = 0 := by
      rw [ParseChar_args_buffer wc _ c hK]
      exact (skeleton_fields wc x).2.1
    have htx : (FlushBuffer wc x).trace = x.trace := by rw [FlushBuffer_empty wc x hx0]
    have hty : (FlushBuffer wc y).trace = y.trace := by rw [FlushBuffer_empty wc y hy0]
    have ht := h.2.1
    rw [htx, hty] at ht
    rw [ex, ey]
    generalize ParseChar wc (skeleton wc x) c = K at hn
    have hfl : ∀ (t : List ConOp) (b : Nat → Nat),
        FlushBuffer wc (transport t b K) = transport t b K :=
      fun t b => FlushBuffer_empty wc _ hn
    refine ⟨?_, ?_, fun _ => ⟨hn, hn⟩⟩
    · unfold skeleton
      rw [hfl, hfl]
      rfl
    · rw [hfl, hfl]
      show (x.trace ++ K.trace).foldl addOp [] = (y.trace ++ K.trace).foldl addOp []
      rw [foldl_addOp_append, foldl_addOp_append, ht]
  · have h3 : x.state ≠ 3 := fun e => h34 (Or.inl e)
    have h4 : x.state ≠ 4 := fun e => h34 (Or.inr e)
    rw [ParseChar_idle wc x c h1 h2 h3 h4,
      ParseChar_idle wc y c (by rw [← hxy]; exact h1) (by rw [← hxy]; exact h2)
        (by rw [← hxy]; exact h3) (by rw [← hxy]; exact h4)]
    exact h

theorem Sim_ParseLoop (wc : WriteEffect) (hwc : ∀ i a b, wc (wc i a) b = wc i (a ++ b))
    (input : List Nat) :
    ∀ x y : ANSI, Sim wc x y → Sim wc (ParseLoop wc x input) (ParseLoop wc y input) := by
  induction input with
  | nil => intro x y h; exact h
  | cons c cs ih =>
    intro x y h
    rw [ParseLoop_cons, ParseLoop_cons]
    exact ih _ _ (Sim_ParseChar wc hwc x y c h)

theorem ParseAndPrintString_hConOut (wc : WriteEffect) (s : ANSI) (hDev : Nat)
    (input : List Nat) : (ParseAndPrintString wc s hDev input).1.hConOut = hDev := by
  simp only [ParseAndPrintString]
  rw [(FlushBuffer_frame wc _).1, ParseLoop_hConOut]
  split_ifs with h
  · rfl
  · exact (not_not.mp h).symm

/-- Two runs that differ at most in when the print buffer was flushed have the same
outcome once the buffer is flushed. -/
theorem Sim_outcome (wc : WriteEffect) (x y : ANSI) (h : Sim wc x y) :
    outcome (FlushBuffer wc x) = outcome (FlushBuffer wc y) := by
  obtain ⟨hs, ht, _⟩ := h
  have hsk : ∀ z : ANSI, skeleton wc (FlushBuffer wc z) = skeleton wc z := by
    intro z
    unfold skeleton
    rw [FlushBuffer_idem]
  have hf : ∀ z : ANSI,
      outcome (FlushBuffer wc z) =
        ((skeleton wc z).hConOut, (skeleton wc z).state, (skeleton wc z).suffix,
         (skeleton wc z).es_argc, (skeleton wc z).es_argv, attrState (skeleton wc z),
         (skeleton wc z).SavePos, (skeleton wc z).con,
         ((FlushBuffer wc z).trace.foldl addOp []).reverse) := by
    intro z
    obtain ⟨a1, -, a3, a4, a5, a6, a7, a8, a9⟩ := skeleton_fields wc (FlushBuffer wc z)
    rw [hsk z] at a1 a3 a4 a5 a6 a7 a8 a9
    rw [FlushBuffer_idem] at a3
    rw [a1, a3, a4, a5, a6, a7, a8, a9]
    rfl
  rw [hf x, hf y, hs, ht]

/-- C27: on a console host on which two text writes in a row act on the reported
information as one write of the joined text, and from globals with an empty print buffer
(as every call leaves it): for every input `s1 ++ s2`, cut at any place, the call of
`ParseAndPrintString` on `s1` followed by the call on `s2` with the same handle has the
same outcome as the one call on `s1 ++ s2` - the same handle, automaton state and
arguments, attribute globals, saved position, console information, and the same console
calls once the successive text writes are joined. -/
theorem C27_chunking (wc : WriteEffect) (hwc : ∀ i a b, wc (wc i a) b = wc i (a ++ b))
    (s : ANSI) (hDev : Nat) (s1 s2 : List Nat) (hbuf : s.nCharInBuffer = 0) :
    outcome (ParseAndPrintString wc (ParseAndPrintString wc s hDev s1).1 hDev s2).1 =
      outcome (ParseAndPrintString wc s hDev (s1 ++ s2)).1 ∧
    (ParseAndPrintString wc (ParseAndPrintString wc s hDev s1).1 hDev s2).1.nCharInBuffer = 0 ∧
    (ParseAndPrintString wc s hDev (s1 ++ s2)).1.nCharInBuffer = 0 := by
  have hrec := ParseAndPrintString_hConOut wc s hDev s1
  have h2 : (ParseAndPrintString wc (ParseAndPrintString wc s hDev s1).1 hDev s2).1 =
      FlushBuffer wc (ParseLoop wc (ParseAndPrintString wc s hDev s1).1 s2) := by
    simp only [ParseAndPrintString] at hrec ⊢
    rw [hrec]
    simp
  rw [h2]
  simp only [ParseAndPrintString]
  generalize hs0 : (if hDev ≠ s.hConOut then
      ({ s with hConOut := hDev, state := 1 } : ANSI) else s) = s0
  have hb0 : s0.nCharInBuffer = 0 := by
    rw [← hs0]
    split_ifs
    · exact hbuf
    · exact hbuf
  refine ⟨?_, FlushBuffer_nCharInBuffer wc _, FlushBuffer_nCharInBuffer wc _⟩
  rw [ParseLoop_append]
  obtain ⟨-, i2, -⟩ := ParseLoop_buffer wc s1 s0 (by rw [hb0]; decide) (fun _ => hb0)
  generalize ParseLoop wc s0 s1 = m at i2
  have hsim : Sim wc (FlushBuffer wc m) m := by
    refine ⟨?_, ?_, ?_⟩
    · unfold skeleton
      rw [FlushBuffer_idem]
    · rw [FlushBuffer_idem]
    · intro hk
      rw [(FlushBuffer_frame wc m).2.1] at hk
      exact ⟨FlushBuffer_nCharInBuffer wc m, i2 hk⟩
  exact Sim_outcome wc _ _ (Sim_ParseLoop wc hwc s2 _ _ hsim)

theorem lineConsole_joins (i : CONSOLE_SCREEN_BUFFER_INFO) (a b : List Nat) :
    lineConsole (lineConsole i a) b = lineConsole i (a ++ b) := by
  simp only [lineConsole, List.length_append, Nat.cast_add]
  congr 2
  omega

/-- Witness of C27: `AB ESC [ 3` and `1 m C` written in two calls give the outcome of
`AB ESC [ 31 m C` written in one call. -/
theorem C27_chunking_witness :
    outcome (ParseAndPrintString lineConsole
        (ParseAndPrintString lineConsole (sample 80 25 0 0 7) 1 [65, 66, ESC, 91, 51]).1 1
        [49, 109, 67]).1 =
      outcome (ParseAndPrintString lineConsole (sample 80 25 0 0 7) 1
        ([65, 66, ESC, 91, 51] ++ [49, 109, 67])).1 :=
  (C27_chunking lineConsole lineConsole_joins (sample 80 25 0 0 7) 1 [65, 66, ESC, 91, 51]
    [49, 109, 67] rfl).1

/-- Evaluation: `ABCD` written as `AB` and `CD` makes two text writes where one call makes
one, and the joined traces are the same. -/
theorem chunking_example :
    (ParseAndPrintString lineConsole
        (ParseAndPrintString lineConsole (sample 80 25 0 0 7) 1 [65, 66]).1 1
        [67, 68]).1.trace = [ConOp.WriteConsole [65, 66], ConOp.WriteConsole [67, 68]] ∧
    (ParseAndPrintString lineConsole (sample 80 25 0 0 7) 1 [65, 66, 67, 68]).1.trace =
      [ConOp.WriteConsole [65, 66, 67, 68]] ∧
    mergeWrites [ConOp.WriteConsole [65, 66], ConOp.WriteConsole [67, 68]] =
      [ConOp.WriteConsole [65, 66, 67, 68]] := by
  decide

end Ansicon
